import Mathlib

/-!
# Memory game: state machine and matching engine

A shallow embedding of `Game.cpp` / `Game.h` / `Database.cpp` of the memory-matching
card game, and theorems about it.

Conventions of the embedding.

* C++ `int` fields are `Int`; no counter of the game comes near `2^31`, so
  wrap-around is not modelled.
* Time is counted in whole microseconds (the resolution of `sf::Time`);
  `cardFlipTime = 0.3f` is `300000`, the settle delay `0.8f` is `800000`.
* `CardSprite*` pointers into `cards` are modelled as indices into `cards`
  (`Option Nat`, `none` for `nullptr`).
* What the program reads from its surroundings during one input event (directory
  listing, random draws, image loading, wall-clock date, outcome of the SQL insert)
  is collected in a `World` value that is passed to the transition function.
* Calls to the sound collaborator and to `Database::saveGame` are recorded in the
  ghost list `signals`.
-/

namespace MemoryGame

/-! ## Enumerations (Game.h, Card.h) -/

/-- Top-level mode of the game, `enum class GameState` of Game.h. -/
inductive GameState where
  | MAIN_MENU | ENTER_NAME | SETUP | PLAYING | PAUSED
  | GAME_OVER_WIN | GAME_OVER_LOSE | LEADERBOARD | SETTINGS | CONTACT_FORM | EXIT
deriving DecidableEq, Repr

/-- Difficulty levels, `enum class Difficulty` of Game.h. -/
inductive Difficulty where
  | EASY | MEDIUM | HARD | EXPERT
deriving DecidableEq, Repr

/-- Modelled from the spec: `CardTheme` of Card.h (not among the sources); its five
enumerators are the ones the switches of Game.cpp name. -/
inductive CardTheme where
  | ANIMALS | FRUITS | EMOJI | MEMES | SYMBOLS
deriving DecidableEq, Repr

/-- Modelled from the spec: `CardState` of GUI/CardSprite.h, the reveal state of a card:
Hidden, Revealed or Matched. -/
inductive CardState where
  | HIDDEN | REVEALED | MATCHED
deriving DecidableEq, Repr

/-! ## Cards and card sprites -/

/-- Modelled from the spec: `Card` of Card.h, built by `Card(id, symbol, theme)` and read
through `getId()` and `getSymbol()`. -/
structure Card where
  id : Int
  symbol : String
  theme : CardTheme
deriving DecidableEq, Repr

/-- Modelled from the spec: `CardSprite` of GUI/CardSprite.h, reduced to what the game
logic reads: identity, symbol, reveal state and click eligibility. -/
structure CardSprite where
  id : Int
  symbol : String
  state : CardState
  isClickable : Bool
deriving DecidableEq, Repr

namespace CardSprite

/-- Modelled from the spec: `CardSprite::reveal()`, the card becomes Revealed. -/
def reveal (c : CardSprite) : CardSprite := { c with state := CardState.REVEALED }

/-- Modelled from the spec: `CardSprite::hide()`, the card becomes Hidden. -/
def hide (c : CardSprite) : CardSprite := { c with state := CardState.HIDDEN }

/-- Modelled from the spec: `CardSprite::markMatched()`, the card becomes Matched. -/
def markMatched (c : CardSprite) : CardSprite := { c with state := CardState.MATCHED }

/-- Modelled from the spec: `CardSprite::setClickable(b)`. -/
def setClickable (c : CardSprite) (b : Bool) : CardSprite := { c with isClickable := b }

/-- Modelled from the spec: `CardSprite::setSymbol(s, font)`, replaces the symbol. -/
def setSymbol (c : CardSprite) (s : String) : CardSprite := { c with symbol := s }

/-- Modelled from the spec: the constructor `CardSprite(id, symbol, x, y, size)`. The reveal
state and click eligibility it leaves are overwritten by `createCardSprites` at once. -/
def create (id : Int) (symbol : String) : CardSprite := ⟨id, symbol, CardState.HIDDEN, false⟩

end CardSprite

/-! ## Layout table (switch at the head of `Game::initializeCards`) -/

/-- Rows of the board for a difficulty. -/
def layoutRows : Difficulty → Int
  | .EASY => 3 | .MEDIUM => 4 | .HARD => 4 | .EXPERT => 6

/-- Columns of the board for a difficulty. -/
def layoutCols : Difficulty → Int
  | .EASY => 4 | .MEDIUM => 4 | .HARD => 6 | .EXPERT => 6

/-- Number of pairs for a difficulty. -/
def layoutPairs : Difficulty → Int
  | .EASY => 6 | .MEDIUM => 8 | .HARD => 12 | .EXPERT => 18

/-- Folder name of a theme (second switch of `Game::initializeCards`). -/
def themeFolder : CardTheme → String
  | .ANIMALS => "animals" | .FRUITS => "fruits" | .EMOJI => "emoji"
  | .MEMES => "memes" | .SYMBOLS => "symbols"

/-- The directory searched for images: `"assets/images/" + themeFolder + "/"`. -/
def imageDir (t : CardTheme) : String := "assets/images/" ++ themeFolder t ++ "/"

/-! ## Deck building (`Game::initializeCards`, steps 3 to 7) -/

/-- Step 3: when no image file was found, the names `image1.png` .. `image<totalPairs>.png`
in the theme directory are used instead. -/
def fallbackImages (t : CardTheme) (totalPairs : Int) (availableImages : List String) :
    List String :=
  if availableImages.isEmpty then
    (List.range totalPairs.toNat).map
      (fun k => imageDir t ++ "image" ++ toString (k + 1) ++ ".png")
  else availableImages

/-- Element access `v[i % v.size()]`; with an empty vector the remainder is a division
by zero, which is reported as `none`. -/
def cyclicAt (v : List String) (i : Nat) : Option String :=
  if v.length = 0 then none else v[i % v.length]?

/-- Step 4, first loop: `for (i = 0; i < imagesToUse; i++) push_back(avail[i % size])`
with `imagesToUse = min(totalPairs, size)`. -/
def takeFirst (availableImages : List String) (totalPairs : Int) : Option (List String) :=
  (List.range (min totalPairs (availableImages.length : Int)).toNat).foldlM
    (fun acc i => (cyclicAt availableImages i).map (fun s => acc ++ [s])) []

/-- Step 4, second loop: `while (paired.size() < totalPairs) push_back(avail[paired.size() % size])`.
Every round adds one element, so the loop runs `totalPairs - paired.size()` times; the first
argument is that number of rounds. -/
def padPairs (availableImages : List String) : Nat → List String → Option (List String)
  | 0, paired => some paired
  | n + 1, paired =>
    match cyclicAt availableImages paired.length with
    | none => none
    | some s => padPairs availableImages n (paired ++ [s])

/-- Step 4 as a whole: the list `pairedImages`. -/
def pairedImages (availableImages : List String) (totalPairs : Int) : Option (List String) :=
  match takeFirst availableImages totalPairs with
  | none => none
  | some p => padPairs availableImages (totalPairs - (p.length : Int)).toNat p

/-- Step 5: `for (i = 0; i < totalPairs; i++)` two cards with ids `cardId++` and the image
`pairedImages[i]` are appended. The state of the loop is the deck and `cardId`. -/
def createPairs (paired : List String) (t : CardTheme) (totalPairs : Int) :
    Option (List Card × Int) :=
  (List.range totalPairs.toNat).foldlM
    (fun (st : List Card × Int) i =>
      (paired[i]?).map (fun imagePath =>
        (st.1 ++ [Card.mk st.2 imagePath t, Card.mk (st.2 + 1) imagePath t], st.2 + 2)))
    ([], 0)

/-- Exchange of the elements at positions `i` and `j` (`std::iter_swap`). -/
def swapAt {α : Type} (l : List α) (i j : Nat) : List α :=
  match l[i]?, l[j]? with
  | some a, some b => (l.set i b).set j a
  | _, _ => l

/-- Rounds `i, i+1, ..` of the shuffle; the first argument counts the rounds left. -/
def shuffleFrom {α : Type} (rnd : Nat → Nat) : Nat → Nat → List α → List α
  | 0, _, l => l
  | n + 1, i, l => shuffleFrom rnd n (i + 1) (swapAt l i (rnd i % (i + 1)))

/-- Step 6: `std::shuffle(begin, end, g)`. The library routine is the Fisher-Yates loop
`for (i = 1; i < n; ++i) iter_swap(first + i, first + d)` where `d` is drawn from `[0, i]`;
`rnd i` is the raw value the generator yields in round `i`. -/
def shuffle {α : Type} (rnd : Nat → Nat) (l : List α) : List α :=
  shuffleFrom rnd (l.length - 1) 1 l

/-- Step 7, the branch taken when the size is wrong: `resize(totalCards)` when the deck is
too long, otherwise cards with images `pairedImages[size % pairedImages.size()]` are appended;
the first argument counts the cards still missing. -/
def padDeck (paired : List String) (t : CardTheme) :
    Nat → List Card → Int → Option (List Card × Int)
  | 0, deck, cardId => some (deck, cardId)
  | n + 1, deck, cardId =>
    match cyclicAt paired deck.length with
    | none => none
    | some fb => padDeck paired t n (deck ++ [Card.mk cardId fb t]) (cardId + 1)

/-- Step 7: the size check and its correction. -/
def correctSize (paired : List String) (t : CardTheme) (totalCards : Int)
    (deck : List Card) (cardId : Int) : Option (List Card) :=
  if (deck.length : Int) = totalCards then some deck
  else if (deck.length : Int) > totalCards then some (deck.take totalCards.toNat)
  else (padDeck paired t (totalCards - (deck.length : Int)).toNat deck cardId).map Prod.fst

/-- The deck as it stands after step 5, before shuffling. -/
def orderedDeck (d : Difficulty) (t : CardTheme) (availableImages : List String) :
    Option (List Card × Int) :=
  match pairedImages (fallbackImages t (layoutPairs d) availableImages) (layoutPairs d) with
  | none => none
  | some paired => createPairs paired t (layoutPairs d)

/-- The deck when control reaches the size check of step 7 (after the shuffle). -/
def deckAtCheck (d : Difficulty) (t : CardTheme) (availableImages : List String)
    (rnd : Nat → Nat) : Option (List Card) :=
  (orderedDeck d t availableImages).map (fun st => shuffle rnd st.1)

/-- Steps 3 to 7 of `Game::initializeCards`: the final `gameCards`, or `none` when an
element access fails. -/
def buildDeck (d : Difficulty) (t : CardTheme) (availableImages : List String)
    (rnd : Nat → Nat) : Option (List Card) :=
  let avail := fallbackImages t (layoutPairs d) availableImages
  match pairedImages avail (layoutPairs d) with
  | none => none
  | some paired =>
    match createPairs paired t (layoutPairs d) with
    | none => none
    | some (deck, cardId) =>
      correctSize paired t (layoutRows d * layoutCols d) (shuffle rnd deck) cardId

/-! ## Player, records and the persistence gateway -/

/-- Modelled from the spec: `Player` of Player.h (not among the sources): name, move count,
matched-pair count, computed score and finished flag. -/
structure Player where
  name : String
  moves : Int
  matchedPairs : Int
  score : Int
  finished : Bool
deriving DecidableEq, Repr

/-- Modelled from the spec: the scoring policy behind `Player::calculateScore`, a pure
function of matched pairs, moves and total pairs whose coefficients the spec leaves open. -/
abbrev ScorePolicy := Int → Int → Int → Int

namespace Player

/-- Modelled from the spec: the constructor `Player(name)`. -/
def create (name : String) : Player := ⟨name, 0, 0, 0, false⟩

/-- Modelled from the spec: `Player::startGame()`, counters back to zero. -/
def startGame (p : Player) : Player :=
  { p with moves := 0, matchedPairs := 0, score := 0, finished := false }

/-- Modelled from the spec: `Player::incrementMoves()`. -/
def incrementMoves (p : Player) : Player := { p with moves := p.moves + 1 }

/-- Modelled from the spec: `Player::incrementMatchedPairs()`. -/
def incrementMatchedPairs (p : Player) : Player := { p with matchedPairs := p.matchedPairs + 1 }

/-- Modelled from the spec: `Player::calculateScore(totalPairs)` under a scoring policy. -/
def calculateScore (pol : ScorePolicy) (p : Player) (totalPairs : Int) : Player :=
  { p with score := pol p.matchedPairs p.moves totalPairs }

/-- Modelled from the spec: `Player::finishGame()`. -/
def finishGame (p : Player) : Player := { p with finished := true }

end Player

/-- The values of the field `double time` of a record as far as the database tells them
apart: a number, which for the times of the game is a duration in microseconds, or NaN,
which `sqlite3_bind_double` binds as NULL. -/
inductive TimeValue where
  | number (micros : Nat)
  | nan
deriving DecidableEq, Repr

/-- The persisted record, `struct GameRecord` of Database.h. -/
structure GameRecord where
  id : Int
  playerName : String
  score : Int
  moves : Int
  pairs : Int
  time : TimeValue
  date : String
  difficulty : String
deriving DecidableEq, Repr

/-- The table `games` behind `class Database`: its rows in insertion order, each as the
queries read it back into a `GameRecord`. -/
structure Database where
  rows : List GameRecord
deriving DecidableEq, Repr

/-- The text SQLite stores for `sqlite3_bind_text(stmt, k, s.c_str(), -1, SQLITE_STATIC)`:
with the length `-1` the text ends at the first zero terminator of `s`. -/
def cText (s : String) : String := String.mk (s.data.takeWhile (fun c => c ≠ Char.ofNat 0))

/-- The order `ORDER BY score DESC` asks for: the first record has no lower score than the
second. -/
def byScore (a b : GameRecord) : Prop := a.score ≥ b.score

instance byScoreDecidable : DecidableRel byScore :=
  fun a b => inferInstanceAs (Decidable (a.score ≥ b.score))

namespace Database

/-- The id `AUTOINCREMENT` gives the next row: one more than the largest id in use. -/
def nextId (db : Database) : Int := (db.rows.map (fun r => r.id)).foldl max 0 + 1

/-- `Database::saveGame`: the insert binds every field but the id, the three texts as C
strings. `ok` tells whether the store is available, that is `sqlite3_prepare_v2` succeeds
and `sqlite3_step` meets no error of the engine; the step then returns `SQLITE_DONE` unless
a constraint of the table fails. Every column of `games` is `NOT NULL` (`initialize`), and of
the bound values only a NaN time is NULL. The result is the table and the returned flag. -/
def saveGame (ok : Bool) (db : Database) (record : GameRecord) : Database × Bool :=
  if ok = true ∧ record.time ≠ TimeValue.nan then
    (⟨db.rows ++ [{ record with
        id := db.nextId
        playerName := cText record.playerName
        date := cText record.date
        difficulty := cText record.difficulty }]⟩, true)
  else (db, false)

/-- `Database::getTopScores(limit)`: the rows of
`SELECT * FROM games ORDER BY score DESC LIMIT <limit>`. `ok` tells whether
`sqlite3_prepare_v2` succeeds; when it fails the result is empty. For SQLite a negative
`LIMIT` is no limit. SQL leaves the order of rows with equal score open; here they stay in
insertion order. -/
def getTopScores (ok : Bool) (db : Database) (limit : Int) : List GameRecord :=
  if !ok then []
  else
    let sorted := db.rows.insertionSort byScore
    if limit < 0 then sorted else sorted.take limit.toNat

end Database

/-- Calls the game makes to its sound and persistence collaborators. -/
inductive Signal where
  | cardFlip | cardMatch | cardMismatch | gameWin | gameLose
  | saveGame (record : GameRecord)
deriving DecidableEq, Repr

/-- What the surroundings answer while one input is handled: the image files found in the
theme directory, the raw draws of the random generator, whether an image path loads, the
current date string and whether the database is available for an insert. -/
structure World where
  availableImages : List String
  rnd : Nat → Nat
  loadImage : String → Bool
  date : String
  saveOk : Bool

/-! ## The game object (Game.h) -/

/-- The fields of `class Game` that the game logic reads or writes. -/
structure Game where
  windowOpen : Bool
  gameClock : Nat
  elapsedTime : Nat
  cards : List CardSprite
  player : Option Player
  database : Option Database
  gameCards : List Card
  playerNameInput : String
  isEnteringName : Bool
  currentState : GameState
  previousState : GameState
  difficulty : Difficulty
  currentTheme : CardTheme
  rows : Int
  cols : Int
  totalPairs : Int
  matchedPairs : Int
  moves : Int
  isGameActive : Bool
  firstCardSelected : Bool
  selectedCard1 : Int
  selectedCard2 : Int
  cardFlipProgress : Nat
  isFlipping : Bool
  firstCard : Option Nat
  secondCard : Option Nat
  isChecking : Bool
  hasWon : Bool
  signals : List Signal
deriving DecidableEq, Repr

/-- The constant `cardFlipTime(0.3f)`, in microseconds. -/
def cardFlipTime : Nat := 300000

/-- The busy-wait of `processCardMatch` after a mismatch, `0.8f` seconds, in microseconds. -/
def settleDelay : Nat := 800000

/-- State after the constructor `Game::Game()`. The database is present when it could be
opened; `isEnteringName` has no initializer. -/
def Game.init (db : Option Database) (isEnteringName : Bool) : Game where
  windowOpen := true
  gameClock := 0
  elapsedTime := 0
  cards := []
  player := none
  database := db
  gameCards := []
  playerNameInput := ""
  isEnteringName := isEnteringName
  currentState := .MAIN_MENU
  previousState := .MAIN_MENU
  difficulty := .MEDIUM
  currentTheme := .ANIMALS
  rows := 4
  cols := 4
  totalPairs := 8
  matchedPairs := 0
  moves := 0
  isGameActive := false
  firstCardSelected := false
  selectedCard1 := -1
  selectedCard2 := -1
  cardFlipProgress := 0
  isFlipping := false
  firstCard := none
  secondCard := none
  isChecking := false
  hasWon := false
  signals := []

/-- Applies `f` to the sprite a pointer refers to (`ptr->f()`). -/
def updCard (cards : List CardSprite) (i : Nat) (f : CardSprite → CardSprite) :
    List CardSprite :=
  match cards[i]? with
  | some c => cards.set i (f c)
  | none => cards

/-- `Game::getDifficultyString`. -/
def getDifficultyString (g : Game) : String :=
  match g.difficulty with
  | .EASY => "Easy" | .MEDIUM => "Medium" | .HARD => "Hard" | .EXPERT => "Expert"

/-! ### `Game::resetGame` and what it calls -/

/-- `Game::initializeCards`: the layout switch, then steps 1 to 7 on the directory listing
and random draws of `w`. A failing element access would end the program; `buildDeck` never
fails (`buildDeck_eq`), so the default `[]` is never used. -/
@[simps]
def initializeCards (w : World) (g : Game) : Game :=
  { g with
    rows := layoutRows g.difficulty
    cols := layoutCols g.difficulty
    totalPairs := layoutPairs g.difficulty
    gameCards := (buildDeck g.difficulty g.currentTheme w.availableImages w.rnd).getD [] }

/-- Body of the loop of `Game::createCardSprites` for board position `i`: the sprite is
created with the image path as symbol; when the image does not load, the symbol becomes
`"IMG" + to_string((i % totalPairs) + 1)`; then `setClickable(true)` and `hide()`. -/
def makeSprite (w : World) (totalPairs : Int) (i : Nat) (cardData : Card) : CardSprite :=
  let cardSprite : CardSprite := CardSprite.create cardData.id cardData.symbol
  let cardSprite :=
    if w.loadImage cardData.symbol then cardSprite
    else cardSprite.setSymbol ("IMG" ++ toString (Int.tmod (i : Int) totalPairs + 1))
  (cardSprite.setClickable true).hide

/-- `Game::createCardSprites`: one sprite for each `i < rows * cols`, `i < gameCards.size()`. -/
@[simps]
def createCardSprites (w : World) (g : Game) : Game :=
  { g with
    cards := ((g.gameCards.take (g.rows * g.cols).toNat).enum).map
      (fun ic => makeSprite w g.totalPairs ic.1 ic.2) }

/-- The head of `Game::resetGame`: counters and selection are reset, both card vectors are
cleared and `player->startGame()` is called. -/
@[simps]
def clearSession (g : Game) : Game :=
  { g with
    matchedPairs := 0, moves := 0, isGameActive := false, firstCardSelected := false
    selectedCard1 := -1, selectedCard2 := -1, firstCard := none, secondCard := none
    isChecking := false, isFlipping := false, cardFlipProgress := 0, hasWon := false
    cards := [], gameCards := []
    player := g.player.map Player.startGame }

/-- The tail of `Game::resetGame`: `gameClock.restart(); elapsedTime = sf::Time::Zero`. -/
@[simps]
def restartTimer (g : Game) : Game := { g with gameClock := 0, elapsedTime := 0 }

/-- `Game::resetGame`. -/
def resetGame (w : World) (g : Game) : Game :=
  restartTimer (createCardSprites w (initializeCards w (clearSession g)))

/-! ### `Game::handleCardClick` -/

/-- The card at `i` is turned over: flip sound, `reveal()`, `setClickable(false)`. -/
@[simps]
def flipCard (g : Game) (i : Nat) : Game :=
  { g with
    signals := g.signals ++ [Signal.cardFlip]
    cards := updCard (updCard g.cards i CardSprite.reveal) i (fun s => s.setClickable false) }

/-- The branch `if (!firstCardSelected)` of `Game::handleCardClick`. -/
@[simps]
def selectFirst (g : Game) (cardIndex : Int) : Game :=
  { g with
    firstCardSelected := true, selectedCard1 := cardIndex
    firstCard := some cardIndex.toNat, isFlipping := true, cardFlipProgress := 0 }

/-- The `else` branch of `Game::handleCardClick`: the second card of a move. -/
@[simps]
def selectSecond (g : Game) (cardIndex : Int) : Game :=
  { g with
    selectedCard2 := cardIndex, secondCard := some cardIndex.toNat
    isFlipping := true, cardFlipProgress := 0
    moves := g.moves + 1
    player := g.player.map Player.incrementMoves
    firstCardSelected := false }

/-- `Game::handleCardClick`. The vector `cards` holds no null pointer, so the third test,
`!cards[cardIndex]`, never succeeds; in the embedding it is the case `none` of the lookup. -/
def handleCardClick (g : Game) (cardIndex : Int) : Game :=
  if !g.isGameActive || g.isFlipping || g.isChecking then g
  else if cardIndex < 0 || cardIndex ≥ (g.cards.length : Int) then g
  else
    match g.cards[cardIndex.toNat]? with
    | none => g
    | some c =>
      if c.state = CardState.HIDDEN && !c.isClickable then g
      else
        let g := flipCard g cardIndex.toNat
        if !g.firstCardSelected then selectFirst g cardIndex
        else selectSecond g cardIndex

/-! ### `Game::saveGameResult` and `Game::processCardMatch` -/

/-- The record `Game::saveGameResult` fills in for player `p`. The id is left to the
database. -/
def resultRecord (w : World) (g : Game) (p : Player) : GameRecord :=
  ⟨0, p.name, p.score, g.moves, g.matchedPairs, TimeValue.number g.elapsedTime, w.date,
    getDifficultyString g⟩

/-- The call `database->saveGame(record)` on the database `db` of the game. -/
@[simps]
def storeRecord (w : World) (g : Game) (db : Database) (record : GameRecord) : Game :=
  { g with
    database := some (db.saveGame w.saveOk record).1
    signals := g.signals ++ [Signal.saveGame record] }

/-- `Game::saveGameResult`: nothing happens without a player or without a database. -/
def saveGameResult (w : World) (g : Game) : Game :=
  match g.player, g.database with
  | some p, some db => storeRecord w g db (resultRecord w g p)
  | _, _ => g

/-- The comparison `firstCard->getSymbol() == secondCard->getSymbol()`. -/
def symbolsMatch (g : Game) (fc sc : Nat) : Bool :=
  (g.cards[fc]?).map (fun c => c.symbol) = (g.cards[sc]?).map (fun c => c.symbol)

/-- The branch `if (match)` of `Game::processCardMatch` up to the victory check: match
sound, both cards marked, `matchedPairs++`, the player's pairs and score updated. -/
@[simps]
def markPair (pol : ScorePolicy) (g : Game) (fc sc : Nat) : Game :=
  { g with
    signals := g.signals ++ [Signal.cardMatch]
    cards := updCard (updCard g.cards fc CardSprite.markMatched) sc CardSprite.markMatched
    matchedPairs := g.matchedPairs + 1
    player := g.player.map (fun p => (p.incrementMatchedPairs).calculateScore pol g.totalPairs) }

/-- `hasWon = true; isGameActive = false;` -/
@[simps]
def declareWon (g : Game) : Game := { g with hasWon := true, isGameActive := false }

/-- `player->finishGame(); player->calculateScore(totalPairs);` for the player `p`. -/
@[simps]
def finishPlayer (pol : ScorePolicy) (g : Game) (p : Player) : Game :=
  { g with player := some ((p.finishGame).calculateScore pol g.totalPairs) }

/-- Win sound and `currentState = GameState::GAME_OVER_WIN`. -/
@[simps]
def announceWin (g : Game) : Game :=
  { g with signals := g.signals ++ [Signal.gameWin], currentState := GameState.GAME_OVER_WIN }

/-- The body of `if (matchedPairs >= totalPairs && !hasWon)` in `Game::processCardMatch`,
which ends with `return`. -/
def winGame (pol : ScorePolicy) (w : World) (g : Game) : Game :=
  let g := declareWon g
  let g :=
    match g.player with
    | some p => saveGameResult w (finishPlayer pol g p)
    | none => g
  announceWin g

/-- The `else` branch of `if (match)`: mismatch sound, `isChecking = false`, the busy wait
of 0.8 s, then both cards are hidden and made clickable again. -/
@[simps]
def hidePair (g : Game) (fc sc : Nat) : Game :=
  { g with
    signals := g.signals ++ [Signal.cardMismatch]
    isChecking := false
    gameClock := g.gameClock + settleDelay
    cards := updCard (updCard (updCard (updCard g.cards fc CardSprite.hide)
      sc CardSprite.hide) fc (fun s => s.setClickable true))
      sc (fun s => s.setClickable true) }

/-- The body of the final `if (currentState != GameState::GAME_OVER_WIN)`. -/
@[simps]
def clearSelection (g : Game) : Game :=
  { g with
    firstCard := none, secondCard := none
    selectedCard1 := -1, selectedCard2 := -1, isChecking := false }

/-- `Game::processCardMatch`. -/
def processCardMatch (pol : ScorePolicy) (w : World) (g : Game) : Game :=
  match g.firstCard, g.secondCard with
  | some fc, some sc =>
    if !g.isChecking then g
    else if symbolsMatch g fc sc then
      let g := markPair pol g fc sc
      if g.matchedPairs ≥ g.totalPairs && !g.hasWon then winGame pol w g
      else if g.currentState ≠ GameState.GAME_OVER_WIN then clearSelection g
      else g
    else
      let g := hidePair g fc sc
      if g.currentState ≠ GameState.GAME_OVER_WIN then clearSelection g
      else g
  | _, _ => g

/-! ### `Game::update` -/

/-- `elapsedTime = gameClock.getElapsedTime()`. -/
@[simps]
def recordElapsed (g : Game) : Game := { g with elapsedTime := g.gameClock }

/-- `Game::updateStats`, as far as the game logic goes: the score is recomputed. -/
@[simps]
def updateStats (pol : ScorePolicy) (g : Game) : Game :=
  { g with player := g.player.map (fun p => p.calculateScore pol g.totalPairs) }

/-- `cardFlipProgress += deltaTime`. -/
@[simps]
def advanceFlip (g : Game) (deltaTime : Nat) : Game :=
  { g with cardFlipProgress := g.cardFlipProgress + deltaTime }

/-- `cardFlipProgress = 0.0f; isFlipping = false;` -/
@[simps]
def finishFlip (g : Game) : Game := { g with cardFlipProgress := 0, isFlipping := false }

/-- `isChecking = true`. -/
@[simps]
def startChecking (g : Game) : Game := { g with isChecking := true }

/-- `Game::update(deltaTime)`. Only the branch for `PLAYING` touches the game logic; the
sprite animation `card->update(deltaTime)` changes none of the fields modelled here. -/
def update (pol : ScorePolicy) (w : World) (deltaTime : Nat) (g : Game) : Game :=
  match g.currentState with
  | .PLAYING =>
    let g := if g.isGameActive then updateStats pol (recordElapsed g) else g
    if g.isFlipping then
      let g := advanceFlip g deltaTime
      if g.cardFlipProgress ≥ cardFlipTime then
        let g := finishFlip g
        if g.firstCard.isSome && g.secondCard.isSome then
          processCardMatch pol w (startChecking g)
        else g
      else g
    else g
  | _ => g

/-! ### Game control methods -/

/-- `Game::startNewGame`. -/
@[simps]
def startNewGame (g : Game) : Game :=
  { g with
    currentState := .ENTER_NAME, playerNameInput := "", isEnteringName := true, hasWon := false }

/-- The body of `Game::pauseGame`. -/
@[simps]
def enterPause (g : Game) : Game := { g with currentState := .PAUSED, isGameActive := false }

/-- `Game::pauseGame`. -/
def pauseGame (g : Game) : Game :=
  if g.currentState = .PLAYING then enterPause g else g

/-- The body of `Game::resumeGame`; `gameClock.restart()` sets the game clock to zero. -/
@[simps]
def leavePause (g : Game) : Game :=
  { g with currentState := .PLAYING, isGameActive := true, gameClock := 0 }

/-- `Game::resumeGame`. -/
def resumeGame (g : Game) : Game :=
  if g.currentState = .PAUSED then leavePause g else g

/-- The assignment `currentState = s`. -/
@[simps]
def setCurrentState (g : Game) (s : GameState) : Game := { g with currentState := s }

/-- `Game::showLeaderboard`. -/
def showLeaderboard (g : Game) : Game := setCurrentState g .LEADERBOARD

/-- `Game::showSettings`. -/
def showSettings (g : Game) : Game := setCurrentState g .SETTINGS

/-- `window.close()`. -/
@[simps]
def closeWindow (g : Game) : Game := { g with windowOpen := false }

/-- `Game::exitGame`: `window.close()`. -/
def exitGame (g : Game) : Game := closeWindow g

/-- Lose sound and `isGameActive = false` in `Game::surrenderGame`. -/
@[simps]
def concede (g : Game) : Game :=
  { g with signals := g.signals ++ [Signal.gameLose], isGameActive := false }

/-- The record `Game::surrenderGame` fills in for player `p`: as in `saveGameResult`, but
with `record.score = player->getScore() / 2` (integer division of C++). -/
def surrenderRecord (w : World) (g : Game) (p : Player) : GameRecord :=
  ⟨0, p.name, Int.tdiv p.score 2, g.moves, g.matchedPairs, TimeValue.number g.elapsedTime,
    w.date, getDifficultyString g⟩

/-- `Game::surrenderGame`. -/
def surrenderGame (pol : ScorePolicy) (w : World) (g : Game) : Game :=
  if !g.isGameActive then g
  else
    let g := concede g
    let g :=
      match g.player with
      | some p =>
        let g := finishPlayer pol g p
        match g.database with
        | some db =>
          storeRecord w g db (surrenderRecord w g ((p.finishGame).calculateScore pol g.totalPairs))
        | none => g
      | none => g
    setCurrentState g .GAME_OVER_LOSE

/-- `Game::setDifficulty`. -/
@[simps]
def setDifficulty (g : Game) (diff : Difficulty) : Game := { g with difficulty := diff }

/-- `Game::setTheme`. -/
@[simps]
def setTheme (g : Game) (theme : CardTheme) : Game := { g with currentTheme := theme }

/-! ## Input events (`Game::handleEvents`) -/

/-- The buttons of the menus, named after their labels. -/
inductive Button where
  | newGame | leaderboard | settings | exit
  | difficulty | theme | startGame | setupBack
  | pause | menu | restart | surrender
  | resume | pauseRestart | pauseMainMenu
  | leaderboardBack
  | brightness | resolution | contact | settingsBack
deriving DecidableEq, Repr

/-- One event polled from the window, as the game logic sees it: the window was closed, a
character was entered, the left mouse button went down on card `i`, a button was activated,
the continue area of a game-over screen or the back button of the contact form was pressed. -/
inductive Event where
  | closed
  | textEntered (unicode : Nat)
  | cardPressed (i : Nat)
  | activated (b : Button)
  | continuePressed
  | contactBack
deriving DecidableEq, Repr

/-- The callback of the button "Difficulty" (`Game::setupSetupMenu`). -/
def cycleDifficulty (g : Game) : Game :=
  match g.difficulty with
  | .EASY => setDifficulty g .MEDIUM
  | .MEDIUM => setDifficulty g .HARD
  | .HARD => setDifficulty g .EXPERT
  | .EXPERT => setDifficulty g .EASY

/-- The callback of the button "Theme" (`Game::setupSetupMenu`). -/
def cycleTheme (g : Game) : Game :=
  match g.currentTheme with
  | .ANIMALS => setTheme g .FRUITS
  | .FRUITS => setTheme g .EMOJI
  | .EMOJI => setTheme g .MEMES
  | .MEMES => setTheme g .SYMBOLS
  | .SYMBOLS => setTheme g .ANIMALS

/-- The callback of the button "Start Game!" (`Game::setupSetupMenu`): with a player,
`resetGame()`, then `currentState = PLAYING; isGameActive = true; gameClock.restart()`, the
same three assignments as in `resumeGame`. -/
def startGameAction (w : World) (g : Game) : Game :=
  if g.player.isSome then leavePause (resetGame w g)
  else g

/-- The assignment of a new value to `playerNameInput`. -/
@[simps]
def setNameInput (g : Game) (s : String) : Game := { g with playerNameInput := s }

/-- Confirmation of a name: the player is created and the mode becomes `SETUP`. -/
@[simps]
def createPlayer (g : Game) : Game :=
  { g with
    player := some (Player.create g.playerNameInput)
    currentState := .SETUP, isEnteringName := false }

/-- The branch `ENTER_NAME` of `Game::handleEvents` for a `TextEntered` event: backspace
(8) removes the last character, carriage return (13) confirms a name that is not empty, a
character from 32 to 127 is appended while the name has fewer than 20 characters. -/
def enterNameText (g : Game) (unicode : Nat) : Game :=
  if unicode = 8 then
    if !g.playerNameInput.isEmpty then
      setNameInput g (String.mk g.playerNameInput.data.dropLast)
    else g
  else if unicode = 13 then
    if !g.playerNameInput.isEmpty then createPlayer g
    else g
  else if unicode ≥ 32 && unicode < 128 then
    if g.playerNameInput.length < 20 then
      setNameInput g (g.playerNameInput.push (Char.ofNat unicode))
    else g
  else g

/-- The branch `PLAYING` of `Game::handleEvents` for a left press on card `i`: the card is
passed to `handleCardClick` when it is hidden and clickable and nothing is flipping or being
checked. -/
def cardPress (g : Game) (i : Nat) : Game :=
  match g.cards[i]? with
  | some c =>
    if c.state = CardState.HIDDEN && c.isClickable && !g.isFlipping && !g.isChecking then
      handleCardClick g (i : Int)
    else g
  | none => g

/-- The callback of the button "Contact Developer":
`previousState = currentState; currentState = CONTACT_FORM`. -/
@[simps]
def openContactForm (g : Game) : Game :=
  { g with previousState := g.currentState, currentState := .CONTACT_FORM }

/-- The callbacks of the buttons; a button reacts only in the mode that shows it. The
brightness and resolution buttons change display settings only. -/
def activate (pol : ScorePolicy) (w : World) (g : Game) : Button → Game
  | .newGame => if g.currentState = .MAIN_MENU then startNewGame g else g
  | .leaderboard => if g.currentState = .MAIN_MENU then showLeaderboard g else g
  | .settings => if g.currentState = .MAIN_MENU then showSettings g else g
  | .exit => if g.currentState = .MAIN_MENU then exitGame g else g
  | .difficulty => if g.currentState = .SETUP then cycleDifficulty g else g
  | .theme => if g.currentState = .SETUP then cycleTheme g else g
  | .startGame => if g.currentState = .SETUP then startGameAction w g else g
  | .setupBack => if g.currentState = .SETUP then setCurrentState g .MAIN_MENU else g
  | .pause => if g.currentState = .PLAYING then pauseGame g else g
  | .menu => if g.currentState = .PLAYING then setCurrentState g .MAIN_MENU else g
  | .restart => if g.currentState = .PLAYING then startNewGame g else g
  | .surrender => if g.currentState = .PLAYING then surrenderGame pol w g else g
  | .resume => if g.currentState = .PAUSED then resumeGame g else g
  | .pauseRestart => if g.currentState = .PAUSED then startNewGame g else g
  | .pauseMainMenu => if g.currentState = .PAUSED then setCurrentState g .MAIN_MENU else g
  | .leaderboardBack =>
    if g.currentState = .LEADERBOARD then setCurrentState g .MAIN_MENU else g
  | .brightness => g
  | .resolution => g
  | .contact =>
    if g.currentState = .SETTINGS then openContactForm g else g
  | .settingsBack =>
    if g.currentState = .SETTINGS then setCurrentState g .MAIN_MENU else g

/-- The body of the loop of `Game::handleEvents` for one polled event. In mode `EXIT`
every event closes the window. -/
def handleEvent (pol : ScorePolicy) (w : World) (g : Game) (e : Event) : Game :=
  if g.currentState = .EXIT then closeWindow g
  else
  match e with
  | .closed => closeWindow g
  | .textEntered u => if g.currentState = .ENTER_NAME then enterNameText g u else g
  | .cardPressed i => if g.currentState = .PLAYING then cardPress g i else g
  | .activated b => activate pol w g b
  | .continuePressed =>
    if g.currentState = .GAME_OVER_WIN ∨ g.currentState = .GAME_OVER_LOSE then
      setCurrentState g .MAIN_MENU
    else g
  | .contactBack =>
    if g.currentState = .CONTACT_FORM then setCurrentState g g.previousState else g

/-- What the main loop `Game::run` feeds the game: a polled event, or the end of a frame
after `deltaTime` microseconds. -/
inductive Input where
  | event (e : Event)
  | tick (deltaTime : Nat)
deriving DecidableEq, Repr

/-- The game clock runs on by `deltaTime`. -/
@[simps]
def passTime (g : Game) (deltaTime : Nat) : Game := { g with gameClock := g.gameClock + deltaTime }

/-- One transition of the main loop, which runs while the window is open. A tick lets `deltaTime` pass on the game clock and calls
`update`. -/
def step (pol : ScorePolicy) (w : World) (g : Game) (inp : Input) : Game :=
  if !g.windowOpen then g
  else
    match inp with
    | .event e => handleEvent pol w g e
    | .tick deltaTime => update pol w deltaTime (passTime g deltaTime)

/-- The states the program can be in: the state after construction and every state a
transition leads to from one of them. -/
inductive Reachable (pol : ScorePolicy) : Game → Prop where
  | init (db : Option Database) (isEnteringName : Bool) : Reachable pol (Game.init db isEnteringName)
  | step {g : Game} (w : World) (inp : Input) : Reachable pol g → Reachable pol (step pol w g inp)

/-- The deck that pairs up a list of images as the spec words it: for each selected symbol
two cards with consecutive identities, starting at identity `k`. -/
def pairUp (t : CardTheme) : Int → List String → List Card
  | _, [] => []
  | k, s :: ss => Card.mk k s t :: Card.mk (k + 1) s t :: pairUp t (k + 2) ss

/-- The image at position `i mod n` of a list of `n` images (the empty string stands for a
missing element). -/
def cyc (a : List String) (i : Nat) : String := (a[i % a.length]?).getD ""

/-- The symbol keys `initializeCards` pairs up: entry `i mod n` of the image list (the
directory listing, or the placeholder names when it is empty) for `i = 0 .. totalPairs - 1`. -/
def selectedKeys (d : Difficulty) (t : CardTheme) (availableImages : List String) : List String :=
  (List.range (layoutPairs d).toNat).map (cyc (fallbackImages t (layoutPairs d) availableImages))

/-- The cards of a deck fall into exactly `totalPairs` groups by symbol key, each of size 2. -/
def PairGroups (deck : List Card) (totalPairs : Int) : Prop :=
  (((deck.map Card.symbol).dedup.length : Nat) : Int) = totalPairs ∧
    ∀ s ∈ deck.map Card.symbol, (deck.map Card.symbol).count s = 2

/-- The layout fields of the game object. -/
def Game.layout (g : Game) : Int × Int × Int := (g.rows, g.cols, g.totalPairs)

/-- The layout table of the spec: rows, columns and pairs of a difficulty. -/
def layoutTable : Difficulty → Int × Int × Int
  | .EASY => (3, 4, 6)
  | .MEDIUM => (4, 4, 8)
  | .HARD => (4, 6, 12)
  | .EXPERT => (6, 6, 18)

/-- The main loop fed with a list of inputs, all handled in the same surroundings. -/
def run (pol : ScorePolicy) (w : World) (g : Game) (inputs : List Input) : Game :=
  inputs.foldl (step pol w) g

/-- A scoring policy used in examples. -/
def examplePolicy : ScorePolicy := fun matchedPairs moves totalPairs =>
  100 * matchedPairs - 10 * (moves - totalPairs)

/-- Surroundings used in examples: an empty theme directory, a generator that always draws
zero, images that load, and a database that accepts inserts. -/
def exampleWorld : World :=
  ⟨[], fun _ => 0, fun _ => true, "2024-01-01 12:00:00", true⟩

/-- Example: the inputs that lead from program start to a started Easy game of player "A". -/
def startEasyInputs : List Input :=
  [.event (.activated .newGame), .event (.textEntered 65), .event (.textEntered 13),
   .event (.activated .difficulty), .event (.activated .difficulty),
   .event (.activated .difficulty), .event (.activated .startGame)]

/-- Example: a freshly started Easy session with an empty database. -/
def freshEasy : Game :=
  run examplePolicy exampleWorld (Game.init (some ⟨[]⟩) false) startEasyInputs

/-- A sequence of frames with the given durations. -/
def ticks (ts : List Nat) : List Input := ts.map Input.tick

/-- One move of the player: a press on card `i`, frames of durations `ts1`, a press on card
`j`, frames of durations `ts2`. -/
def twoClicks (i j : Nat) (ts1 ts2 : List Nat) : List Input :=
  Input.event (Event.cardPressed i) :: ticks ts1 ++
    Input.event (Event.cardPressed j) :: ticks ts2

/-- The board after card `i` was turned over by a click. -/
def flipped (cards : List CardSprite) (i : Nat) : List CardSprite :=
  updCard (updCard cards i CardSprite.reveal) i (fun s => s.setClickable false)

/-- The fields of the game object that describe the session: everything except clock,
elapsed time, player, database, name input and the record of signals. -/
structure SessionView where
  windowOpen : Bool
  currentState : GameState
  isGameActive : Bool
  isFlipping : Bool
  isChecking : Bool
  firstCardSelected : Bool
  firstCard : Option Nat
  secondCard : Option Nat
  selectedCard1 : Int
  selectedCard2 : Int
  moves : Int
  matchedPairs : Int
  totalPairs : Int
  hasWon : Bool
  cards : List CardSprite
deriving DecidableEq, Repr

/-- The session fields of a game state. -/
def Game.view (g : Game) : SessionView :=
  ⟨g.windowOpen, g.currentState, g.isGameActive, g.isFlipping, g.isChecking,
    g.firstCardSelected, g.firstCard, g.secondCard, g.selectedCard1, g.selectedCard2,
    g.moves, g.matchedPairs, g.totalPairs, g.hasWon, g.cards⟩

/-- The board after the cards `fc` and `sc` were marked as matched. -/
def marked (cards : List CardSprite) (fc sc : Nat) : List CardSprite :=
  updCard (updCard cards fc CardSprite.markMatched) sc CardSprite.markMatched

/-- The board after the cards `fc` and `sc` were hidden and made clickable again. -/
def hiddenAgain (cards : List CardSprite) (fc sc : Nat) : List CardSprite :=
  updCard (updCard (updCard (updCard cards fc CardSprite.hide) sc CardSprite.hide)
    fc (fun s => s.setClickable true)) sc (fun s => s.setClickable true)

/-- Example: the session of `freshEasy` after the pair on cards 1 and 2 was found. -/
def onePairFound : Game :=
  run examplePolicy exampleWorld freshEasy (twoClicks 1 2 [300000] [300000])

/-- How often the win sound was played so far. -/
def winSignals (g : Game) : Nat := g.signals.count Signal.gameWin

/-- Whether a signal is a call of `Database::saveGame`. -/
def isSave : Signal → Bool
  | .saveGame _ => true
  | _ => false

/-- How often `Database::saveGame` was called so far. -/
def saveSignals (g : Game) : Nat := g.signals.countP isSave

/-- Example: the moves that find the six pairs of the board of `freshEasy`, up to the
second press of the last move. -/
def winEasyInputs : List Input :=
  twoClicks 1 2 [300000] [300000] ++ twoClicks 3 4 [300000] [300000] ++
    twoClicks 5 6 [300000] [300000] ++ twoClicks 7 8 [300000] [300000] ++
    twoClicks 9 10 [300000] [300000] ++
    [.event (.cardPressed 11), .tick 300000, .event (.cardPressed 0)]

/-- Example: an Easy game of player "A" started without a database and played up to the
second press of its last move. -/
def lastMoveNoDatabase : Game :=
  run examplePolicy exampleWorld (Game.init none false) (startEasyInputs ++ winEasyInputs)

/-- Example: the same game with an empty database. -/
def lastMoveWithDatabase : Game :=
  run examplePolicy exampleWorld freshEasy winEasyInputs

/-- A scoring policy used in examples, with a penalty of 15 points for every move. -/
def penaltyPolicy : ScorePolicy := fun matchedPairs moves _ => 100 * matchedPairs - 15 * moves

/-- Example: the session of `freshEasy` after one move that found no pair, scored with
`penaltyPolicy`. -/
def oneMiss : Game :=
  run penaltyPolicy exampleWorld freshEasy (twoClicks 1 3 [300000] [300000])

/-- The score of the last row of the database of a game. -/
def lastStoredScore (g : Game) : Option Int :=
  match g.database with
  | some db => (db.rows.getLast?).map (fun r => r.score)
  | none => none

/-- The score of the player of a game. -/
def playerScore (g : Game) : Option Int := g.player.map (fun p => p.score)

/-- Example: ten seconds of play, then the Pause button, five seconds in the pause menu and
the Resume button. -/
def pauseResumeInputs : List Input :=
  [.tick 10000000, .event (.activated .pause), .tick 5000000, .event (.activated .resume)]

/-- Neither the mode nor the remembered previous mode is `EXIT`. -/
def NoExit (g : Game) : Prop :=
  g.currentState ≠ GameState.EXIT ∧ g.previousState ≠ GameState.EXIT

/-- The name buffer and the name of the player, if there is one. -/
def Game.names (g : Game) : String × Option String :=
  (g.playerNameInput, g.player.map (fun p => p.name))

/-- The name buffer has at most 20 characters and the player, if there is one, has a name
that is not empty and has at most 20 characters. -/
def NamesBounded (g : Game) : Prop :=
  g.playerNameInput.length ≤ 20 ∧
    ∀ p : Player, g.player = some p → p.name ≠ "" ∧ p.name.length ≤ 20

/-- A sequence of `TextEntered` events with the given characters. -/
def typed (us : List Nat) : List Input := us.map (fun u => Input.event (Event.textEntered u))

/-- The cycle of the difficulties as the spec words it: Easy, Medium, Hard, Expert, Easy. -/
def nextDifficulty : Difficulty → Difficulty
  | .EASY => .MEDIUM
  | .MEDIUM => .HARD
  | .HARD => .EXPERT
  | .EXPERT => .EASY

/-- The cycle of the themes as the spec words it: Animals, Fruits, Emoji, Memes, Symbols,
Animals. -/
def nextTheme : CardTheme → CardTheme
  | .ANIMALS => .FRUITS
  | .FRUITS => .EMOJI
  | .EMOJI => .MEMES
  | .MEMES => .SYMBOLS
  | .SYMBOLS => .ANIMALS

/-- `k` activations of a button in a row. -/
def presses (b : Button) (k : Nat) : List Input :=
  List.replicate k (Input.event (Event.activated b))

/-- The state of the setup menu after New Game and the name "A". -/
def setupState : Game :=
  run examplePolicy exampleWorld (Game.init none false)
    [.event (.activated .newGame), .event (.textEntered 65), .event (.textEntered 13)]

/-- A text without zero terminator inside. -/
def NoNul (s : String) : Prop := Char.ofNat 0 ∉ s.data

instance noNulDecidable (s : String) : Decidable (NoNul s) :=
  inferInstanceAs (Decidable (Char.ofNat 0 ∉ s.data))

/-- Example: a store with three records of scores 50, 90 and 70, inserted in that order. -/
def threeScores : Database :=
  ⟨[⟨1, "A", 50, 9, 6, .number 40000000, "2024-01-01 12:00:00", "Easy"⟩,
    ⟨2, "B", 90, 6, 6, .number 30000000, "2024-01-02 12:00:00", "Easy"⟩,
    ⟨3, "C", 70, 8, 6, .number 35000000, "2024-01-03 12:00:00", "Easy"⟩]⟩

/-- Example: a record as the game writes it. -/
def plainRecord : GameRecord :=
  ⟨0, "A", 100, 6, 6, .number 30000000, "2024-01-01 12:00:00", "Easy"⟩

/-- The game with the database replaced by `d` (present or absent). -/
@[simps]
def withDatabase (g : Game) (d : Option Database) : Game := { g with database := d }

/-- The game state without what belongs to persistence: the database and the recorded calls
of `Database::saveGame`. -/
def Game.gameplay (g : Game) : Game :=
  { g with database := none, signals := g.signals.filter (fun s => !isSave s) }

/-- The main loop fed with a list of inputs, each handled in surroundings of its own. -/
def play (pol : ScorePolicy) (g : Game) (steps : List (World × Input)) : Game :=
  steps.foldl (fun g s => step pol s.1 g s.2) g

/-- Whether an input resets the session in state `g`: the button "Start Game!" is activated
in mode `SETUP` with a player, the window being open. -/
def isReset (g : Game) (inp : Input) : Bool :=
  inp = Input.event (Event.activated Button.startGame) && g.windowOpen &&
    g.currentState = GameState.SETUP && g.player.isSome

/-- No step of the run from `g` resets the session. -/
def ResetFree (pol : ScorePolicy) : Game → List (World × Input) → Prop
  | _, [] => True
  | g, s :: rest => isReset g s.2 = false ∧ ResetFree pol (step pol s.1 g s.2) rest

/-- The shapes the selection has in a running or paused session: nothing selected and
nothing turning; the first card `i` selected and no longer hidden; or both cards selected
while the second one is turning, the move being counted already. -/
def SelectionShape (v : SessionView) : Prop :=
  (v.firstCardSelected = false ∧ v.firstCard = none ∧ v.secondCard = none ∧
    v.isFlipping = false) ∨
  (v.firstCardSelected = true ∧ v.secondCard = none ∧
    ∃ i : Nat, v.firstCard = some i ∧ v.selectedCard1 = (i : Int) ∧
      ∀ c : CardSprite, v.cards[i]? = some c → c.state ≠ CardState.HIDDEN) ∨
  (v.firstCardSelected = false ∧ v.isFlipping = true ∧
    (∃ i j : Nat, v.firstCard = some i ∧ v.secondCard = some j) ∧ v.matchedPairs < v.moves)

/-- The invariant of the session fields. -/
structure ViewInv (v : SessionView) : Prop where
  pairs_nonneg : 0 ≤ v.matchedPairs
  pairs_le : v.matchedPairs ≤ v.totalPairs
  pairs_moves : v.matchedPairs ≤ v.moves
  distinct : ∀ i j : Nat, v.firstCard = some i → v.secondCard = some j →
    i ≠ j ∧ v.selectedCard1 = (i : Int) ∧ v.selectedCard2 = (j : Int)
  won : v.currentState = GameState.GAME_OVER_WIN →
    v.hasWon = true ∧ v.matchedPairs = v.totalPairs ∧ v.isGameActive = false
  lost : v.currentState = GameState.GAME_OVER_LOSE → v.isGameActive = false
  running : v.currentState = GameState.PLAYING → v.isGameActive = true
  halted : v.currentState = GameState.PAUSED → v.isGameActive = false
  inplay : v.currentState = GameState.PLAYING ∨ v.currentState = GameState.PAUSED →
    v.hasWon = false ∧ v.isChecking = false ∧ v.matchedPairs < v.totalPairs ∧ SelectionShape v

/-- The invariant of the game: the remembered previous mode is the main menu or the
settings, and the session fields satisfy `ViewInv`. -/
def SessionInv (g : Game) : Prop :=
  (g.previousState = GameState.MAIN_MENU ∨ g.previousState = GameState.SETTINGS) ∧
    ViewInv g.view

/-- The modes that show a menu or a form. -/
def MenuMode (m : GameState) : Prop :=
  m ≠ GameState.PLAYING ∧ m ≠ GameState.PAUSED ∧ m ≠ GameState.GAME_OVER_WIN ∧
    m ≠ GameState.GAME_OVER_LOSE

/-- The cards pending for comparison. -/
def pending (g : Game) : List Nat := g.firstCard.toList ++ g.secondCard.toList

/-- How often a session was ended so far: the win and lose sounds played. -/
def endSignals (g : Game) : Nat :=
  g.signals.count Signal.gameWin + g.signals.count Signal.gameLose

/-- The number of rows of the database of the game (0 without database). -/
def storedRows (g : Game) : Nat :=
  match g.database with
  | some db => db.rows.length
  | none => 0

/-- What a call of `saveGameResult` or of the save in `surrenderGame` adds to the record of
signals and to the database in the step from `g` to `g1`: nothing, or one call of
`Database::saveGame` with the moves `m` and the pairs `p` and at most one more row. -/
def SaveEffect (g g1 : Game) (m p : Int) (saves : List Signal) : Prop :=
  (saves = [] ∧ storedRows g1 = storedRows g) ∨
    ∃ r : GameRecord, saves = [Signal.saveGame r] ∧ r.moves = m ∧ r.pairs = p ∧
      storedRows g1 ≤ storedRows g + 1

/-- What one transition from `g` to `g1` adds to the record of signals: no end of a session
and no save, and then a session in play does not enter a game-over mode; or the win of a
session in play, both cards being selected and at most one pair missing (match sound, the
save if any, win sound); or the surrender of an active session in play (lose sound, the
save if any). -/
def StepEffect (g g1 : Game) (new : List Signal) : Prop :=
  (new.count Signal.gameWin = 0 ∧ new.count Signal.gameLose = 0 ∧ new.countP isSave = 0 ∧
      storedRows g1 = storedRows g ∧
      (g.currentState = GameState.PLAYING →
        g1.currentState ≠ GameState.GAME_OVER_WIN ∧
        g1.currentState ≠ GameState.GAME_OVER_LOSE)) ∨
    (g.currentState = GameState.PLAYING ∧ g1.currentState = GameState.GAME_OVER_WIN ∧
      g.totalPairs ≤ g.matchedPairs + 1 ∧ g.firstCard ≠ none ∧ g.secondCard ≠ none ∧
      ∃ saves : List Signal, new = [Signal.cardMatch] ++ saves ++ [Signal.gameWin] ∧
        SaveEffect g g1 g.moves (g.matchedPairs + 1) saves) ∨
    (g.currentState = GameState.PLAYING ∧ g.isGameActive = true ∧
      g1.currentState = GameState.GAME_OVER_LOSE ∧
      ∃ saves : List Signal, new = [Signal.gameLose] ++ saves ∧
        SaveEffect g g1 g.moves g.matchedPairs saves)

/-- The modes of the menus that are entered by a button or a form. -/
def HubMode (m : GameState) : Prop :=
  m = GameState.MAIN_MENU ∨ m = GameState.ENTER_NAME ∨ m = GameState.LEADERBOARD ∨
    m = GameState.SETTINGS ∨ m = GameState.CONTACT_FORM

/-- The session is in play or paused. -/
def InSession (g : Game) : Prop :=
  g.currentState = GameState.PLAYING ∨ g.currentState = GameState.PAUSED

instance inSessionDecidable (g : Game) : Decidable (InSession g) :=
  inferInstanceAs (Decidable (_ ∨ _))

/-- Example: one move on the board of `freshEasy`, each input in the example surroundings. -/
def oneMoveSteps : List (World × Input) :=
  (twoClicks 1 2 [300000] [300000]).map (fun inp => (exampleWorld, inp))

/-- Example: the session of `freshEasy` while the cards 1 and 3 are pending for comparison. -/
def twoCardsUp : Game :=
  run examplePolicy exampleWorld freshEasy
    [.event (.cardPressed 1), .tick 300000, .event (.cardPressed 3)]

/-- Example: the player surrenders, leaves the game-over screen and asks for a new game. -/
def surrenderSteps : List (World × Input) :=
  [(exampleWorld, .event (.activated .surrender)), (exampleWorld, .event .continuePressed),
   (exampleWorld, .event (.activated .newGame))]

/-- Every step of the run from `g` ends in mode `PAUSED`. -/
def AllPaused (pol : ScorePolicy) : Game → List (World × Input) → Prop
  | _, [] => True
  | g, s :: rest =>
    (step pol s.1 g s.2).currentState = GameState.PAUSED ∧
      AllPaused pol (step pol s.1 g s.2) rest

/-- In mode `SETUP` the player is the one just created from the name buffer. -/
def SetupFresh (g : Game) : Prop :=
  g.currentState = GameState.SETUP → g.player = some (Player.create g.playerNameInput)

/-- Example: five seconds in the pause menu and a press on a card, which the pause menu
ignores. -/
def pausedSteps : List (World × Input) :=
  [(exampleWorld, .tick 5000000), (exampleWorld, .event (.cardPressed 3))]

/-- Example: the record saved when the example game is won. -/
def winRecord : GameRecord :=
  ⟨0, "A", 600, 6, 6, .number 3600000, "2024-01-01 12:00:00", "Easy"⟩

/-- Example surroundings: the theme directory holds six images, the first of which cannot be
loaded; the generator always draws zero. -/
def brokenImageWorld : World :=
  ⟨["assets/images/animals/a.png", "assets/images/animals/b.png",
    "assets/images/animals/c.png", "assets/images/animals/d.png",
    "assets/images/animals/e.png", "assets/images/animals/f.png"],
   fun _ => 0, fun s => s != "assets/images/animals/a.png", "2024-01-01 12:00:00", true⟩

/-- Example: the board `resetGame` builds for an Easy game in `brokenImageWorld`. -/
def brokenBoard : Game := resetGame brokenImageWorld freshEasy

/-- The symbols of the sprites of a board, by position. -/
def boardSymbols (g : Game) : List String := g.cards.map (fun c => c.symbol)

/-- A record that the insert of `Database::saveGame` stores as it is: none of its three texts
has a zero terminator inside and its time is not NaN. -/
def Storable (r : GameRecord) : Prop :=
  NoNul r.playerName ∧ NoNul r.date ∧ NoNul r.difficulty ∧ r.time ≠ TimeValue.nan

instance storableDecidable (r : GameRecord) : Decidable (Storable r) :=
  inferInstanceAs (Decidable (_ ∧ _))

/-- Neither the name buffer nor the name of the player, if there is one, has a zero
terminator inside. -/
def NamesClean (g : Game) : Prop :=
  NoNul g.playerNameInput ∧ ∀ p : Player, g.player = some p → NoNul p.name

/-- What the transition from `g` to `g1` hands to `Database::saveGame`: the signals of `g1`
are those of `g` and then the signals `new`, and every record saved in `new` is stored as it
is. -/
def SavesStorable (g g1 : Game) : Prop :=
  ∃ new : List Signal, g1.signals = g.signals ++ new ∧
    ∀ r : GameRecord, Signal.saveGame r ∈ new → Storable r

/-! ## Lemmas on the shuffle -/

theorem cons_set_perm {α : Type} (x b : α) :
    ∀ (xs : List α) (j : Nat), xs[j]? = some b → (b :: xs.set j x).Perm (x :: xs) := by
  intro xs
  induction xs with
  | nil => intro j h; simp at h
  | cons y ys ih =>
    intro j h
    cases j with
    | zero =>
      simp at h
      subst h
      simpa using List.Perm.swap x y ys
    | succ j =>
      simp at h
      have h1 := ih j h
      simp only [List.set_cons_succ]
      exact ((List.Perm.swap y b _).trans (h1.cons y)).trans (List.Perm.swap x y ys)

theorem set_set_perm {α : Type} :
    ∀ (l : List α) (i j : Nat) (a b : α), l[i]? = some a → l[j]? = some b →
      ((l.set i b).set j a).Perm l := by
  intro l
  induction l with
  | nil => intro i j a b h; simp at h
  | cons x xs ih =>
    intro i j a b hi hj
    cases i with
    | zero =>
      cases j with
      | zero =>
        simp at hi hj
        subst hi
        simp
      | succ j =>
        simp at hi hj
        subst hi
        simpa using cons_set_perm x b xs j hj
    | succ i =>
      cases j with
      | zero =>
        simp at hi hj
        subst hj
        simpa using cons_set_perm x a xs i hi
      | succ j =>
        simp at hi hj
        simpa using ih i j a b hi hj

theorem swapAt_perm {α : Type} (l : List α) (i j : Nat) : (swapAt l i j).Perm l := by
  unfold swapAt
  split
  · next a b ha hb => exact set_set_perm l i j a b ha hb
  · exact List.Perm.refl l

theorem shuffleFrom_perm {α : Type} (rnd : Nat → Nat) :
    ∀ (n i : Nat) (l : List α), (shuffleFrom rnd n i l).Perm l := by
  intro n
  induction n with
  | zero => intro i l; exact List.Perm.refl l
  | succ n ih =>
    intro i l
    exact (ih (i + 1) _).trans (swapAt_perm l i _)

theorem shuffle_perm {α : Type} (rnd : Nat → Nat) (l : List α) : (shuffle rnd l).Perm l :=
  shuffleFrom_perm rnd _ _ l

/-! ## Lemmas on the deck builder -/

theorem cyclicAt_eq (a : List String) (h : a ≠ []) (i : Nat) :
    cyclicAt a i = some (cyc a i) := by
  have hpos : 0 < a.length := List.length_pos.mpr h
  have hlt : i % a.length < a.length := Nat.mod_lt _ hpos
  unfold cyclicAt cyc
  rw [if_neg (Nat.pos_iff_ne_zero.mp hpos), List.getElem?_eq_getElem hlt]
  rfl

theorem foldlM_push (g : Nat → Option String) (h : Nat → String) :
    ∀ (l : List Nat) (acc : List String), (∀ i ∈ l, g i = some (h i)) →
      l.foldlM (fun acc i => (g i).map (fun s => acc ++ [s])) acc = some (acc ++ l.map h) := by
  intro l
  induction l with
  | nil => intro acc _; simp
  | cons x xs ih =>
    intro acc hg
    have hx : g x = some (h x) := hg x (List.mem_cons_self x xs)
    have hxs : ∀ i ∈ xs, g i = some (h i) := fun i hi => hg i (List.mem_cons_of_mem x hi)
    simp only [List.foldlM_cons, hx, Option.map_some', Option.bind_eq_bind, Option.some_bind]
    rw [ih (acc ++ [h x]) hxs]
    simp

theorem takeFirst_eq (a : List String) (n : Nat) :
    takeFirst a (n : Int) = some ((List.range (min n a.length)).map (cyc a)) := by
  unfold takeFirst
  have hm : (min (n : Int) (a.length : Int)).toNat = min n a.length := by
    rw [← Nat.cast_min]; exact Int.toNat_natCast _
  rw [hm]
  by_cases ha : a = []
  · subst ha; simp
  · have := foldlM_push (cyclicAt a) (cyc a) (List.range (min n a.length)) []
      (fun i _ => cyclicAt_eq a ha i)
    simpa using this

theorem padPairs_eq (a : List String) (ha : a ≠ []) :
    ∀ (k : Nat) (p : List String),
      padPairs a k p = some (p ++ (List.range k).map (fun j => cyc a (p.length + j))) := by
  intro k
  induction k with
  | zero => intro p; simp [padPairs]
  | succ k ih =>
    intro p
    simp only [padPairs, cyclicAt_eq a ha]
    rw [ih (p ++ [cyc a p.length])]
    simp only [List.length_append, List.length_singleton, List.append_assoc, List.singleton_append,
      Option.some.injEq, List.append_cancel_left_eq]
    rw [List.range_succ_eq_map]
    simp only [List.map_cons, Nat.add_zero, List.map_map, List.cons.injEq, true_and]
    apply List.map_congr_left
    intro j _
    simp only [Function.comp]
    congr 1
    omega

theorem pairedImages_eq (a : List String) (ha : a ≠ []) (n : Nat) :
    pairedImages a (n : Int) = some ((List.range n).map (cyc a)) := by
  unfold pairedImages
  rw [takeFirst_eq]
  simp only [List.length_map, List.length_range]
  rw [padPairs_eq a ha]
  have hk : ((n : Int) - ((min n a.length : Nat) : Int)).toNat = n - min n a.length := by
    omega
  rw [hk]
  have hn : n = min n a.length + (n - min n a.length) := by omega
  conv_rhs => rw [hn, List.range_add]
  simp [List.map_map, Function.comp]

theorem pairUp_append (t : CardTheme) (s : String) :
    ∀ (xs : List String) (k : Int),
      pairUp t k (xs ++ [s]) =
        pairUp t k xs ++ [Card.mk (k + 2 * xs.length) s t, Card.mk (k + 2 * xs.length + 1) s t] := by
  intro xs
  induction xs with
  | nil => intro k; simp [pairUp]
  | cons x xs ih =>
    intro k
    have e1 : k + 2 + 2 * (xs.length : Int) = k + 2 * ((xs.length : Int) + 1) := by ring
    show pairUp t k (x :: (xs ++ [s])) = _
    simp only [pairUp, ih, List.length_cons, Nat.cast_add, Nat.cast_one, e1, List.cons_append]

theorem pairUp_length (t : CardTheme) :
    ∀ (q : List String) (k : Int), (pairUp t k q).length = 2 * q.length := by
  intro q
  induction q with
  | nil => intro k; simp [pairUp]
  | cons x xs ih => intro k; simp [pairUp, ih]; omega

theorem pairUp_getElem (t : CardTheme) :
    ∀ (q : List String) (k : Int) (i : Nat),
      (pairUp t k q)[2 * i]? = (q[i]?).map (fun s => Card.mk (k + 2 * i) s t) ∧
      (pairUp t k q)[2 * i + 1]? = (q[i]?).map (fun s => Card.mk (k + 2 * i + 1) s t) := by
  intro q
  induction q with
  | nil => intro k i; simp [pairUp]
  | cons x xs ih =>
    intro k i
    cases i with
    | zero => simp [pairUp]
    | succ i =>
      have h := ih (k + 2) i
      have e1 : 2 * (i + 1) = (2 * i + 1) + 1 := by ring
      have e2 : k + 2 + 2 * (i : Int) = k + 2 * ((i + 1 : Nat) : Int) := by push_cast; ring
      rw [e2] at h
      constructor
      · rw [e1]; simpa [pairUp] using h.1
      · rw [e1]; simpa [pairUp] using h.2

theorem pairUp_ids (t : CardTheme) :
    ∀ (q : List String) (k : Int),
      (pairUp t k q).map Card.id = (List.range (2 * q.length)).map (fun (j : Nat) => k + (j : Int)) := by
  intro q
  induction q with
  | nil => intro k; simp [pairUp]
  | cons x xs ih =>
    intro k
    have e : 2 * (x :: xs).length = (2 * xs.length + 1) + 1 := by simp; ring
    rw [e, List.range_succ_eq_map, List.range_succ_eq_map]
    simp only [pairUp, List.map_cons, ih, List.map_map, Nat.cast_zero, add_zero, List.cons.injEq,
      true_and]
    refine ⟨by simp, ?_⟩
    apply List.map_congr_left
    intro j _
    simp only [Function.comp, Nat.succ_eq_add_one]
    push_cast
    ring

theorem pairUp_ids_nodup (t : CardTheme) (q : List String) (k : Int) :
    ((pairUp t k q).map Card.id).Nodup := by
  rw [pairUp_ids]
  have hinj : Function.Injective (fun j : Nat => k + (j : Int)) := by
    intro a b h
    simpa using h
  exact (List.nodup_range _).map hinj

theorem pairUp_count (t : CardTheme) (s : String) :
    ∀ (q : List String) (k : Int),
      ((pairUp t k q).map Card.symbol).count s = 2 * q.count s := by
  intro q
  induction q with
  | nil => intro k; simp [pairUp]
  | cons x xs ih =>
    intro k
    simp only [pairUp, List.map_cons, List.count_cons, ih]
    split <;> omega

theorem createPairs_prefix (q : List String) (t : CardTheme) :
    ∀ m : Nat, m ≤ q.length →
      (List.range m).foldlM
        (fun (st : List Card × Int) i =>
          (q[i]?).map (fun imagePath =>
            (st.1 ++ [Card.mk st.2 imagePath t, Card.mk (st.2 + 1) imagePath t], st.2 + 2)))
        (([] : List Card), (0 : Int)) = some (pairUp t 0 (q.take m), 2 * (m : Int)) := by
  intro m
  induction m with
  | zero => intro _; simp [pairUp]
  | succ m ih =>
    intro hm
    have hlt : m < q.length := hm
    rw [List.range_succ, List.foldlM_append, ih (Nat.le_of_lt hlt)]
    have htake : q.take (m + 1) = q.take m ++ [q[m]] := by
      rw [List.take_succ, List.getElem?_eq_getElem hlt]; rfl
    have hlen : (q.take m).length = m := by simp [Nat.le_of_lt hlt]
    simp only [Option.bind_eq_bind, Option.some_bind, List.foldlM_cons, List.foldlM_nil,
      List.getElem?_eq_getElem hlt, Option.map_some', Option.bind_some]
    rw [htake, pairUp_append, hlen]
    simp only [zero_add]
    push_cast
    ring_nf
    rfl

theorem createPairs_eq (q : List String) (t : CardTheme) (n : Nat) (h : q.length = n) :
    createPairs q t (n : Int) = some (pairUp t 0 q, 2 * (n : Int)) := by
  unfold createPairs
  rw [Int.toNat_natCast, createPairs_prefix q t n (le_of_eq h.symm)]
  rw [← h, List.take_length]

theorem layoutPairs_cast (d : Difficulty) : layoutPairs d = (((layoutPairs d).toNat : Nat) : Int) := by
  cases d <;> rfl

theorem layoutPairs_pos (d : Difficulty) : 0 < (layoutPairs d).toNat := by
  cases d <;> decide

theorem layout_cards (d : Difficulty) : layoutRows d * layoutCols d = 2 * layoutPairs d := by
  cases d <;> rfl

theorem fallbackImages_ne_nil (d : Difficulty) (t : CardTheme) (avail : List String) :
    fallbackImages t (layoutPairs d) avail ≠ [] := by
  unfold fallbackImages
  split
  · next h =>
    intro hnil
    have hlen := congrArg List.length hnil
    have hpos := layoutPairs_pos d
    simp at hlen
    omega
  · next h =>
    intro hnil
    exact h (by simp [hnil])

theorem fallbackImages_nodup (d : Difficulty) (t : CardTheme) :
    (fallbackImages t (layoutPairs d) []).Nodup := by
  cases d <;> cases t <;> decide

/-- The symbol keys `initializeCards` selects: entry `i mod n` of the image list for
`i = 0 .. totalPairs - 1`. -/
theorem pairedImages_layout (d : Difficulty) (t : CardTheme) (avail : List String) :
    pairedImages (fallbackImages t (layoutPairs d) avail) (layoutPairs d) =
      some ((List.range (layoutPairs d).toNat).map
        (cyc (fallbackImages t (layoutPairs d) avail))) := by
  have h := pairedImages_eq (fallbackImages t (layoutPairs d) avail)
    (fallbackImages_ne_nil d t avail) (layoutPairs d).toNat
  rw [← layoutPairs_cast d] at h
  exact h

theorem orderedDeck_eq (d : Difficulty) (t : CardTheme) (avail : List String) :
    orderedDeck d t avail =
      some (pairUp t 0 ((List.range (layoutPairs d).toNat).map
        (cyc (fallbackImages t (layoutPairs d) avail))), 2 * layoutPairs d) := by
  unfold orderedDeck
  rw [pairedImages_layout]
  have h := createPairs_eq ((List.range (layoutPairs d).toNat).map
    (cyc (fallbackImages t (layoutPairs d) avail))) t (layoutPairs d).toNat (by simp)
  rw [← layoutPairs_cast d] at h
  exact h

theorem shuffle_length {α : Type} (rnd : Nat → Nat) (l : List α) :
    (shuffle rnd l).length = l.length := (shuffle_perm rnd l).length_eq

theorem buildDeck_eq (d : Difficulty) (t : CardTheme) (avail : List String) (rnd : Nat → Nat) :
    buildDeck d t avail rnd =
      some (shuffle rnd (pairUp t 0 ((List.range (layoutPairs d).toNat).map
        (cyc (fallbackImages t (layoutPairs d) avail))))) := by
  have hc := createPairs_eq ((List.range (layoutPairs d).toNat).map
    (cyc (fallbackImages t (layoutPairs d) avail))) t (layoutPairs d).toNat (by simp)
  rw [← layoutPairs_cast d] at hc
  unfold buildDeck
  simp only [pairedImages_layout, hc]
  unfold correctSize
  rw [if_pos]
  rw [shuffle_length, pairUp_length, layout_cards]
  simp only [List.length_map, List.length_range]
  have := layoutPairs_cast d
  push_cast
  omega

theorem cyc_of_lt (a : List String) (i : Nat) (h : i < a.length) : a[i]? = some (cyc a i) := by
  unfold cyc
  rw [Nat.mod_eq_of_lt h, List.getElem?_eq_getElem h]
  rfl

theorem range_map_cyc_eq_take (a : List String) (n : Nat) (h : n ≤ a.length) :
    (List.range n).map (cyc a) = a.take n := by
  apply List.ext_getElem?
  intro i
  by_cases hi : i < n
  · rw [List.getElem?_take_of_lt hi, cyc_of_lt a i (lt_of_lt_of_le hi h)]
    simp [hi]
  · have h1 : ((List.range n).map (cyc a))[i]? = none := by
      apply List.getElem?_eq_none; simp; omega
    have h2 : (a.take n)[i]? = none := by
      apply List.getElem?_eq_none; simp; omega
    rw [h1, h2]

theorem selectedKeys_length (d : Difficulty) (t : CardTheme) (avail : List String) :
    (selectedKeys d t avail).length = (layoutPairs d).toNat := by
  simp [selectedKeys]

theorem selectedKeys_nodup (d : Difficulty) (t : CardTheme) (avail : List String)
    (h : avail = [] ∨ ((layoutPairs d).toNat ≤ avail.length ∧ (avail.take (layoutPairs d).toNat).Nodup)) :
    (selectedKeys d t avail).Nodup := by
  unfold selectedKeys
  rcases h with h | ⟨hlen, hnd⟩
  · subst h
    have hl : (fallbackImages t (layoutPairs d) []).length = (layoutPairs d).toNat := by
      simp [fallbackImages]
    rw [range_map_cyc_eq_take _ _ (le_of_eq hl.symm), ← hl, List.take_length]
    exact fallbackImages_nodup d t
  · have hne : avail ≠ [] := by
      intro h0
      have := layoutPairs_pos d
      rw [h0] at hlen
      simp at hlen
      omega
    have hf : fallbackImages t (layoutPairs d) avail = avail := by
      unfold fallbackImages
      rw [if_neg]
      simpa using hne
    rw [hf, range_map_cyc_eq_take _ _ hlen]
    exact hnd

theorem buildDeck_selected (d : Difficulty) (t : CardTheme) (avail : List String) (rnd : Nat → Nat) :
    buildDeck d t avail rnd = some (shuffle rnd (pairUp t 0 (selectedKeys d t avail))) :=
  buildDeck_eq d t avail rnd

theorem deck_symbols_perm (t : CardTheme) (rnd : Nat → Nat) (q : List String) :
    ((shuffle rnd (pairUp t 0 q)).map Card.symbol).Perm (q ++ q) := by
  refine ((shuffle_perm rnd _).map Card.symbol).trans ?_
  rw [List.perm_iff_count]
  intro s
  rw [pairUp_count, List.count_append]
  omega

theorem pairGroups_of_nodup (deck : List Card) (q : List String)
    (hperm : (deck.map Card.symbol).Perm (q ++ q)) (hnd : q.Nodup) :
    PairGroups deck (q.length : Int) := by
  have hcount : ∀ s, (deck.map Card.symbol).count s = 2 * q.count s := by
    intro s
    rw [hperm.count_eq, List.count_append]
    omega
  have hmem : ∀ s, s ∈ (deck.map Card.symbol).dedup ↔ s ∈ q := by
    intro s
    rw [List.mem_dedup, hperm.mem_iff, List.mem_append, or_self]
  have hp : ((deck.map Card.symbol).dedup).Perm q :=
    (List.perm_ext_iff_of_nodup (List.nodup_dedup _) hnd).mpr hmem
  refine ⟨by rw [hp.length_eq], ?_⟩
  intro s hs
  have hsq : s ∈ q := by
    have := hperm.mem_iff.mp hs
    simpa using this
  rw [hcount s, List.count_eq_one_of_mem hnd hsq]

/-! ## Claims on deck building -/

/-- C6, as stated, fails: with the two images `cat.png` and `dog.png` in the theme directory
the Easy deck has two symbol-key groups of six cards each, not six groups of two. -/
theorem initializeCards_groups_counterexample :
    ∃ deck, buildDeck .EASY .ANIMALS
        ["assets/images/animals/cat.png", "assets/images/animals/dog.png"] (fun _ => 0) = some deck ∧
      (deck.length : Int) = layoutRows .EASY * layoutCols .EASY ∧
      (deck.map Card.symbol).dedup.length = 2 ∧
      (deck.map Card.symbol).count "assets/images/animals/cat.png" = 6 ∧
      ¬ PairGroups deck (layoutPairs .EASY) := by
  refine ⟨_, rfl, by decide, by decide, by decide, ?_⟩
  intro h
  have h2 := h.2 "assets/images/animals/cat.png" (by decide)
  revert h2
  decide

/-- C6, amended: for every difficulty, theme, list of available images and outcome of the
random generator, `initializeCards` builds a deck of `rows * cols` cards whose symbol keys
are, up to order, the `totalPairs` selected keys each taken twice; when the list is empty or
its first `totalPairs` entries exist and are pairwise distinct, the cards fall into exactly
`totalPairs` symbol-key groups of size 2. -/
theorem initializeCards_pairs_selected_keys (d : Difficulty) (t : CardTheme)
    (avail : List String) (rnd : Nat → Nat) :
    ∃ deck, buildDeck d t avail rnd = some deck ∧
      (deck.length : Int) = layoutRows d * layoutCols d ∧
      ((selectedKeys d t avail).length : Int) = layoutPairs d ∧
      (deck.map Card.symbol).Perm (selectedKeys d t avail ++ selectedKeys d t avail) ∧
      ((avail = [] ∨ ((layoutPairs d).toNat ≤ avail.length ∧
          (avail.take (layoutPairs d).toNat).Nodup)) → PairGroups deck (layoutPairs d)) := by
  refine ⟨_, buildDeck_selected d t avail rnd, ?_, ?_, deck_symbols_perm t rnd _, ?_⟩
  · rw [shuffle_length, pairUp_length, selectedKeys_length, layout_cards]
    have := layoutPairs_cast d
    push_cast
    omega
  · rw [selectedKeys_length]
    exact (layoutPairs_cast d).symm
  · intro h
    have hg := pairGroups_of_nodup _ _ (deck_symbols_perm t rnd (selectedKeys d t avail))
      (selectedKeys_nodup d t avail h)
    rw [selectedKeys_length, ← layoutPairs_cast d] at hg
    exact hg

/-- Witness for C6 (amended): the Easy deck built from an empty theme directory has six
symbol-key groups of size 2. -/
theorem initializeCards_pairs_selected_keys_witness :
    ∃ deck, buildDeck .EASY .FRUITS [] (fun i => 7 * i + 3) = some deck ∧
      PairGroups deck (layoutPairs .EASY) := by
  obtain ⟨deck, h1, _, _, _, h5⟩ :=
    initializeCards_pairs_selected_keys .EASY .FRUITS [] (fun i => 7 * i + 3)
  exact ⟨deck, h1, h5 (Or.inl rfl)⟩

/-- C7: for every difficulty, theme, list of available images (the empty list included) and
outcome of the random generator, the deck that reaches the size check of `initializeCards`
has exactly `rows * cols` cards, so the check succeeds, the correcting branch is not entered
and `gameCards` is that deck, of length `rows * cols`. -/
theorem initializeCards_size_check_passes (d : Difficulty) (t : CardTheme)
    (avail : List String) (rnd : Nat → Nat) :
    (∃ deck, deckAtCheck d t avail rnd = some deck ∧
      (deck.length : Int) = layoutRows d * layoutCols d ∧
      buildDeck d t avail rnd = some deck) ∧
    ∀ (w : World) (g : Game),
      deckAtCheck g.difficulty g.currentTheme w.availableImages w.rnd =
        some (initializeCards w g).gameCards ∧
      (((initializeCards w g).gameCards.length : Nat) : Int) =
        (initializeCards w g).rows * (initializeCards w g).cols := by
  have hlen : ∀ (d : Difficulty) (t : CardTheme) (avail : List String) (rnd : Nat → Nat),
      (((shuffle rnd (pairUp t 0 (selectedKeys d t avail))).length : Nat) : Int) =
        layoutRows d * layoutCols d := by
    intro d t avail rnd
    rw [shuffle_length, pairUp_length, selectedKeys_length, layout_cards]
    have := layoutPairs_cast d
    push_cast
    omega
  have hcheck : ∀ (d : Difficulty) (t : CardTheme) (avail : List String) (rnd : Nat → Nat),
      deckAtCheck d t avail rnd = some (shuffle rnd (pairUp t 0 (selectedKeys d t avail))) := by
    intro d t avail rnd
    unfold deckAtCheck
    rw [orderedDeck_eq]
    rfl
  refine ⟨⟨_, hcheck d t avail rnd, hlen d t avail rnd, buildDeck_selected d t avail rnd⟩, ?_⟩
  intro w g
  have hb := buildDeck_selected g.difficulty g.currentTheme w.availableImages w.rnd
  simp only [initializeCards, hb, Option.getD_some, hcheck, true_and]
  exact hlen _ _ _ _

/-- C9: for every outcome of the random generator the shuffle of `initializeCards` only
reorders the deck: the shuffled deck is a permutation of the deck before, so the multiset of
symbol keys and the multiset of card identities are unchanged; and the deck
`initializeCards` ends with is the shuffle of the deck built in step 5. -/
theorem shuffle_preserves_multiset (rnd : Nat → Nat) (deck : List Card) :
    (shuffle rnd deck).Perm deck ∧
      (((shuffle rnd deck).map Card.symbol : List String) : Multiset String) =
        ((deck.map Card.symbol : List String) : Multiset String) ∧
      (((shuffle rnd deck).map Card.id : List Int) : Multiset Int) =
        ((deck.map Card.id : List Int) : Multiset Int) ∧
      ∀ (d : Difficulty) (t : CardTheme) (avail : List String),
        ∃ (ordered : List Card) (cardId : Int),
          orderedDeck d t avail = some (ordered, cardId) ∧
          buildDeck d t avail rnd = some (shuffle rnd ordered) :=
  ⟨shuffle_perm rnd deck, Quotient.sound ((shuffle_perm rnd deck).map Card.symbol),
    Quotient.sound ((shuffle_perm rnd deck).map Card.id),
    fun d t avail => ⟨_, _, orderedDeck_eq d t avail, buildDeck_eq d t avail rnd⟩⟩

/-- C8: with `a` the list of available images, or the `totalPairs` placeholder names
`image1.png .. image<totalPairs>.png` (pairwise distinct) when that list is empty,
`initializeCards` never fails, and before shuffling positions `2i` and `2i+1` of the deck
hold the cards with identities `2i` and `2i+1`, both with symbol key `a[i mod n]`, for
`i < totalPairs`; the deck has `2 * totalPairs` cards, all identities differ, and when the
first `totalPairs` entries of `a` exist and are pairwise distinct every key of the deck is
on exactly two cards. -/
theorem initializeCards_ordered_deck (d : Difficulty) (t : CardTheme) (avail : List String) :
    (fallbackImages t (layoutPairs d) [] =
        (List.range (layoutPairs d).toNat).map
          (fun k => imageDir t ++ "image" ++ toString (k + 1) ++ ".png") ∧
      (fallbackImages t (layoutPairs d) []).Nodup ∧
      ((fallbackImages t (layoutPairs d) []).length : Int) = layoutPairs d) ∧
    (avail ≠ [] → fallbackImages t (layoutPairs d) avail = avail) ∧
    (∀ rnd, (buildDeck d t avail rnd).isSome = true) ∧
    ∃ deck, orderedDeck d t avail = some (deck, 2 * layoutPairs d) ∧
      (deck.length : Int) = 2 * layoutPairs d ∧
      (∀ i : Nat, (i : Int) < layoutPairs d →
        ∃ s, (fallbackImages t (layoutPairs d) avail)[i %
            (fallbackImages t (layoutPairs d) avail).length]? = some s ∧
          deck[2 * i]? = some (Card.mk (2 * i) s t) ∧
          deck[2 * i + 1]? = some (Card.mk (2 * i + 1) s t)) ∧
      (deck.map Card.id).Nodup ∧
      ((layoutPairs d).toNat ≤ (fallbackImages t (layoutPairs d) avail).length →
        ((fallbackImages t (layoutPairs d) avail).take (layoutPairs d).toNat).Nodup →
        ∀ s ∈ deck.map Card.symbol, (deck.map Card.symbol).count s = 2) := by
  refine ⟨⟨by simp [fallbackImages], fallbackImages_nodup d t, ?_⟩, ?_, ?_, ?_⟩
  · have := layoutPairs_cast d
    simp only [fallbackImages, List.isEmpty_nil, if_true, List.length_map, List.length_range]
    exact this.symm
  · intro h
    unfold fallbackImages
    rw [if_neg]
    simpa using h
  · intro rnd
    rw [buildDeck_eq]
    rfl
  · refine ⟨_, orderedDeck_eq d t avail, ?_, ?_, pairUp_ids_nodup t _ 0, ?_⟩
    · rw [pairUp_length]
      have := layoutPairs_cast d
      simp only [List.length_map, List.length_range]
      push_cast
      omega
    · intro i hi
      have hne := fallbackImages_ne_nil d t avail
      have hpos : 0 < (fallbackImages t (layoutPairs d) avail).length := List.length_pos.mpr hne
      have hi2 : i < (layoutPairs d).toNat := by
        have := layoutPairs_cast d
        omega
      have hsel : ((List.range (layoutPairs d).toNat).map
          (cyc (fallbackImages t (layoutPairs d) avail)))[i]? =
            some (cyc (fallbackImages t (layoutPairs d) avail) i) := by
        simp [hi2]
      have hg := pairUp_getElem t ((List.range (layoutPairs d).toNat).map
          (cyc (fallbackImages t (layoutPairs d) avail))) 0 i
      rw [hsel] at hg
      refine ⟨cyc (fallbackImages t (layoutPairs d) avail) i, ?_, ?_, ?_⟩
      · have hlt := Nat.mod_lt i hpos
        unfold cyc
        rw [List.getElem?_eq_getElem hlt]
        rfl
      · simpa using hg.1
      · simpa using hg.2
    · intro hlen hnd s hs
      rw [range_map_cyc_eq_take _ _ hlen] at hs ⊢
      rw [pairUp_count]
      have hmem : s ∈ (fallbackImages t (layoutPairs d) avail).take (layoutPairs d).toNat := by
        have h0 : 0 < ((pairUp t 0 ((fallbackImages t (layoutPairs d) avail).take
            (layoutPairs d).toNat)).map Card.symbol).count s := List.count_pos_iff.mpr hs
        rw [pairUp_count] at h0
        exact List.count_pos_iff.mp (by omega)
      rw [List.count_eq_one_of_mem hnd hmem]

/-- Witness for C8: an Easy board with six different images in the theme directory; every
symbol key of the ordered deck is on exactly two cards. -/
theorem initializeCards_ordered_deck_witness :
    ∃ deck, orderedDeck .EASY .ANIMALS ["a", "b", "c", "d", "e", "f"] = some (deck, 12) ∧
      deck[2 * 4]? = some (Card.mk 8 "e" .ANIMALS) ∧
      ∀ s ∈ deck.map Card.symbol, (deck.map Card.symbol).count s = 2 := by
  obtain ⟨_, h2, _, deck, h4, _, h6, _, h8⟩ :=
    initializeCards_ordered_deck .EASY .ANIMALS ["a", "b", "c", "d", "e", "f"]
  obtain ⟨s, hs, h0, _⟩ := h6 4 (by decide)
  rw [h2 (by decide)] at hs h8
  have hs4 : s = "e" := by
    have : (["a", "b", "c", "d", "e", "f"] : List String)[4 % 6]? = some "e" := by decide
    have h := hs.symm.trans this
    exact Option.some.inj h
  rw [hs4] at h0
  exact ⟨deck, h4, h0, h8 (by decide) (by decide)⟩

/-! ## Lemmas on the game operations -/

theorem updCard_getElem (cards : List CardSprite) (i j : Nat) (f : CardSprite → CardSprite) :
    (updCard cards i f)[j]? = if i = j then (cards[j]?).map f else cards[j]? := by
  unfold updCard
  split
  · next c hc =>
    rw [List.getElem?_set]
    split
    · next h =>
      subst h
      have hlt : i < cards.length := by
        by_contra hge
        rw [List.getElem?_eq_none (by omega)] at hc
        exact Option.noConfusion hc
      simp [hlt, hc]
    · rfl
  · next hc =>
    split
    · next h => subst h; simp [hc]
    · rfl

theorem updCard_length (cards : List CardSprite) (i : Nat) (f : CardSprite → CardSprite) :
    (updCard cards i f).length = cards.length := by
  unfold updCard
  split <;> simp

theorem handleCardClick_layout (g : Game) (i : Int) : (handleCardClick g i).layout = g.layout := by
  unfold handleCardClick
  repeat' split
  all_goals first | rfl | (simp only []; split <;> rfl)

theorem saveGameResult_layout (w : World) (g : Game) : (saveGameResult w g).layout = g.layout := by
  unfold saveGameResult
  split <;> simp [Game.layout]

theorem winGame_layout (pol : ScorePolicy) (w : World) (g : Game) :
    (winGame pol w g).layout = g.layout := by
  unfold winGame
  simp only [declareWon_player]
  split
  · have h := saveGameResult_layout w (finishPlayer pol (declareWon g) ‹Player›)
    simp only [Game.layout] at h ⊢
    simpa using h
  · simp [Game.layout]

theorem processCardMatch_layout (pol : ScorePolicy) (w : World) (g : Game) :
    (processCardMatch pol w g).layout = g.layout := by
  unfold processCardMatch
  repeat' split
  all_goals first
    | rfl
    | (simp only []
       repeat' split
       all_goals first | rfl | (rw [winGame_layout]; rfl))

theorem update_layout (pol : ScorePolicy) (w : World) (dt : Nat) (g : Game) :
    (update pol w dt g).layout = g.layout := by
  unfold update
  split
  · simp only []
    repeat' split
    all_goals first | rfl | (rw [processCardMatch_layout]; rfl)
  · rfl

theorem surrenderGame_layout (pol : ScorePolicy) (w : World) (g : Game) :
    (surrenderGame pol w g).layout = g.layout := by
  unfold surrenderGame
  split
  · rfl
  · simp only []
    repeat' split
    all_goals rfl

theorem enterNameText_layout (g : Game) (u : Nat) : (enterNameText g u).layout = g.layout := by
  unfold enterNameText
  repeat' split
  all_goals rfl

theorem cardPress_layout (g : Game) (i : Nat) : (cardPress g i).layout = g.layout := by
  unfold cardPress
  repeat' split
  all_goals first | rfl | exact handleCardClick_layout g _

theorem resetGame_layout (w : World) (g : Game) :
    (resetGame w g).layout = (layoutRows g.difficulty, layoutCols g.difficulty, layoutPairs g.difficulty) := by
  rfl

theorem resetGame_difficulty (w : World) (g : Game) : (resetGame w g).difficulty = g.difficulty := rfl

theorem reachable_run (pol : ScorePolicy) (w : World) (inputs : List Input) :
    ∀ g : Game, Reachable pol g → Reachable pol (run pol w g inputs) := by
  induction inputs with
  | nil => intro g h; exact h
  | cons x xs ih => intro g h; exact ih _ (Reachable.step w x h)

theorem activate_layout (pol : ScorePolicy) (w : World) (g : Game) (b : Button) :
    (activate pol w g b).layout = g.layout ∨
      (activate pol w g b).layout =
        (layoutRows g.difficulty, layoutCols g.difficulty, layoutPairs g.difficulty) := by
  cases b <;> simp only [activate] <;>
    first
    | (left; trivial)
    | (split <;>
        first
        | (left; rfl)
        | (left; exact surrenderGame_layout pol w g)
        | (left; unfold pauseGame; split <;> rfl)
        | (left; unfold resumeGame; split <;> rfl)
        | (left; unfold cycleDifficulty; split <;> rfl)
        | (left; unfold cycleTheme; split <;> rfl)
        | (unfold startGameAction; split
           · right; rfl
           · left; rfl))

theorem handleEvent_layout (pol : ScorePolicy) (w : World) (g : Game) (e : Event) :
    (handleEvent pol w g e).layout = g.layout ∨
      (handleEvent pol w g e).layout =
        (layoutRows g.difficulty, layoutCols g.difficulty, layoutPairs g.difficulty) := by
  unfold handleEvent
  split
  · left; rfl
  · cases e with
    | closed => left; rfl
    | textEntered u => left; simp only; split; exact enterNameText_layout g u; rfl
    | cardPressed i => left; simp only; split; exact cardPress_layout g i; rfl
    | activated b => exact activate_layout pol w g b
    | continuePressed => left; simp only; split <;> rfl
    | contactBack => left; simp only; split <;> rfl

theorem step_layout (pol : ScorePolicy) (w : World) (g : Game) (inp : Input) :
    (step pol w g inp).layout = g.layout ∨
      (step pol w g inp).layout =
        (layoutRows g.difficulty, layoutCols g.difficulty, layoutPairs g.difficulty) := by
  unfold step
  split
  · left; rfl
  · cases inp with
    | event e => exact handleEvent_layout pol w g e
    | tick dt => left; simp only; rw [update_layout]; rfl

theorem layoutTable_eq (d : Difficulty) :
    (layoutRows d, layoutCols d, layoutPairs d) = layoutTable d := by
  cases d <;> rfl

theorem reachable_layout (pol : ScorePolicy) (g : Game) (h : Reachable pol g) :
    ∃ d, g.layout = layoutTable d := by
  induction h with
  | init db b => exact ⟨.MEDIUM, rfl⟩
  | step w inp _ ih =>
    rcases step_layout pol w _ inp with h1 | h1
    · rw [h1]; exact ih
    · rw [h1, layoutTable_eq]; exact ⟨_, rfl⟩

/-! ## Claim on the layout -/

/-- C10: in every reachable state of the game `rows * cols = 2 * totalPairs` (the triple is
an entry of the layout table), and after `resetGame` the triple `(rows, cols, totalPairs)`
is the table entry of the selected difficulty: Easy (3,4,6), Medium (4,4,8), Hard (4,6,12),
Expert (6,6,18). -/
theorem layout_invariant :
    (∀ (pol : ScorePolicy) (g : Game), Reachable pol g →
      g.rows * g.cols = 2 * g.totalPairs ∧ ∃ d, (g.rows, g.cols, g.totalPairs) = layoutTable d) ∧
    (∀ (w : World) (g : Game),
      (resetGame w g).difficulty = g.difficulty ∧
      ((resetGame w g).rows, (resetGame w g).cols, (resetGame w g).totalPairs) =
        layoutTable g.difficulty) ∧
    layoutTable .EASY = (3, 4, 6) ∧ layoutTable .MEDIUM = (4, 4, 8) ∧
    layoutTable .HARD = (4, 6, 12) ∧ layoutTable .EXPERT = (6, 6, 18) := by
  refine ⟨?_, ?_, rfl, rfl, rfl, rfl⟩
  · intro pol g h
    obtain ⟨d, hd⟩ := reachable_layout pol g h
    have h3 : (g.rows, g.cols, g.totalPairs) = layoutTable d := hd
    refine ⟨?_, d, h3⟩
    have hr : g.rows = (layoutTable d).1 := congrArg (fun p => p.1) h3
    have hc : g.cols = (layoutTable d).2.1 := congrArg (fun p => p.2.1) h3
    have ht : g.totalPairs = (layoutTable d).2.2 := congrArg (fun p => p.2.2) h3
    rw [hr, hc, ht]
    cases d <;> rfl
  · intro w g
    exact ⟨rfl, (resetGame_layout w g).trans (layoutTable_eq g.difficulty)⟩

/-- Witness for C10: the freshly started Easy session is reachable and has a 3 x 4 board
with 6 pairs. -/
theorem layout_invariant_witness :
    Reachable examplePolicy freshEasy ∧
      freshEasy.rows * freshEasy.cols = 2 * freshEasy.totalPairs ∧
      (freshEasy.rows, freshEasy.cols, freshEasy.totalPairs) = (3, 4, 6) :=
  ⟨reachable_run _ _ _ _ (Reachable.init _ _),
    (layout_invariant.1 examplePolicy freshEasy
      (reachable_run _ _ _ _ (Reachable.init _ _))).1, by decide⟩

/-! ## Lemmas on the cards of the board -/

theorem makeSprite_hidden (w : World) (tp : Int) (i : Nat) (c : Card) :
    (makeSprite w tp i c).state = CardState.HIDDEN ∧ (makeSprite w tp i c).isClickable = true := by
  unfold makeSprite
  split <;> exact ⟨rfl, rfl⟩

theorem resetGame_cards_mem (w : World) (g : Game) (j : Nat) (c : CardSprite)
    (h : (resetGame w g).cards[j]? = some c) :
    c.state = CardState.HIDDEN ∧ c.isClickable = true := by
  have hm : c ∈ (resetGame w g).cards := List.getElem?_mem h
  simp only [resetGame, restartTimer_cards, createCardSprites_cards, List.mem_map] at hm
  obtain ⟨ic, _, hic⟩ := hm
  rw [← hic]
  exact makeSprite_hidden _ _ _ _

theorem tick_idle_view (pol : ScorePolicy) (w : World) (g : Game) (dt : Nat)
    (h : g.isFlipping = false) : (step pol w g (.tick dt)).view = g.view := by
  cases ha : g.isGameActive <;> cases hw : g.windowOpen <;> cases hs : g.currentState <;>
    simp [step, update, h, ha, hw, hs, Game.view]

theorem tick_wait (pol : ScorePolicy) (w : World) (g : Game) (dt : Nat)
    (hw : g.windowOpen = true) (hs : g.currentState = .PLAYING) (hf : g.isFlipping = true)
    (hlt : g.cardFlipProgress + dt < cardFlipTime) :
    (step pol w g (.tick dt)).view = g.view ∧
      (step pol w g (.tick dt)).cardFlipProgress = g.cardFlipProgress + dt := by
  have hlt1 : ¬ cardFlipTime ≤ g.cardFlipProgress + dt := by omega
  cases ha : g.isGameActive <;>
    simp [step, update, hw, hs, hf, ha, hlt1, Game.view]

theorem tick_fire_one (pol : ScorePolicy) (w : World) (g : Game) (dt : Nat)
    (hw : g.windowOpen = true) (hs : g.currentState = .PLAYING) (hf : g.isFlipping = true)
    (hge : cardFlipTime ≤ g.cardFlipProgress + dt) (h2 : g.secondCard = none) :
    (step pol w g (.tick dt)).view = { g.view with isFlipping := false } := by
  cases ha : g.isGameActive <;>
    simp [step, update, hw, hs, hf, ha, hge, h2, Game.view]

theorem saveGameResult_view (w : World) (g : Game) : (saveGameResult w g).view = g.view := by
  unfold saveGameResult
  split <;> rfl

theorem winGame_view (pol : ScorePolicy) (w : World) (g : Game) :
    (winGame pol w g).view =
      { g.view with hasWon := true, isGameActive := false,
                    currentState := GameState.GAME_OVER_WIN } := by
  unfold winGame
  simp only [declareWon_player]
  split
  · next p _ =>
    have h := saveGameResult_view w (finishPlayer pol (declareWon g) p)
    simp only [Game.view, SessionView.mk.injEq] at h
    simp [Game.view, h]
  · rfl

theorem processCardMatch_view_match (pol : ScorePolicy) (w : World) (g : Game) (fc sc : Nat)
    (h1 : g.firstCard = some fc) (h2 : g.secondCard = some sc) (hc : g.isChecking = true)
    (hm : symbolsMatch g fc sc = true) :
    (processCardMatch pol w g).view =
      if g.totalPairs ≤ g.matchedPairs + 1 ∧ g.hasWon = false then
        { g.view with cards := marked g.cards fc sc, matchedPairs := g.matchedPairs + 1,
                      hasWon := true, isGameActive := false,
                      currentState := GameState.GAME_OVER_WIN }
      else if g.currentState ≠ GameState.GAME_OVER_WIN then
        { g.view with cards := marked g.cards fc sc, matchedPairs := g.matchedPairs + 1,
                      firstCard := none, secondCard := none, selectedCard1 := -1,
                      selectedCard2 := -1, isChecking := false }
      else
        { g.view with cards := marked g.cards fc sc, matchedPairs := g.matchedPairs + 1 } := by
  unfold processCardMatch
  simp only [h1, h2, hc, hm, Bool.not_true, Bool.false_eq_true, if_false, if_true]
  simp only [markPair_matchedPairs, markPair_totalPairs, markPair_hasWon, markPair_currentState,
    ge_iff_le, Bool.and_eq_true, decide_eq_true_eq, Bool.not_eq_true']
  split
  · rw [winGame_view]; rfl
  · split <;> rfl

theorem processCardMatch_view_mismatch (pol : ScorePolicy) (w : World) (g : Game) (fc sc : Nat)
    (h1 : g.firstCard = some fc) (h2 : g.secondCard = some sc) (hc : g.isChecking = true)
    (hm : symbolsMatch g fc sc = false) :
    (processCardMatch pol w g).view =
      if g.currentState ≠ GameState.GAME_OVER_WIN then
        { g.view with cards := hiddenAgain g.cards fc sc,
                      firstCard := none, secondCard := none, selectedCard1 := -1,
                      selectedCard2 := -1, isChecking := false }
      else
        { g.view with cards := hiddenAgain g.cards fc sc, isChecking := false } := by
  unfold processCardMatch
  simp only [h1, h2, hc, hm, Bool.not_true, Bool.false_eq_true, if_false]
  simp only [hidePair_currentState]
  split <;> rfl

theorem tick_fire_two (pol : ScorePolicy) (w : World) (g : Game) (dt : Nat) (fc sc : Nat)
    (hw : g.windowOpen = true) (hs : g.currentState = .PLAYING) (hf : g.isFlipping = true)
    (hge : cardFlipTime ≤ g.cardFlipProgress + dt)
    (h1 : g.firstCard = some fc) (h2 : g.secondCard = some sc) :
    ∃ g1 : Game, g1.view = { g.view with isFlipping := false, isChecking := true } ∧
      step pol w g (.tick dt) = processCardMatch pol w g1 := by
  cases ha : g.isGameActive
  · refine ⟨startChecking (finishFlip (advanceFlip (passTime g dt) dt)), ?_, ?_⟩
    · simp [Game.view]
    · simp [step, update, hw, hs, hf, ha, hge, h1, h2]
  · refine ⟨startChecking (finishFlip (advanceFlip
      (updateStats pol (recordElapsed (passTime g dt))) dt)), ?_, ?_⟩
    · simp [Game.view]
    · simp [step, update, hw, hs, hf, ha, hge, h1, h2]

theorem saveGameResult_isFlipping (w : World) (g : Game) :
    (saveGameResult w g).isFlipping = g.isFlipping :=
  congrArg SessionView.isFlipping (saveGameResult_view w g)

/-- C4: `handleCardClick` leaves the whole game state unchanged whenever the session is
inactive, a flip is in progress or a check is in progress, and also for an index outside
the board; being a total function it raises no error. The same holds for the press on a
card as `handleEvents` treats it in mode `PLAYING`. -/
theorem handleCardClick_rejects (g : Game) :
    (g.isGameActive = false ∨ g.isFlipping = true ∨ g.isChecking = true →
      (∀ cardIndex : Int, handleCardClick g cardIndex = g) ∧
      (∀ i : Nat, cardPress g i = g)) ∧
    (∀ cardIndex : Int, cardIndex < 0 ∨ (g.cards.length : Int) ≤ cardIndex →
      handleCardClick g cardIndex = g) := by
  constructor
  · intro h
    have hguard : (!g.isGameActive || g.isFlipping || g.isChecking) = true := by
      rcases h with h | h | h <;> simp [h]
    have hclick : ∀ cardIndex : Int, handleCardClick g cardIndex = g := by
      intro cardIndex
      unfold handleCardClick
      rw [if_pos hguard]
    refine ⟨hclick, ?_⟩
    intro i
    unfold cardPress
    split
    · split
      · exact hclick _
      · rfl
    · rfl
  · intro cardIndex h
    unfold handleCardClick
    split
    · rfl
    · rw [if_pos]
      rcases h with h | h <;> simp [h]

/-- Witness for C4: while the first card of the example session is still turning
(`isFlipping`), a click on any card changes nothing. -/
theorem handleCardClick_rejects_witness :
    (step examplePolicy exampleWorld freshEasy (.event (.cardPressed 1))).isFlipping = true ∧
      handleCardClick (step examplePolicy exampleWorld freshEasy (.event (.cardPressed 1))) 2 =
        step examplePolicy exampleWorld freshEasy (.event (.cardPressed 1)) ∧
      handleCardClick freshEasy 12 = freshEasy :=
  ⟨rfl,
    ((handleCardClick_rejects
      (step examplePolicy exampleWorld freshEasy (.event (.cardPressed 1)))).1
        (Or.inr (Or.inl rfl))).1 2,
    (handleCardClick_rejects freshEasy).2 12 (Or.inr (by decide))⟩

/-- C5: for every session state and every card index, the selection of a card that is not
Hidden (a Matched card, or a Revealed one such as the pending first selection) is a no-op on
the whole game state: moves, matched pairs, the pending selection and all cards are
unchanged. `handleCardClick` is reached only through the branch `PLAYING` of `handleEvents`,
which passes on Hidden clickable cards only; the theorem is on that path (`cardPress`, the
handling of the event, the step of the main loop). -/
theorem cardPress_rejects_unhidden (pol : ScorePolicy) (w : World) (g : Game) (i : Nat)
    (c : CardSprite) (hi : g.cards[i]? = some c) (hs : c.state ≠ CardState.HIDDEN) :
    cardPress g i = g ∧
      (g.currentState ≠ GameState.EXIT → handleEvent pol w g (.cardPressed i) = g) ∧
      (g.windowOpen = true → g.currentState ≠ GameState.EXIT →
        step pol w g (.event (.cardPressed i)) = g) := by
  have h1 : cardPress g i = g := by
    unfold cardPress
    simp [hi, hs]
  have h2 : g.currentState ≠ GameState.EXIT → handleEvent pol w g (.cardPressed i) = g := by
    intro hne
    unfold handleEvent
    rw [if_neg hne]
    simp only
    split
    · exact h1
    · rfl
  refine ⟨h1, h2, ?_⟩
  intro hw hne
  unfold step
  simp [hw, h2 hne]

/-- Witness for C5: in the example session with one pair found, the press on the Matched
card 1 changes nothing. -/
theorem cardPress_rejects_unhidden_witness :
    (onePairFound.cards[1]?).map (fun c => c.state) = some CardState.MATCHED ∧
      cardPress onePairFound 1 = onePairFound :=
  ⟨by decide,
    (cardPress_rejects_unhidden examplePolicy exampleWorld onePairFound 1
      ⟨0, "assets/images/animals/image1.png", .MATCHED, false⟩ (by decide) (by decide)).1⟩

/-! ## Lemmas on the win -/

theorem marked_symbol (cs : List CardSprite) (fc sc k : Nat) :
    ((marked cs fc sc)[k]?).map (fun c => c.symbol) = (cs[k]?).map (fun c => c.symbol) := by
  simp only [marked, updCard_getElem]
  split_ifs <;> cases cs[k]? <;> simp [CardSprite.markMatched]

theorem symbolsMatch_markPair (pol : ScorePolicy) (g : Game) (fc sc : Nat) :
    symbolsMatch (markPair pol g fc sc) fc sc = symbolsMatch g fc sc := by
  have h1 := marked_symbol g.cards fc sc fc
  have h2 := marked_symbol g.cards fc sc sc
  simp only [marked] at h1 h2
  simp only [symbolsMatch, markPair_cards, h1, h2]

theorem winGame_signals (pol : ScorePolicy) (w : World) (g : Game) :
    winSignals (winGame pol w g) = winSignals g + 1 ∧
      saveSignals (winGame pol w g) =
        saveSignals g + (if g.player.isSome = true ∧ g.database.isSome = true then 1 else 0) := by
  cases hp : g.player <;> cases hd : g.database <;>
    simp [winGame, saveGameResult, winSignals, saveSignals, hp, hd, List.count_append,
      List.countP_append, isSave]

theorem winGame_fields (pol : ScorePolicy) (w : World) (g : Game) :
    (winGame pol w g).hasWon = true ∧ (winGame pol w g).isGameActive = false ∧
      (winGame pol w g).currentState = GameState.GAME_OVER_WIN ∧
      (winGame pol w g).matchedPairs = g.matchedPairs ∧
      (winGame pol w g).firstCard = g.firstCard ∧
      (winGame pol w g).secondCard = g.secondCard ∧
      (winGame pol w g).isChecking = g.isChecking ∧
      (winGame pol w g).cards = g.cards := by
  have h := winGame_view pol w g
  simp only [Game.view, SessionView.mk.injEq] at h
  obtain ⟨_, e2, e3, _, e5, _, e7, e8, _, _, _, e12, _, e14, e15⟩ := h
  exact ⟨e14, e3, e2, e12, e7, e8, e5, e15⟩

theorem symbolsMatch_congr (g g1 : Game) (fc sc : Nat) (h : g1.cards = g.cards) :
    symbolsMatch g1 fc sc = symbolsMatch g fc sc := by
  simp only [symbolsMatch, h]

theorem processCardMatch_win (pol : ScorePolicy) (w : World) (g : Game) (fc sc : Nat)
    (h1 : g.firstCard = some fc) (h2 : g.secondCard = some sc) (hc : g.isChecking = true)
    (hm : symbolsMatch g fc sc = true) (hlast : g.totalPairs ≤ g.matchedPairs + 1)
    (hw : g.hasWon = false) :
    processCardMatch pol w g = winGame pol w (markPair pol g fc sc) := by
  unfold processCardMatch
  simp [h1, h2, hc, hm, hlast, hw]

theorem processCardMatch_after_win (pol : ScorePolicy) (w : World) (g : Game) (fc sc : Nat)
    (h1 : g.firstCard = some fc) (h2 : g.secondCard = some sc) (hc : g.isChecking = true)
    (hm : symbolsMatch g fc sc = true) (hw : g.hasWon = true)
    (hs : g.currentState = GameState.GAME_OVER_WIN) :
    processCardMatch pol w g = markPair pol g fc sc := by
  unfold processCardMatch
  simp [h1, h2, hc, hm, hw, hs]

/-! ## Claim on the win -/

set_option maxRecDepth 100000 in
/-- C3, as stated, fails: in a game started without a database the last match sets
`hasWon`, deactivates the session, enters `GAME_OVER_WIN` and plays the win sound once,
but no result is saved, during the whole game `Database::saveGame` is never called. -/
theorem win_without_database_counterexample :
    lastMoveNoDatabase.matchedPairs + 1 = lastMoveNoDatabase.totalPairs ∧
      lastMoveNoDatabase.player.isSome = true ∧ lastMoveNoDatabase.database = none ∧
      (step examplePolicy exampleWorld lastMoveNoDatabase (.tick 300000)).matchedPairs =
        lastMoveNoDatabase.totalPairs ∧
      (step examplePolicy exampleWorld lastMoveNoDatabase (.tick 300000)).hasWon = true ∧
      (step examplePolicy exampleWorld lastMoveNoDatabase (.tick 300000)).currentState =
        GameState.GAME_OVER_WIN ∧
      winSignals (step examplePolicy exampleWorld lastMoveNoDatabase (.tick 300000)) = 1 ∧
      saveSignals (step examplePolicy exampleWorld lastMoveNoDatabase (.tick 300000)) = 0 := by
  decide

/-- C3, amended: when `processCardMatch` resolves the match that brings `matchedPairs` to
`totalPairs` and `hasWon` is still false, then `hasWon` becomes true, the session is
deactivated, the mode becomes `GAME_OVER_WIN` and the win sound is played exactly once; the
result is saved exactly once when a player and the database are present and not at all
otherwise. If `processCardMatch` is invoked again afterwards, `hasWon` and the mode stay as
they are and no further win sound or save is produced. -/
theorem win_fires_once (pol : ScorePolicy) (w w1 : World) (g : Game) (fc sc : Nat)
    (h1 : g.firstCard = some fc) (h2 : g.secondCard = some sc) (hc : g.isChecking = true)
    (hm : symbolsMatch g fc sc = true) (hlast : g.matchedPairs + 1 = g.totalPairs)
    (hw : g.hasWon = false) :
    (processCardMatch pol w g).matchedPairs = g.totalPairs ∧
      (processCardMatch pol w g).hasWon = true ∧
      (processCardMatch pol w g).isGameActive = false ∧
      (processCardMatch pol w g).currentState = GameState.GAME_OVER_WIN ∧
      winSignals (processCardMatch pol w g) = winSignals g + 1 ∧
      saveSignals (processCardMatch pol w g) =
        saveSignals g + (if g.player.isSome = true ∧ g.database.isSome = true then 1 else 0) ∧
      (processCardMatch pol w1 (processCardMatch pol w g)).hasWon = true ∧
      (processCardMatch pol w1 (processCardMatch pol w g)).currentState =
        GameState.GAME_OVER_WIN ∧
      winSignals (processCardMatch pol w1 (processCardMatch pol w g)) =
        winSignals (processCardMatch pol w g) ∧
      saveSignals (processCardMatch pol w1 (processCardMatch pol w g)) =
        saveSignals (processCardMatch pol w g) ∧
      (processCardMatch pol w1 (processCardMatch pol w g)).database =
        (processCardMatch pol w g).database := by
  have hle : g.totalPairs ≤ g.matchedPairs + 1 := le_of_eq hlast.symm
  have hfirst := processCardMatch_win pol w g fc sc h1 h2 hc hm hle hw
  obtain ⟨f1, f2, f3, f4, f5, f6, f7, f8⟩ := winGame_fields pol w (markPair pol g fc sc)
  obtain ⟨s1, s2⟩ := winGame_signals pol w (markPair pol g fc sc)
  have hm1 : symbolsMatch (winGame pol w (markPair pol g fc sc)) fc sc = true := by
    rw [symbolsMatch_congr _ _ fc sc f8, symbolsMatch_markPair]
    exact hm
  have hsecond := processCardMatch_after_win pol w1 (winGame pol w (markPair pol g fc sc)) fc sc
    (f5.trans h1) (f6.trans h2) (f7.trans hc) hm1 f1 f3
  rw [hfirst, hsecond]
  refine ⟨?_, f1, f2, f3, ?_, ?_, ?_, ?_, ?_, ?_, ?_⟩
  · rw [f4]; simpa using hlast
  · rw [s1]; simp [winSignals, List.count_append]
  · rw [s2]
    cases hp : g.player <;> cases hd : g.database <;>
      simp [saveSignals, List.countP_append, isSave, hp, hd]
  · simpa using f1
  · simpa using f3
  · simp [winSignals, List.count_append]
  · simp [saveSignals, List.countP_append, isSave]
  · rfl

set_option maxRecDepth 100000 in
/-- Witness for C3 (amended): the last match of the example game with a database; the win
sound is played once and one result is saved. -/
theorem win_fires_once_witness :
    lastMoveWithDatabase.matchedPairs + 1 = lastMoveWithDatabase.totalPairs ∧
      winSignals (processCardMatch examplePolicy exampleWorld
        (startChecking (finishFlip lastMoveWithDatabase))) =
        winSignals (startChecking (finishFlip lastMoveWithDatabase)) + 1 ∧
      saveSignals (processCardMatch examplePolicy exampleWorld
        (startChecking (finishFlip lastMoveWithDatabase))) =
        saveSignals (startChecking (finishFlip lastMoveWithDatabase)) + 1 :=
  have h := win_fires_once examplePolicy exampleWorld exampleWorld
    (startChecking (finishFlip lastMoveWithDatabase)) 11 0
    (by decide) (by decide) (by decide) (by decide) (by decide) (by decide)
  ⟨by decide, h.2.2.2.2.1, h.2.2.2.2.2.1⟩

/-! ## Lemmas on surrender -/

theorem floor_half (s : Int) : ⌊(s : ℚ) / 2⌋ = s / 2 := by
  have h := Rat.floor_intCast_div_natCast s 2
  simpa using h

theorem surrenderGame_inactive (pol : ScorePolicy) (w : World) (g : Game)
    (h : g.isGameActive = false) : surrenderGame pol w g = g := by
  unfold surrenderGame
  simp [h]

theorem surrenderGame_saved (pol : ScorePolicy) (w : World) (g : Game) (p : Player)
    (db : Database) (ha : g.isGameActive = true) (hp : g.player = some p)
    (hd : g.database = some db) :
    surrenderGame pol w g =
      setCurrentState
        (storeRecord w (finishPlayer pol (concede g) p) db
          (surrenderRecord w (finishPlayer pol (concede g) p)
            ((p.finishGame).calculateScore pol g.totalPairs))) GameState.GAME_OVER_LOSE := by
  unfold surrenderGame
  simp [ha, hp, hd]

theorem surrenderGame_unsaved (pol : ScorePolicy) (w : World) (g : Game) (p : Player)
    (ha : g.isGameActive = true) (hp : g.player = some p) (hd : g.database = none) :
    surrenderGame pol w g =
      setCurrentState (finishPlayer pol (concede g) p) GameState.GAME_OVER_LOSE := by
  unfold surrenderGame
  simp [ha, hp, hd]

theorem surrenderGame_no_player (pol : ScorePolicy) (w : World) (g : Game)
    (ha : g.isGameActive = true) (hp : g.player = none) :
    surrenderGame pol w g = setCurrentState (concede g) GameState.GAME_OVER_LOSE := by
  unfold surrenderGame
  simp [ha, hp]

/-! ## Claims on surrender -/

/-- C11, as stated, fails for negative odd scores: after one missed move scored with a
penalty of 15 points per move the player has the score -15; `surrenderGame` stores the
score -7 (the division of C++ truncates toward zero), while the floor of -15/2 is -8. -/
theorem surrender_score_counterexample :
    oneMiss.isGameActive = true ∧
      playerScore (surrenderGame penaltyPolicy exampleWorld oneMiss) = some (-15) ∧
      lastStoredScore (surrenderGame penaltyPolicy exampleWorld oneMiss) = some (-7) ∧
      ⌊((-15 : Int) : ℚ) / 2⌋ = -8 := by
  refine ⟨by decide, by decide, by decide, ?_⟩
  rw [floor_half]
  decide

/-- C11, amended: when an active session with a player and a database is surrendered, the
player's score is recomputed to `s` and the record handed to `Database::saveGame` (which
becomes the last row when the insert succeeds) has the score `s / 2` of C++ integer
division, truncated toward zero; for `s ≥ 0` this is the floor of `s / 2`. -/
theorem surrender_halves_score (pol : ScorePolicy) (w : World) (g : Game) (p : Player)
    (db : Database) (ha : g.isGameActive = true) (hp : g.player = some p)
    (hd : g.database = some db) :
    playerScore (surrenderGame pol w g) = some (pol p.matchedPairs p.moves g.totalPairs) ∧
      (∃ record : GameRecord,
        record.score = Int.tdiv (pol p.matchedPairs p.moves g.totalPairs) 2 ∧
        (surrenderGame pol w g).signals =
          g.signals ++ [Signal.gameLose, Signal.saveGame record] ∧
        (surrenderGame pol w g).database = some (db.saveGame w.saveOk record).1) ∧
      (w.saveOk = true →
        lastStoredScore (surrenderGame pol w g) =
          some (Int.tdiv (pol p.matchedPairs p.moves g.totalPairs) 2)) ∧
      (0 ≤ pol p.matchedPairs p.moves g.totalPairs →
        Int.tdiv (pol p.matchedPairs p.moves g.totalPairs) 2 =
          ⌊((pol p.matchedPairs p.moves g.totalPairs : Int) : ℚ) / 2⌋) := by
  rw [surrenderGame_saved pol w g p db ha hp hd]
  refine ⟨?_, ⟨_, ?_, ?_, rfl⟩, ?_, ?_⟩
  · simp [playerScore, Player.calculateScore, Player.finishGame]
  · simp [surrenderRecord, Player.calculateScore, Player.finishGame]
  · simp
  · intro hok
    simp [lastStoredScore, Database.saveGame, hok, surrenderRecord, Player.calculateScore,
      Player.finishGame]
  · intro hs
    rw [floor_half]
    exact Int.tdiv_eq_ediv hs (by decide)

/-- Witness for C11 (amended): the example session with one pair found is surrendered with
the score 150 and the score 75 is stored. -/
theorem surrender_halves_score_witness :
    onePairFound.isGameActive = true ∧
      playerScore (surrenderGame examplePolicy exampleWorld onePairFound) = some 150 ∧
      lastStoredScore (surrenderGame examplePolicy exampleWorld onePairFound) =
        some (Int.tdiv 150 2) :=
  have h := surrender_halves_score examplePolicy exampleWorld onePairFound
    ⟨"A", 1, 1, 150, false⟩ ⟨[]⟩ (by decide) (by decide) (by decide)
  ⟨by decide, h.1, h.2.2.1 rfl⟩

/-- C12: `surrenderGame` acts only on an active session. When `isGameActive` is false it
leaves the whole game state unchanged, so nothing is persisted; when `isGameActive` is true
it deactivates the session and sets the mode to `GAME_OVER_LOSE`. -/
theorem surrender_only_when_active (pol : ScorePolicy) (w : World) (g : Game) :
    (g.isGameActive = false →
      surrenderGame pol w g = g ∧
      (surrenderGame pol w g).database = g.database ∧
      (surrenderGame pol w g).signals = g.signals) ∧
    (g.isGameActive = true →
      (surrenderGame pol w g).isGameActive = false ∧
      (surrenderGame pol w g).currentState = GameState.GAME_OVER_LOSE) := by
  constructor
  · intro h
    rw [surrenderGame_inactive pol w g h]
    exact ⟨rfl, rfl, rfl⟩
  · intro ha
    cases hp : g.player with
    | none => rw [surrenderGame_no_player pol w g ha hp]; exact ⟨rfl, rfl⟩
    | some p =>
      cases hd : g.database with
      | none => rw [surrenderGame_unsaved pol w g p ha hp hd]; exact ⟨rfl, rfl⟩
      | some db => rw [surrenderGame_saved pol w g p db ha hp hd]; exact ⟨rfl, rfl⟩

/-- Witness for C12: in the paused example session the surrender changes nothing; in the
running one it ends the session. -/
theorem surrender_only_when_active_witness :
    surrenderGame examplePolicy exampleWorld (pauseGame freshEasy) = pauseGame freshEasy ∧
      (surrenderGame examplePolicy exampleWorld freshEasy).isGameActive = false ∧
      (surrenderGame examplePolicy exampleWorld freshEasy).currentState =
        GameState.GAME_OVER_LOSE :=
  ⟨((surrender_only_when_active examplePolicy exampleWorld (pauseGame freshEasy)).1 rfl).1,
    (surrender_only_when_active examplePolicy exampleWorld freshEasy).2 rfl⟩

/-! ## Lemmas on pause and resume -/

theorem step_tick_paused (pol : ScorePolicy) (w : World) (g : Game) (dt : Nat)
    (hs : g.currentState = GameState.PAUSED) :
    step pol w g (.tick dt) = if g.windowOpen = true then passTime g dt else g := by
  cases hw : g.windowOpen <;> simp [step, update, hs, hw]

theorem paused_ticks (pol : ScorePolicy) (w : World) :
    ∀ (ts : List Nat) (g : Game), g.currentState = GameState.PAUSED →
      ∃ c : Nat, run pol w g (ticks ts) = { g with gameClock := c } := by
  intro ts
  induction ts with
  | nil => intro g _; exact ⟨g.gameClock, rfl⟩
  | cons dt ts ih =>
    intro g hs
    show ∃ c : Nat, run pol w (step pol w g (.tick dt)) (ticks ts) = _
    rw [step_tick_paused pol w g dt hs]
    split
    · obtain ⟨c, hc⟩ := ih (passTime g dt) hs
      exact ⟨c, hc⟩
    · exact ih g hs

theorem saveGameResult_elapsedTime (w : World) (g : Game) :
    (saveGameResult w g).elapsedTime = g.elapsedTime := by
  unfold saveGameResult
  split <;> rfl

theorem winGame_elapsedTime (pol : ScorePolicy) (w : World) (g : Game) :
    (winGame pol w g).elapsedTime = g.elapsedTime := by
  unfold winGame
  simp only [announceWin_elapsedTime]
  split
  · rw [saveGameResult_elapsedTime]; rfl
  · rfl

theorem processCardMatch_elapsedTime (pol : ScorePolicy) (w : World) (g : Game) :
    (processCardMatch pol w g).elapsedTime = g.elapsedTime := by
  unfold processCardMatch
  split
  · split
    · rfl
    · split
      · simp only []
        split
        · rw [winGame_elapsedTime]; rfl
        · split <;> rfl
      · simp only []
        split <;> rfl
  · rfl

/-- After `resumeGame` the recorded elapsed time is still the one recorded before the
pause, but the first frame in play overwrites it with the time since the resume. -/
theorem resume_then_tick_elapsed (pol : ScorePolicy) (w : World) (g : Game) (dt : Nat)
    (hw : g.windowOpen = true) (hs : g.currentState = GameState.PAUSED) :
    (resumeGame g).elapsedTime = g.elapsedTime ∧
      (step pol w (resumeGame g) (.tick dt)).elapsedTime = dt := by
  have hr : resumeGame g = leavePause g := by simp [resumeGame, hs]
  rw [hr]
  refine ⟨rfl, ?_⟩
  cases hf : g.isFlipping
  · simp [step, update, hw, hf]
  · by_cases hge : cardFlipTime ≤ g.cardFlipProgress + dt
    · by_cases hb : g.firstCard.isSome = true ∧ g.secondCard.isSome = true
      · simp [step, update, hw, hf, hge, hb, processCardMatch_elapsedTime]
      · simp [step, update, hw, hf, hge, hb]
    · simp [step, update, hw, hf, hge]

/-! ## Claims on pause and resume -/

/-- C13 fails on the code: after ten seconds of play, Pause, five seconds in the pause menu
and Resume, the recorded elapsed time is still ten seconds, but the next frame of one
second sets it to one second, the time since the resume, and not to eleven seconds:
`resumeGame` restarts the game clock and `update` copies the clock into `elapsedTime`. -/
theorem resume_restarts_elapsed_time :
    (run examplePolicy exampleWorld freshEasy [.tick 10000000]).elapsedTime = 10000000 ∧
      (run examplePolicy exampleWorld freshEasy pauseResumeInputs).elapsedTime = 10000000 ∧
      (run examplePolicy exampleWorld freshEasy pauseResumeInputs).currentState =
        GameState.PLAYING ∧
      (run examplePolicy exampleWorld freshEasy pauseResumeInputs).isGameActive = true ∧
      (run examplePolicy exampleWorld freshEasy
        (pauseResumeInputs ++ [.tick 1000000])).elapsedTime = 1000000 := by
  decide

/-- C14: `pauseGame` in mode `PLAYING` changes the mode to `PAUSED` and the active flag to
false and nothing else; `update` changes nothing while paused, so frames in the pause menu
only let the game clock run; a following `resumeGame` gives the state before the pause with
mode `PLAYING`, `isGameActive` true and the game clock restarted, so deck, cards, moves,
matched pairs, selection, flip progress and recorded elapsed time are as before the pause.
`pauseGame` outside `PLAYING` and `resumeGame` outside `PAUSED` change nothing. -/
theorem pause_resume_keeps_session (pol : ScorePolicy) (w : World) (g : Game) :
    (g.currentState = GameState.PLAYING →
      pauseGame g = { g with currentState := GameState.PAUSED, isGameActive := false } ∧
      (∀ dt : Nat, update pol w dt (pauseGame g) = pauseGame g) ∧
      (∀ ts : List Nat, ∃ c : Nat,
        run pol w (pauseGame g) (ticks ts) = { pauseGame g with gameClock := c } ∧
        resumeGame (run pol w (pauseGame g) (ticks ts)) =
          { g with currentState := GameState.PLAYING, isGameActive := true,
                   gameClock := 0 })) ∧
    (g.currentState ≠ GameState.PLAYING → pauseGame g = g) ∧
    (g.currentState ≠ GameState.PAUSED → resumeGame g = g) := by
  refine ⟨?_, ?_, ?_⟩
  · intro hs
    have hp : pauseGame g = enterPause g := by simp [pauseGame, hs]
    refine ⟨by rw [hp]; rfl, ?_, ?_⟩
    · intro dt
      rw [hp]
      simp [update]
    · intro ts
      obtain ⟨c, hc⟩ := paused_ticks pol w ts (pauseGame g) (by rw [hp]; rfl)
      refine ⟨c, hc, ?_⟩
      rw [hc, hp]
      simp [resumeGame]
      rfl
  · intro hs
    simp [pauseGame, hs]
  · intro hs
    simp [resumeGame, hs]

/-- Witness for C14: the freshly started example session, paused for five seconds and
resumed. -/
theorem pause_resume_keeps_session_witness :
    freshEasy.currentState = GameState.PLAYING ∧
      pauseGame freshEasy =
        { freshEasy with currentState := GameState.PAUSED, isGameActive := false } ∧
      ∃ c : Nat,
        resumeGame (run examplePolicy exampleWorld (pauseGame freshEasy) (ticks [5000000])) =
          { freshEasy with currentState := GameState.PLAYING, isGameActive := true,
                           gameClock := 0 } ∧
        run examplePolicy exampleWorld (pauseGame freshEasy) (ticks [5000000]) =
          { pauseGame freshEasy with gameClock := c } :=
  have h := (pause_resume_keeps_session examplePolicy exampleWorld freshEasy).1 rfl
  ⟨rfl, h.1, (h.2.2 [5000000]).elim (fun c hc => ⟨c, hc.2, hc.1⟩)⟩

/-! ## Lemmas on the reset -/

theorem buildDeck_length (d : Difficulty) (t : CardTheme) (avail : List String)
    (rnd : Nat → Nat) :
    ((buildDeck d t avail rnd).getD []).length = (layoutRows d * layoutCols d).toNat := by
  rw [buildDeck_selected, Option.getD_some, shuffle_length, pairUp_length, selectedKeys_length,
    layout_cards]
  have := layoutPairs_cast d
  omega

theorem resetGame_cards_length (w : World) (g : Game) :
    ((resetGame w g).cards.length : Int) = (resetGame w g).rows * (resetGame w g).cols := by
  have hpos : 0 ≤ layoutRows g.difficulty * layoutCols g.difficulty := by
    cases g.difficulty <;> decide
  simp only [resetGame, restartTimer_cards, createCardSprites_cards, initializeCards_gameCards,
    initializeCards_rows, initializeCards_cols, clearSession_difficulty,
    clearSession_currentTheme, restartTimer_rows, restartTimer_cols, createCardSprites_rows,
    createCardSprites_cols, List.length_map, List.enum_length, List.length_take,
    buildDeck_length]
  omega

/-! ## Claim on the reset -/

/-- C15: after `resetGame`, whatever the state before, `matchedPairs = 0`, `moves = 0`,
`hasWon` is false, the selection is empty (`selectedCard1 = selectedCard2 = -1`, no first
or second card, `firstCardSelected` false), `isFlipping` and `isChecking` are false, flip
progress, game clock and elapsed time are zero, the board holds `rows * cols` cards which
are all Hidden and clickable, and `isGameActive` is false; the Start action, which runs
`resetGame` when a player exists, then sets `isGameActive` and the mode `PLAYING`. -/
theorem resetGame_fresh_session (w : World) (g : Game) :
    (resetGame w g).matchedPairs = 0 ∧ (resetGame w g).moves = 0 ∧
      (resetGame w g).hasWon = false ∧
      (resetGame w g).selectedCard1 = -1 ∧ (resetGame w g).selectedCard2 = -1 ∧
      (resetGame w g).firstCard = none ∧ (resetGame w g).secondCard = none ∧
      (resetGame w g).firstCardSelected = false ∧
      (resetGame w g).isFlipping = false ∧ (resetGame w g).isChecking = false ∧
      (resetGame w g).cardFlipProgress = 0 ∧
      (resetGame w g).gameClock = 0 ∧ (resetGame w g).elapsedTime = 0 ∧
      ((resetGame w g).cards.length : Int) = (resetGame w g).rows * (resetGame w g).cols ∧
      (∀ c ∈ (resetGame w g).cards, c.state = CardState.HIDDEN ∧ c.isClickable = true) ∧
      (resetGame w g).isGameActive = false ∧
      (g.player.isSome = true →
        (startGameAction w g).isGameActive = true ∧
        (startGameAction w g).currentState = GameState.PLAYING ∧
        startGameAction w g =
          { resetGame w g with currentState := GameState.PLAYING, isGameActive := true,
                               gameClock := 0 }) := by
  refine ⟨rfl, rfl, rfl, rfl, rfl, rfl, rfl, rfl, rfl, rfl, rfl, rfl, rfl,
    resetGame_cards_length w g, ?_, rfl, ?_⟩
  · intro c hc
    obtain ⟨k, hk, hkc⟩ := List.getElem_of_mem hc
    exact resetGame_cards_mem w g k c (by rw [List.getElem?_eq_getElem hk, hkc])
  · intro hp
    have h : startGameAction w g = leavePause (resetGame w g) := by
      simp [startGameAction, hp]
    rw [h]
    exact ⟨rfl, rfl, rfl⟩

/-- Witness for C15: the reset of the example session with one pair found, player "A"
present. -/
theorem resetGame_fresh_session_witness :
    onePairFound.player.isSome = true ∧ onePairFound.matchedPairs = 1 ∧
      (resetGame exampleWorld onePairFound).matchedPairs = 0 ∧
      (resetGame exampleWorld onePairFound).isGameActive = false ∧
      (startGameAction exampleWorld onePairFound).isGameActive = true :=
  have h := resetGame_fresh_session exampleWorld onePairFound
  ⟨by decide, by decide, h.1, h.2.2.2.2.2.2.2.2.2.2.2.2.2.2.2.1,
    (h.2.2.2.2.2.2.2.2.2.2.2.2.2.2.2.2 (by decide)).1⟩

/-! ## Lemmas on the modes -/

theorem handleCardClick_modes (g : Game) (i : Int) :
    (handleCardClick g i).currentState = g.currentState ∧
      (handleCardClick g i).previousState = g.previousState := by
  unfold handleCardClick
  repeat' split
  all_goals first | exact ⟨rfl, rfl⟩ | (simp only []; split <;> exact ⟨rfl, rfl⟩)

theorem saveGameResult_modes (w : World) (g : Game) :
    (saveGameResult w g).currentState = g.currentState ∧
      (saveGameResult w g).previousState = g.previousState := by
  unfold saveGameResult
  split <;> exact ⟨rfl, rfl⟩

theorem winGame_previousState (pol : ScorePolicy) (w : World) (g : Game) :
    (winGame pol w g).previousState = g.previousState := by
  unfold winGame
  simp only [announceWin_previousState]
  split
  · rw [(saveGameResult_modes w _).2]; rfl
  · rfl

theorem processCardMatch_noExit (pol : ScorePolicy) (w : World) (g : Game) (h : NoExit g) :
    NoExit (processCardMatch pol w g) := by
  unfold processCardMatch
  split
  · split
    · exact h
    · split
      · simp only []
        split
        · refine ⟨?_, ?_⟩
          · rw [(winGame_fields pol w _).2.2.1]; decide
          · rw [winGame_previousState]; exact h.2
        · split <;> exact h
      · simp only []
        split <;> exact h
  · exact h

theorem update_noExit (pol : ScorePolicy) (w : World) (dt : Nat) (g : Game) (h : NoExit g) :
    NoExit (update pol w dt g) := by
  unfold update
  split
  · simp only []
    repeat' split
    all_goals first | exact h | (apply processCardMatch_noExit; exact h)
  · exact h

theorem surrenderGame_noExit (pol : ScorePolicy) (w : World) (g : Game) (h : NoExit g) :
    NoExit (surrenderGame pol w g) := by
  unfold surrenderGame
  split
  · exact h
  · simp only []
    repeat' split
    all_goals exact ⟨by simp, h.2⟩

theorem enterNameText_noExit (g : Game) (u : Nat) (h : NoExit g) :
    NoExit (enterNameText g u) := by
  unfold enterNameText
  repeat' split
  all_goals first | exact h | exact ⟨by simp, h.2⟩

theorem activate_noExit (pol : ScorePolicy) (w : World) (g : Game) (b : Button)
    (h : NoExit g) : NoExit (activate pol w g b) := by
  cases b <;> simp only [activate] <;>
    first
    | exact h
    | (split <;>
        first
        | exact h
        | exact surrenderGame_noExit pol w g h
        | (unfold cycleDifficulty; split <;> exact h)
        | (unfold cycleTheme; split <;> exact h)
        | (refine ⟨?_, ?_⟩ <;>
            simp [showLeaderboard, showSettings, exitGame, pauseGame, resumeGame,
              startGameAction, resetGame, h.1, h.2] <;>
            split <;> simp [h.1, h.2]))

theorem step_noExit (pol : ScorePolicy) (w : World) (g : Game) (inp : Input) (h : NoExit g) :
    NoExit (step pol w g inp) := by
  unfold step
  split
  · exact h
  · cases inp with
    | tick dt => exact update_noExit pol w dt (passTime g dt) h
    | event e =>
      simp only
      unfold handleEvent
      rw [if_neg h.1]
      cases e with
      | closed => exact h
      | textEntered u => simp only; split; exact enterNameText_noExit g u h; exact h
      | cardPressed i =>
        simp only
        split
        · unfold cardPress
          repeat' split
          all_goals first
            | exact h
            | exact ⟨(handleCardClick_modes g _).1 ▸ h.1, (handleCardClick_modes g _).2 ▸ h.2⟩
        · exact h
      | activated b => exact activate_noExit pol w g b h
      | continuePressed => simp only; split <;> first | exact h | exact ⟨by simp, h.2⟩
      | contactBack => simp only; split <;> first | exact h | exact ⟨h.2, h.2⟩

theorem reachable_noExit (pol : ScorePolicy) (g : Game) (h : Reachable pol g) : NoExit g := by
  induction h with
  | init db b => exact ⟨by simp [Game.init], by simp [Game.init]⟩
  | step w inp _ ih => exact step_noExit pol w _ inp ih

theorem step_closed (pol : ScorePolicy) (w : World) (g : Game) (inp : Input)
    (h : g.windowOpen = false) : step pol w g inp = g := by
  unfold step
  simp [h]

/-! ## Claims on Restart and Exit -/

/-- C16, as stated, fails: in the example session with one pair found after one move, the
Restart button, in play as in the pause menu, leads to the name entry and resets nothing:
`moves` and `matchedPairs` are still 1 and the board still shows the matched card. -/
theorem restart_counterexample :
    onePairFound.currentState = GameState.PLAYING ∧
      (step examplePolicy exampleWorld onePairFound
        (.event (.activated .restart))).currentState = GameState.ENTER_NAME ∧
      (step examplePolicy exampleWorld onePairFound (.event (.activated .restart))).moves = 1 ∧
      (step examplePolicy exampleWorld onePairFound
        (.event (.activated .restart))).matchedPairs = 1 ∧
      (step examplePolicy exampleWorld onePairFound (.event (.activated .restart))).cards =
        onePairFound.cards ∧
      ((step examplePolicy exampleWorld onePairFound
        (.event (.activated .restart))).cards[1]?).map (fun c => c.state) =
          some CardState.MATCHED ∧
      (run examplePolicy exampleWorld onePairFound
        [.event (.activated .pause), .event (.activated .pauseRestart)]).currentState =
          GameState.ENTER_NAME ∧
      (run examplePolicy exampleWorld onePairFound
        [.event (.activated .pause), .event (.activated .pauseRestart)]).matchedPairs = 1 := by
  decide

/-- C16, amended: the Restart button, while playing or paused, calls `startNewGame`: the
mode becomes `ENTER_NAME`, the name buffer is emptied, `hasWon` is cleared and nothing else
changes, so session, player, difficulty and theme stay as they are. A new session begins
only with the following Start action: confirming a name that is not empty creates a new
player of that name, and Start then resets the session (`moves = 0`, `matchedPairs = 0`,
new board) and enters `PLAYING` with difficulty and theme as selected. -/
theorem restart_asks_for_name (pol : ScorePolicy) (w : World) (g : Game)
    (hw : g.windowOpen = true) :
    (g.currentState = GameState.PLAYING →
      step pol w g (.event (.activated .restart)) = startNewGame g) ∧
    (g.currentState = GameState.PAUSED →
      step pol w g (.event (.activated .pauseRestart)) = startNewGame g) ∧
    startNewGame g =
      { g with currentState := GameState.ENTER_NAME, playerNameInput := "",
               isEnteringName := true, hasWon := false } ∧
    (g.currentState = GameState.ENTER_NAME → g.playerNameInput ≠ "" →
      (run pol w g [.event (.textEntered 13), .event (.activated .startGame)]).currentState =
        GameState.PLAYING ∧
      (run pol w g [.event (.textEntered 13), .event (.activated .startGame)]).isGameActive =
        true ∧
      (run pol w g [.event (.textEntered 13), .event (.activated .startGame)]).moves = 0 ∧
      (run pol w g [.event (.textEntered 13), .event (.activated .startGame)]).matchedPairs =
        0 ∧
      (run pol w g [.event (.textEntered 13), .event (.activated .startGame)]).player =
        some (Player.create g.playerNameInput) ∧
      (run pol w g [.event (.textEntered 13), .event (.activated .startGame)]).difficulty =
        g.difficulty ∧
      (run pol w g [.event (.textEntered 13), .event (.activated .startGame)]).currentTheme =
        g.currentTheme) := by
  refine ⟨?_, ?_, rfl, ?_⟩
  · intro hs
    simp [step, handleEvent, activate, hw, hs]
  · intro hs
    simp [step, handleEvent, activate, hw, hs]
  · intro hs hne
    have hemp : g.playerNameInput.isEmpty = false := by
      cases h : g.playerNameInput.isEmpty
      · rfl
      · exact absurd ((String.isEmpty_iff _).mp h) hne
    have h1 : step pol w g (.event (.textEntered 13)) = createPlayer g := by
      simp [step, handleEvent, enterNameText, hw, hs, hemp]
    have h2 : step pol w (createPlayer g) (.event (.activated .startGame)) =
        leavePause (resetGame w (createPlayer g)) := by
      simp [step, handleEvent, activate, startGameAction, hw]
    have hrun : run pol w g [.event (.textEntered 13), .event (.activated .startGame)] =
        leavePause (resetGame w (createPlayer g)) := by
      show step pol w (step pol w g (.event (.textEntered 13)))
        (.event (.activated .startGame)) = _
      rw [h1, h2]
    rw [hrun]
    exact ⟨rfl, rfl, rfl, rfl, rfl, rfl, rfl⟩

/-- Witness for C16 (amended): Restart in the example session with one pair found. -/
theorem restart_asks_for_name_witness :
    onePairFound.windowOpen = true ∧ onePairFound.currentState = GameState.PLAYING ∧
      step examplePolicy exampleWorld onePairFound (.event (.activated .restart)) =
        startNewGame onePairFound :=
  ⟨by decide, by decide,
    (restart_asks_for_name examplePolicy exampleWorld onePairFound (by decide)).1 (by decide)⟩

/-- C17, as stated, fails: the Exit button of the main menu closes the window; the mode is
still `MAIN_MENU`, not `EXIT`. -/
theorem exit_counterexample :
    (Game.init none false).currentState = GameState.MAIN_MENU ∧
      (step examplePolicy exampleWorld (Game.init none false)
        (.event (.activated .exit))).currentState = GameState.MAIN_MENU ∧
      (step examplePolicy exampleWorld (Game.init none false)
        (.event (.activated .exit))).currentState ≠ GameState.EXIT ∧
      (step examplePolicy exampleWorld (Game.init none false)
        (.event (.activated .exit))).windowOpen = false := by
  decide

/-- C17, amended: from mode `MAIN_MENU` the Exit action closes the window and leaves the
mode `MAIN_MENU`; with the window closed the main loop makes no further transition, so the
program ends there. No reachable state has the mode `EXIT`. -/
theorem exit_closes_window (pol : ScorePolicy) (w : World) :
    (∀ g : Game, g.windowOpen = true → g.currentState = GameState.MAIN_MENU →
      step pol w g (.event (.activated .exit)) = closeWindow g ∧
      (step pol w g (.event (.activated .exit))).windowOpen = false ∧
      (step pol w g (.event (.activated .exit))).currentState = GameState.MAIN_MENU) ∧
    (∀ (g : Game) (inp : Input), g.windowOpen = false → step pol w g inp = g) ∧
    (∀ g : Game, Reachable pol g → g.currentState ≠ GameState.EXIT) := by
  refine ⟨?_, ?_, ?_⟩
  · intro g hw hs
    have h : step pol w g (.event (.activated .exit)) = closeWindow g := by
      simp [step, handleEvent, activate, exitGame, hw, hs]
    rw [h]
    exact ⟨rfl, rfl, hs⟩
  · intro g inp h
    exact step_closed pol w g inp h
  · intro g h
    exact (reachable_noExit pol g h).1

/-- Witness for C17 (amended): Exit right after program start. -/
theorem exit_closes_window_witness :
    (step examplePolicy exampleWorld (Game.init none false)
      (.event (.activated .exit))).windowOpen = false ∧
      freshEasy.currentState ≠ GameState.EXIT :=
  ⟨((exit_closes_window examplePolicy exampleWorld).1 (Game.init none false) rfl rfl).2.1,
    (exit_closes_window examplePolicy exampleWorld).2.2 freshEasy
      (reachable_run _ _ _ _ (Reachable.init _ _))⟩

/-! ## Lemmas on the names -/

theorem handleCardClick_names (g : Game) (i : Int) : (handleCardClick g i).names = g.names := by
  unfold handleCardClick
  repeat' split
  all_goals first
    | rfl
    | (simp only []
       split
       · rfl
       · simp only [Game.names, selectSecond_playerNameInput, selectSecond_player,
           flipCard_playerNameInput, flipCard_player]
         cases g.player <;> rfl)

theorem saveGameResult_names (w : World) (g : Game) : (saveGameResult w g).names = g.names := by
  unfold saveGameResult
  split <;> rfl

theorem winGame_names (pol : ScorePolicy) (w : World) (g : Game) :
    (winGame pol w g).names = g.names := by
  unfold winGame
  simp only [declareWon_player]
  split
  · next p hp =>
    have h := saveGameResult_names w (finishPlayer pol (declareWon g) p)
    simp only [Game.names, Prod.mk.injEq] at h ⊢
    simp only [announceWin_playerNameInput, announceWin_player, h.1, h.2]
    simp [hp, Player.calculateScore, Player.finishGame]
  · next hp => simp [Game.names, hp]

theorem markPair_names (pol : ScorePolicy) (g : Game) (fc sc : Nat) :
    (markPair pol g fc sc).names = g.names := by
  simp only [Game.names, markPair_playerNameInput, markPair_player]
  cases g.player <;> rfl

theorem processCardMatch_names (pol : ScorePolicy) (w : World) (g : Game) :
    (processCardMatch pol w g).names = g.names := by
  unfold processCardMatch
  split
  · next fc sc _ _ =>
    split
    · rfl
    · split
      · simp only []
        split
        · rw [winGame_names, markPair_names]
        · split
          · exact markPair_names pol g fc sc
          · exact markPair_names pol g fc sc
      · simp only []
        split <;> rfl
  · rfl

theorem updateStats_names (pol : ScorePolicy) (g : Game) : (updateStats pol g).names = g.names := by
  simp only [Game.names, updateStats_playerNameInput, updateStats_player]
  cases g.player <;> rfl

theorem update_names (pol : ScorePolicy) (w : World) (dt : Nat) (g : Game) :
    (update pol w dt g).names = g.names := by
  cases ha : g.isGameActive
  · unfold update
    split
    · simp only [ha, Bool.false_eq_true, if_false]
      repeat' split
      all_goals first | rfl | (rw [processCardMatch_names]; rfl)
    · rfl
  · have hu : (updateStats pol (recordElapsed g)).names = g.names :=
      updateStats_names pol (recordElapsed g)
    unfold update
    split
    · simp only [ha, if_true]
      repeat' split
      all_goals first | exact hu | (rw [processCardMatch_names]; exact hu)
    · rfl

theorem surrenderGame_names (pol : ScorePolicy) (w : World) (g : Game) :
    (surrenderGame pol w g).names = g.names := by
  unfold surrenderGame
  split
  · rfl
  · simp only [concede_player]
    split
    · next p hp =>
      simp only [finishPlayer_database, concede_database]
      split <;> simp [Game.names, hp, Player.calculateScore, Player.finishGame]
    · rfl

theorem resetGame_names (w : World) (g : Game) : (resetGame w g).names = g.names := by
  simp only [Game.names, resetGame, restartTimer_playerNameInput, restartTimer_player,
    createCardSprites_playerNameInput, createCardSprites_player,
    initializeCards_playerNameInput, initializeCards_player, clearSession_playerNameInput,
    clearSession_player]
  cases g.player <;> rfl

theorem namesBounded_of_names {g g1 : Game} (h : g1.names = g.names) (hb : NamesBounded g) :
    NamesBounded g1 := by
  simp only [Game.names, Prod.mk.injEq] at h
  refine ⟨by rw [h.1]; exact hb.1, ?_⟩
  intro p hp
  have h2 := h.2
  rw [hp] at h2
  cases hg : g.player with
  | none => rw [hg] at h2; simp at h2
  | some p0 =>
    rw [hg] at h2
    simp at h2
    rw [h2]
    exact hb.2 p0 hg

theorem dropLast_length_le (s : String) : (String.mk s.data.dropLast).length ≤ s.length := by
  show s.data.dropLast.length ≤ s.data.length
  rw [List.length_dropLast]
  omega

theorem enterNameText_namesBounded (g : Game) (u : Nat) (hb : NamesBounded g) :
    NamesBounded (enterNameText g u) := by
  unfold enterNameText
  repeat' split
  all_goals first
    | exact hb
    | (refine ⟨?_, ?_⟩
       · simp only [setNameInput_playerNameInput]
         first
           | exact le_trans (dropLast_length_le _) hb.1
           | (rw [String.length_push]; omega)
       · exact hb.2)
    | skip
  next h1 h2 hne =>
    refine ⟨hb.1, ?_⟩
    intro p hp
    simp only [createPlayer_player, Option.some.injEq] at hp
    subst hp
    refine ⟨?_, hb.1⟩
    intro he
    simp [Player.create] at he
    rw [he] at hne
    revert hne
    decide

theorem activate_namesBounded (pol : ScorePolicy) (w : World) (g : Game) (b : Button)
    (h : NamesBounded g) : NamesBounded (activate pol w g b) := by
  cases b <;> simp only [activate] <;>
    first
    | exact h
    | (split <;>
        first
        | exact h
        | exact namesBounded_of_names (surrenderGame_names pol w g) h
        | (unfold cycleDifficulty; split <;> exact h)
        | (unfold cycleTheme; split <;> exact h)
        | (unfold pauseGame; split <;> exact h)
        | (unfold resumeGame; split <;> exact h)
        | exact ⟨by simp [String.length], h.2⟩
        | (unfold startGameAction; split
           · exact namesBounded_of_names (resetGame_names w g) h
           · exact h))

theorem step_namesBounded (pol : ScorePolicy) (w : World) (g : Game) (inp : Input)
    (h : NamesBounded g) : NamesBounded (step pol w g inp) := by
  unfold step
  split
  · exact h
  · cases inp with
    | tick dt => exact namesBounded_of_names (update_names pol w dt (passTime g dt)) h
    | event e =>
      simp only
      unfold handleEvent
      split
      · exact h
      · cases e with
        | closed => exact h
        | textEntered u => simp only; split; exact enterNameText_namesBounded g u h; exact h
        | cardPressed i =>
          simp only
          split
          · unfold cardPress
            repeat' split
            all_goals first
              | exact h
              | exact namesBounded_of_names (handleCardClick_names g _) h
          · exact h
        | activated b => exact activate_namesBounded pol w g b h
        | continuePressed => simp only; split <;> exact h
        | contactBack => simp only; split <;> exact h

theorem reachable_namesBounded (pol : ScorePolicy) (g : Game) (h : Reachable pol g) :
    NamesBounded g := by
  induction h with
  | init db b => exact ⟨by simp [Game.init], fun p hp => by simp [Game.init] at hp⟩
  | step w inp _ ih => exact step_namesBounded pol w _ inp ih

theorem enterNameText_input_le (g : Game) (u : Nat) (h : g.playerNameInput.length ≤ 20) :
    (enterNameText g u).playerNameInput.length ≤ 20 := by
  unfold enterNameText
  repeat' split
  all_goals first
    | exact h
    | (simp only [setNameInput_playerNameInput]
       first
         | exact le_trans (dropLast_length_le _) h
         | (rw [String.length_push]; omega))

theorem typed_input_le (pol : ScorePolicy) (w : World) :
    ∀ (us : List Nat) (g : Game), g.playerNameInput.length ≤ 20 →
      (run pol w g (typed us)).playerNameInput.length ≤ 20 := by
  intro us
  induction us with
  | nil => intro g h; exact h
  | cons u us ih =>
    intro g h
    show (run pol w (step pol w g (.event (.textEntered u))) (typed us)).playerNameInput.length ≤ 20
    apply ih
    unfold step
    split
    · exact h
    · simp only
      unfold handleEvent
      split
      · exact h
      · simp only
        split
        · exact enterNameText_input_le g u h
        · exact h

/-! ## Claims on name entry and setup -/

/-- C18: in every reachable state the name buffer has at most 20 characters and the player,
if one was constructed, has a name that is not empty and has at most 20 characters; and from
any state whose buffer has at most 20 characters, every sequence of text-input events
leaves a buffer of at most 20 characters. -/
theorem name_length_bounded (pol : ScorePolicy) :
    (∀ g : Game, Reachable pol g →
      g.playerNameInput.length ≤ 20 ∧
      ∀ p : Player, g.player = some p → p.name ≠ "" ∧ p.name.length ≤ 20) ∧
    (∀ (w : World) (g : Game) (us : List Nat), g.playerNameInput.length ≤ 20 →
      (run pol w g (typed us)).playerNameInput.length ≤ 20) :=
  ⟨fun g h => reachable_namesBounded pol g h, fun w g us h => typed_input_le pol w us g h⟩

/-- Witness for C18: the example session is reachable, its player is called "A"; thirty
letters typed into the name entry leave twenty. -/
theorem name_length_bounded_witness :
    Reachable examplePolicy freshEasy ∧ freshEasy.playerNameInput.length ≤ 20 ∧
      (∀ p : Player, freshEasy.player = some p → p.name ≠ "" ∧ p.name.length ≤ 20) ∧
      (run examplePolicy exampleWorld
        (step examplePolicy exampleWorld (Game.init none false) (.event (.activated .newGame)))
        (typed (List.replicate 30 97))).playerNameInput.length ≤ 20 :=
  have hr : Reachable examplePolicy freshEasy := reachable_run _ _ _ _ (Reachable.init _ _)
  ⟨hr, ((name_length_bounded examplePolicy).1 freshEasy hr).1,
    ((name_length_bounded examplePolicy).1 freshEasy hr).2,
    (name_length_bounded examplePolicy).2 exampleWorld _ (List.replicate 30 97) (by decide)⟩

/-- C19: in mode `ENTER_NAME` a carriage return with an empty name buffer changes nothing:
the mode stays `ENTER_NAME` and the player, present or not, stays as it is; with a buffer
that is not empty it constructs a player whose name is the buffer and sets the mode
`SETUP`. -/
theorem confirm_name (pol : ScorePolicy) (w : World) (g : Game)
    (hw : g.windowOpen = true) (hs : g.currentState = GameState.ENTER_NAME) :
    (g.playerNameInput = "" →
      step pol w g (.event (.textEntered 13)) = g ∧
      (step pol w g (.event (.textEntered 13))).currentState = GameState.ENTER_NAME ∧
      (step pol w g (.event (.textEntered 13))).player = g.player) ∧
    (g.playerNameInput ≠ "" →
      (step pol w g (.event (.textEntered 13))).player =
        some (Player.create g.playerNameInput) ∧
      (Player.create g.playerNameInput).name = g.playerNameInput ∧
      (step pol w g (.event (.textEntered 13))).currentState = GameState.SETUP ∧
      step pol w g (.event (.textEntered 13)) =
        { g with player := some (Player.create g.playerNameInput),
                 currentState := GameState.SETUP, isEnteringName := false }) := by
  constructor
  · intro he
    have hemp : g.playerNameInput.isEmpty = true := (String.isEmpty_iff _).mpr he
    have h : step pol w g (.event (.textEntered 13)) = g := by
      simp [step, handleEvent, enterNameText, hw, hs, hemp]
    rw [h]
    exact ⟨rfl, hs, rfl⟩
  · intro hne
    have hemp : g.playerNameInput.isEmpty = false := by
      cases h : g.playerNameInput.isEmpty
      · rfl
      · exact absurd ((String.isEmpty_iff _).mp h) hne
    have h : step pol w g (.event (.textEntered 13)) = createPlayer g := by
      simp [step, handleEvent, enterNameText, hw, hs, hemp]
    rw [h]
    exact ⟨rfl, rfl, rfl, rfl⟩

/-- Witness for C19: right after New Game the buffer is empty and the carriage return is
ignored; after the letter "A" it creates the player "A". -/
theorem confirm_name_witness :
    step examplePolicy exampleWorld
        (step examplePolicy exampleWorld (Game.init none false) (.event (.activated .newGame)))
        (.event (.textEntered 13)) =
      step examplePolicy exampleWorld (Game.init none false) (.event (.activated .newGame)) ∧
    (step examplePolicy exampleWorld
      (run examplePolicy exampleWorld (Game.init none false)
        [.event (.activated .newGame), .event (.textEntered 65)])
      (.event (.textEntered 13))).player = some (Player.create "A") :=
  ⟨((confirm_name examplePolicy exampleWorld
      (step examplePolicy exampleWorld (Game.init none false) (.event (.activated .newGame)))
      rfl rfl).1 rfl).1,
    ((confirm_name examplePolicy exampleWorld
      (run examplePolicy exampleWorld (Game.init none false)
        [.event (.activated .newGame), .event (.textEntered 65)])
      rfl rfl).2 (by decide)).1⟩

theorem nextDifficulty_four (d : Difficulty) : Nat.iterate nextDifficulty 4 d = d := by
  cases d <;> rfl

theorem nextTheme_five (t : CardTheme) : Nat.iterate nextTheme 5 t = t := by
  cases t <;> rfl

theorem press_difficulty (pol : ScorePolicy) (w : World) (g : Game)
    (hw : g.windowOpen = true) (hs : g.currentState = GameState.SETUP) :
    step pol w g (.event (.activated .difficulty)) =
      { g with difficulty := nextDifficulty g.difficulty } := by
  have h : step pol w g (.event (.activated .difficulty)) = cycleDifficulty g := by
    simp [step, handleEvent, activate, hw, hs]
  rw [h]
  unfold cycleDifficulty
  cases hd : g.difficulty <;> rfl

theorem press_theme (pol : ScorePolicy) (w : World) (g : Game)
    (hw : g.windowOpen = true) (hs : g.currentState = GameState.SETUP) :
    step pol w g (.event (.activated .theme)) =
      { g with currentTheme := nextTheme g.currentTheme } := by
  have h : step pol w g (.event (.activated .theme)) = cycleTheme g := by
    simp [step, handleEvent, activate, hw, hs]
  rw [h]
  unfold cycleTheme
  cases hd : g.currentTheme <;> rfl

theorem presses_difficulty (pol : ScorePolicy) (w : World) :
    ∀ (k : Nat) (g : Game), g.windowOpen = true → g.currentState = GameState.SETUP →
      run pol w g (presses .difficulty k) =
        { g with difficulty := Nat.iterate nextDifficulty k g.difficulty } := by
  intro k
  induction k with
  | zero => intro g _ _; rfl
  | succ k ih =>
    intro g hw hs
    show run pol w (step pol w g (.event (.activated .difficulty))) (presses .difficulty k) = _
    rw [press_difficulty pol w g hw hs]
    exact (ih (setDifficulty g (nextDifficulty g.difficulty)) hw hs).trans rfl

theorem presses_theme (pol : ScorePolicy) (w : World) :
    ∀ (k : Nat) (g : Game), g.windowOpen = true → g.currentState = GameState.SETUP →
      run pol w g (presses .theme k) =
        { g with currentTheme := Nat.iterate nextTheme k g.currentTheme } := by
  intro k
  induction k with
  | zero => intro g _ _; rfl
  | succ k ih =>
    intro g hw hs
    show run pol w (step pol w g (.event (.activated .theme))) (presses .theme k) = _
    rw [press_theme pol w g hw hs]
    exact (ih (setTheme g (nextTheme g.currentTheme)) hw hs).trans rfl

/-- C20: in mode `SETUP` the button "Difficulty" replaces the difficulty by the next one of
the cycle Easy, Medium, Hard, Expert, Easy and changes no other field of the game, so four
activations give the state back and one, two or three give another difficulty; the button
"Theme" replaces the theme by the next one of the cycle Animals, Fruits, Emoji, Memes,
Symbols, Animals and changes no other field, so five activations give the state back. -/
theorem setup_buttons_cycle (pol : ScorePolicy) (w : World) (g : Game)
    (hw : g.windowOpen = true) (hs : g.currentState = GameState.SETUP) :
    (∀ k : Nat, run pol w g (presses .difficulty k) =
        { g with difficulty := Nat.iterate nextDifficulty k g.difficulty }) ∧
      run pol w g (presses .difficulty 4) = g ∧
      (∀ k : Nat, 0 < k → k < 4 →
        (run pol w g (presses .difficulty k)).difficulty ≠ g.difficulty) ∧
      (∀ k : Nat, run pol w g (presses .theme k) =
        { g with currentTheme := Nat.iterate nextTheme k g.currentTheme }) ∧
      run pol w g (presses .theme 5) = g ∧
      (∀ k : Nat, 0 < k → k < 5 →
        (run pol w g (presses .theme k)).currentTheme ≠ g.currentTheme) := by
  refine ⟨fun k => presses_difficulty pol w k g hw hs, ?_, ?_,
    fun k => presses_theme pol w k g hw hs, ?_, ?_⟩
  · rw [presses_difficulty pol w 4 g hw hs, nextDifficulty_four]
  · intro k h0 h4
    rw [presses_difficulty pol w k g hw hs]
    show Nat.iterate nextDifficulty k g.difficulty ≠ g.difficulty
    have hk : k = 1 ∨ k = 2 ∨ k = 3 := by omega
    rcases hk with rfl | rfl | rfl <;> cases g.difficulty <;> decide
  · rw [presses_theme pol w 5 g hw hs, nextTheme_five]
  · intro k h0 h5
    rw [presses_theme pol w k g hw hs]
    show Nat.iterate nextTheme k g.currentTheme ≠ g.currentTheme
    have hk : k = 1 ∨ k = 2 ∨ k = 3 ∨ k = 4 := by omega
    rcases hk with rfl | rfl | rfl | rfl <;> cases g.currentTheme <;> decide

/-- Witness for C20: in the setup menu reached with the name "A", four activations of
"Difficulty" and five of "Theme" give the state back, one activation of "Difficulty" gives
another difficulty. -/
theorem setup_buttons_cycle_witness :
    setupState.windowOpen = true ∧ setupState.currentState = GameState.SETUP ∧
      run examplePolicy exampleWorld setupState (presses .difficulty 4) = setupState ∧
      (run examplePolicy exampleWorld setupState (presses .difficulty 1)).difficulty ≠
        setupState.difficulty ∧
      run examplePolicy exampleWorld setupState (presses .theme 5) = setupState :=
  ⟨rfl, rfl,
    (setup_buttons_cycle examplePolicy exampleWorld setupState rfl rfl).2.1,
    (setup_buttons_cycle examplePolicy exampleWorld setupState rfl rfl).2.2.1 1
      (by decide) (by decide),
    (setup_buttons_cycle examplePolicy exampleWorld setupState rfl rfl).2.2.2.2.1⟩

/-! ## Lemmas on the persistence gateway -/

theorem byScore_total : IsTotal GameRecord byScore := ⟨fun a b => le_total b.score a.score⟩

theorem byScore_trans : IsTrans GameRecord byScore :=
  ⟨fun _ _ _ hab hbc => le_trans hbc hab⟩

theorem getTopScores_eq (db : Database) (limit : Int) (h : 0 ≤ limit) :
    db.getTopScores true limit = (db.rows.insertionSort byScore).take limit.toNat := by
  have h1 : ¬ limit < 0 := by omega
  simp [Database.getTopScores, h1]

theorem cText_of_noNul (s : String) (h : NoNul s) : cText s = s := by
  unfold cText
  have h2 : s.data.takeWhile (fun c => c ≠ Char.ofNat 0) = s.data := by
    rw [List.takeWhile_eq_self_iff]
    intro c hc
    have : c ≠ Char.ofNat 0 := fun e => h (e ▸ hc)
    simpa using this
  rw [h2]

/-! ## Claims on the persistence gateway -/

/-- C21: for every store and every limit of at least 0, `getTopScores(limit)`, when the query
can be prepared, returns `min(limit, number of rows)` records, each of them a stored row, in
non-increasing order of score, and the rows left out have no higher score than a returned
one; on a store with the scores 50, 90, 70 `getTopScores(3)` returns them in the order
90, 70, 50. -/
theorem getTopScores_top (db : Database) (limit : Int) (h : 0 ≤ limit) :
    (db.getTopScores true limit).length = min limit.toNat db.rows.length ∧
      (∀ r ∈ db.getTopScores true limit, r ∈ db.rows) ∧
      (db.getTopScores true limit).Sorted byScore ∧
      (∃ rest : List GameRecord, (db.getTopScores true limit ++ rest).Perm db.rows ∧
        ∀ a ∈ rest, ∀ b ∈ db.getTopScores true limit, a.score ≤ b.score) ∧
      (∀ a b c : GameRecord, a.score = 50 → b.score = 90 → c.score = 70 →
        Database.getTopScores true ⟨[a, b, c]⟩ 3 = [b, c, a]) := by
  haveI := byScore_total
  haveI := byScore_trans
  have hperm := List.perm_insertionSort byScore db.rows
  have hsorted := List.sorted_insertionSort byScore db.rows
  rw [getTopScores_eq db limit h]
  refine ⟨?_, ?_, ?_, ?_, ?_⟩
  · rw [List.length_take, hperm.length_eq]
  · intro r hr
    exact hperm.subset (List.mem_of_mem_take hr)
  · exact hsorted.sublist (List.take_sublist _ _)
  · refine ⟨(db.rows.insertionSort byScore).drop limit.toNat, ?_, ?_⟩
    · rw [List.take_append_drop]; exact hperm
    · intro a ha b hb
      have hp : ((db.rows.insertionSort byScore).take limit.toNat ++
          (db.rows.insertionSort byScore).drop limit.toNat).Pairwise byScore := by
        rw [List.take_append_drop]; exact hsorted
      exact (List.pairwise_append.mp hp).2.2 b hb a ha
  · intro a b c ha hb hc
    simp [Database.getTopScores, List.insertionSort, List.orderedInsert, byScore, ha, hb, hc]

/-- Witness for C21: the two best of the three example records. -/
theorem getTopScores_top_witness :
    (0 : Int) ≤ 2 ∧ (threeScores.getTopScores true 2).length = 2 ∧
      (threeScores.getTopScores true 2).map (fun r => r.score) = [90, 70] :=
  ⟨by decide, (getTopScores_top threeScores 2 (by decide)).1, by decide⟩

/-! ## Lemmas on the records handed to the database -/

theorem saveGame_nan (ok : Bool) (db : Database) (r : GameRecord)
    (h : r.time = TimeValue.nan) : db.saveGame ok r = (db, false) := by
  simp [Database.saveGame, h]

theorem namesClean_of_names {g g1 : Game} (h : g1.names = g.names) (hb : NamesClean g) :
    NamesClean g1 := by
  simp only [Game.names, Prod.mk.injEq] at h
  refine ⟨by rw [h.1]; exact hb.1, ?_⟩
  intro p hp
  have h2 := h.2
  rw [hp] at h2
  cases hg : g.player with
  | none => rw [hg] at h2; simp at h2
  | some p0 =>
    rw [hg] at h2
    simp at h2
    rw [h2]
    exact hb.2 p0 hg

theorem noNul_dropLast (s : String) (h : NoNul s) : NoNul (String.mk s.data.dropLast) := by
  intro hm
  exact h (List.mem_of_mem_dropLast hm)

theorem noNul_push (s : String) (u : Nat) (h : NoNul s) (h1 : 32 ≤ u) (h2 : u < 128) :
    NoNul (s.push (Char.ofNat u)) := by
  intro hm
  simp only [String.push, List.mem_append, List.mem_singleton] at hm
  rcases hm with hm | hm
  · exact h hm
  · revert hm
    interval_cases u <;> decide

theorem enterNameText_namesClean (g : Game) (u : Nat) (hb : NamesClean g) :
    NamesClean (enterNameText g u) := by
  unfold enterNameText
  repeat' split
  all_goals first
    | exact hb
    | (refine ⟨?_, hb.2⟩
       simp only [setNameInput_playerNameInput]
       first
         | exact noNul_dropLast _ hb.1
         | (refine noNul_push _ _ hb.1 ?_ ?_ <;> simp_all))
    | skip
  next h1 h2 hne =>
    refine ⟨hb.1, ?_⟩
    intro p hp
    simp only [createPlayer_player, Option.some.injEq] at hp
    subst hp
    exact hb.1

theorem activate_namesClean (pol : ScorePolicy) (w : World) (g : Game) (b : Button)
    (h : NamesClean g) : NamesClean (activate pol w g b) := by
  cases b <;> simp only [activate] <;>
    first
    | exact h
    | (split <;>
        first
        | exact h
        | exact namesClean_of_names (surrenderGame_names pol w g) h
        | (unfold cycleDifficulty; split <;> exact h)
        | (unfold cycleTheme; split <;> exact h)
        | (unfold pauseGame; split <;> exact h)
        | (unfold resumeGame; split <;> exact h)
        | exact ⟨(by decide : NoNul ""), h.2⟩
        | (unfold startGameAction; split
           · exact namesClean_of_names (resetGame_names w g) h
           · exact h))

theorem step_namesClean (pol : ScorePolicy) (w : World) (g : Game) (inp : Input)
    (h : NamesClean g) : NamesClean (step pol w g inp) := by
  unfold step
  split
  · exact h
  · cases inp with
    | tick dt => exact namesClean_of_names (update_names pol w dt (passTime g dt)) h
    | event e =>
      simp only
      unfold handleEvent
      split
      · exact h
      · cases e with
        | closed => exact h
        | textEntered u => simp only; split; exact enterNameText_namesClean g u h; exact h
        | cardPressed i =>
          simp only
          split
          · unfold cardPress
            repeat' split
            all_goals first
              | exact h
              | exact namesClean_of_names (handleCardClick_names g _) h
          · exact h
        | activated b => exact activate_namesClean pol w g b h
        | continuePressed => simp only; split <;> exact h
        | contactBack => simp only; split <;> exact h

theorem reachable_namesClean (pol : ScorePolicy) (g : Game) (h : Reachable pol g) :
    NamesClean g := by
  induction h with
  | init db b => exact ⟨(by decide : NoNul ""), fun p hp => by simp [Game.init] at hp⟩
  | step w inp _ ih => exact step_namesClean pol w _ inp ih

theorem savesStorable_quiet {g g1 : Game} (h : g1.signals = g.signals) : SavesStorable g g1 :=
  ⟨[], by rw [h, List.append_nil], by simp⟩

theorem savesStorable_one {g g1 : Game} (s : Signal) (h : g1.signals = g.signals ++ [s])
    (hs : isSave s = false) : SavesStorable g g1 := by
  refine ⟨[s], h, ?_⟩
  intro r hr
  simp only [List.mem_singleton] at hr
  subst hr
  simp [isSave] at hs

theorem savesStorable_trans {g g1 g2 : Game} (h1 : SavesStorable g g1)
    (h2 : SavesStorable g1 g2) : SavesStorable g g2 := by
  obtain ⟨n1, e1, p1⟩ := h1
  obtain ⟨n2, e2, p2⟩ := h2
  refine ⟨n1 ++ n2, by rw [e2, e1, List.append_assoc], ?_⟩
  intro r hr
  rcases List.mem_append.1 hr with h | h
  · exact p1 r h
  · exact p2 r h

theorem savesStorable_congr {g g0 g1 : Game} (h : g0.signals = g.signals)
    (h1 : SavesStorable g0 g1) : SavesStorable g g1 := by
  obtain ⟨n, e, p⟩ := h1
  exact ⟨n, by rw [e, h], p⟩

theorem noNul_difficulty (g : Game) : NoNul (getDifficultyString g) := by
  unfold getDifficultyString
  split <;> decide

theorem resultRecord_storable (w : World) (g : Game) (p : Player) (hp : NoNul p.name)
    (hd : NoNul w.date) : Storable (resultRecord w g p) :=
  ⟨hp, hd, noNul_difficulty g, by simp [resultRecord]⟩

theorem surrenderRecord_storable (w : World) (g : Game) (p : Player) (hp : NoNul p.name)
    (hd : NoNul w.date) : Storable (surrenderRecord w g p) :=
  ⟨hp, hd, noNul_difficulty g, by simp [surrenderRecord]⟩

theorem savesStorable_store (w : World) (g : Game) (db : Database) (r : GameRecord)
    (h : Storable r) : SavesStorable g (storeRecord w g db r) := by
  refine ⟨[Signal.saveGame r], rfl, ?_⟩
  intro r1 hr
  simp only [List.mem_singleton, Signal.saveGame.injEq] at hr
  rw [hr]
  exact h

theorem saveGameResult_saves (w : World) (g : Game) (hn : NamesClean g) (hd : NoNul w.date) :
    SavesStorable g (saveGameResult w g) := by
  unfold saveGameResult
  split
  · next p db hp _ =>
    exact savesStorable_store w g db _ (resultRecord_storable w g p (hn.2 p hp) hd)
  · exact savesStorable_quiet rfl

theorem winGame_saves (pol : ScorePolicy) (w : World) (g : Game) (hn : NamesClean g)
    (hd : NoNul w.date) : SavesStorable g (winGame pol w g) := by
  unfold winGame
  simp only []
  cases hp : g.player with
  | none =>
    have h1 : (declareWon g).player = none := hp
    simp only [h1]
    exact savesStorable_one Signal.gameWin rfl rfl
  | some p =>
    have h1 : (declareWon g).player = some p := hp
    simp only [h1]
    have hc : NamesClean (finishPlayer pol (declareWon g) p) := by
      refine ⟨hn.1, ?_⟩
      intro q hq
      simp only [finishPlayer_player, Option.some.injEq] at hq
      subst hq
      exact hn.2 p hp
    have hs := saveGameResult_saves w (finishPlayer pol (declareWon g) p) hc hd
    exact savesStorable_trans (savesStorable_congr rfl hs) (savesStorable_one Signal.gameWin rfl rfl)

theorem processCardMatch_saves (pol : ScorePolicy) (w : World) (g : Game) (hn : NamesClean g)
    (hd : NoNul w.date) : SavesStorable g (processCardMatch pol w g) := by
  unfold processCardMatch
  split
  · next fc sc _ _ =>
    split
    · exact savesStorable_quiet rfl
    · split
      · simp only []
        split
        · exact savesStorable_trans
            (savesStorable_one Signal.cardMatch (markPair_signals pol g fc sc) rfl)
            (winGame_saves pol w _ (namesClean_of_names (markPair_names pol g fc sc) hn) hd)
        · split
          · exact savesStorable_one Signal.cardMatch rfl rfl
          · exact savesStorable_one Signal.cardMatch rfl rfl
      · simp only []
        split
        · exact savesStorable_one Signal.cardMismatch rfl rfl
        · exact savesStorable_one Signal.cardMismatch rfl rfl
  · exact savesStorable_quiet rfl

theorem update_saves (pol : ScorePolicy) (w : World) (dt : Nat) (g : Game) (hn : NamesClean g)
    (hd : NoNul w.date) : SavesStorable g (update pol w dt g) := by
  have hu : NamesClean (updateStats pol (recordElapsed g)) :=
    namesClean_of_names (updateStats_names pol (recordElapsed g)) hn
  unfold update
  split
  · simp only []
    repeat' split
    all_goals first
      | exact savesStorable_quiet rfl
      | exact savesStorable_congr rfl (processCardMatch_saves pol w
          (startChecking (finishFlip (advanceFlip (updateStats pol (recordElapsed g)) dt)))
          hu hd)
      | exact savesStorable_congr rfl (processCardMatch_saves pol w
          (startChecking (finishFlip (advanceFlip g dt))) hn hd)
  · exact savesStorable_quiet rfl

theorem surrenderGame_saves (pol : ScorePolicy) (w : World) (g : Game) (hn : NamesClean g)
    (hd : NoNul w.date) : SavesStorable g (surrenderGame pol w g) := by
  cases ha : g.isGameActive with
  | false =>
    rw [surrenderGame_inactive pol w g ha]
    exact savesStorable_quiet rfl
  | true =>
    cases hp : g.player with
    | none =>
      rw [surrenderGame_no_player pol w g ha hp]
      exact savesStorable_one Signal.gameLose rfl rfl
    | some p =>
      cases hdb : g.database with
      | none =>
        rw [surrenderGame_unsaved pol w g p ha hp hdb]
        exact savesStorable_one Signal.gameLose rfl rfl
      | some db =>
        rw [surrenderGame_saved pol w g p db ha hp hdb]
        exact savesStorable_trans (savesStorable_one Signal.gameLose (concede_signals g) rfl)
          (savesStorable_congr rfl
            (savesStorable_store w (finishPlayer pol (concede g) p) db _
              (surrenderRecord_storable w _ _ (hn.2 p hp) hd)))

theorem handleCardClick_saves (g : Game) (i : Int) : SavesStorable g (handleCardClick g i) := by
  unfold handleCardClick
  repeat' split
  all_goals first
    | exact savesStorable_quiet rfl
    | (simp only []
       split
       · exact savesStorable_one Signal.cardFlip rfl rfl
       · exact savesStorable_one Signal.cardFlip rfl rfl)

theorem activate_saves (pol : ScorePolicy) (w : World) (g : Game) (b : Button)
    (hn : NamesClean g) (hd : NoNul w.date) : SavesStorable g (activate pol w g b) := by
  cases b <;> simp only [activate] <;>
    first
    | exact savesStorable_quiet rfl
    | (split
       · first
         | exact surrenderGame_saves pol w g hn hd
         | exact savesStorable_quiet rfl
         | (unfold cycleDifficulty; split <;> exact savesStorable_quiet rfl)
         | (unfold cycleTheme; split <;> exact savesStorable_quiet rfl)
         | (unfold startGameAction; split <;> exact savesStorable_quiet rfl)
         | (unfold pauseGame; split <;> exact savesStorable_quiet rfl)
         | (unfold resumeGame; split <;> exact savesStorable_quiet rfl)
       · exact savesStorable_quiet rfl)

theorem step_saves (pol : ScorePolicy) (w : World) (g : Game) (inp : Input)
    (hn : NamesClean g) (hd : NoNul w.date) : SavesStorable g (step pol w g inp) := by
  unfold step
  split
  · exact savesStorable_quiet rfl
  · cases inp with
    | tick dt =>
      exact savesStorable_congr rfl (update_saves pol w dt (passTime g dt) hn hd)
    | event e =>
      simp only
      unfold handleEvent
      split
      · exact savesStorable_quiet rfl
      · cases e with
        | closed => exact savesStorable_quiet rfl
        | textEntered u =>
          simp only
          split
          · unfold enterNameText
            repeat' split
            all_goals exact savesStorable_quiet rfl
          · exact savesStorable_quiet rfl
        | cardPressed i =>
          simp only
          split
          · unfold cardPress
            repeat' split
            all_goals first
              | exact savesStorable_quiet rfl
              | exact handleCardClick_saves g _
          · exact savesStorable_quiet rfl
        | activated b => exact activate_saves pol w g b hn hd
        | continuePressed => simp only; split <;> exact savesStorable_quiet rfl
        | contactBack => simp only; split <;> exact savesStorable_quiet rfl

/-! ## Claim on the round trip of a record -/

set_option maxRecDepth 100000 in
/-- C22: saving a record into an empty, available store with `saveGame` succeeds and a
following `getTopScores(10)` returns exactly one record, which equals the saved one on all
fields except the id (the id is 1). This holds for every record whose player name, date and
difficulty have no zero terminator inside and whose time is not NaN: the insert binds the
texts as C strings and a NaN time as NULL, which the column `time REAL NOT NULL` refuses.
Every record that the game hands to `saveGame` is of that kind: in every reachable state and
for every input, handled in surroundings whose date string (the C string that `strftime`
wrote) has no zero terminator inside, each record saved in the transition is stored and read
back as it is. -/
theorem save_query_round_trip (pol : ScorePolicy) :
    (∀ r : GameRecord, Storable r →
      (Database.saveGame true ⟨[]⟩ r).2 = true ∧
        Database.getTopScores true (Database.saveGame true ⟨[]⟩ r).1 10 =
          [{ r with id := 1 }]) ∧
    (∀ g : Game, Reachable pol g → ∀ (w : World) (inp : Input) (new : List Signal),
      NoNul w.date → (step pol w g inp).signals = g.signals ++ new →
      ∀ r : GameRecord, Signal.saveGame r ∈ new →
        Storable r ∧ (Database.saveGame true ⟨[]⟩ r).2 = true ∧
          Database.getTopScores true (Database.saveGame true ⟨[]⟩ r).1 10 =
            [{ r with id := 1 }]) := by
  have h1 : ∀ r : GameRecord, Storable r →
      (Database.saveGame true ⟨[]⟩ r).2 = true ∧
        Database.getTopScores true (Database.saveGame true ⟨[]⟩ r).1 10 =
          [{ r with id := 1 }] := by
    intro r hr
    obtain ⟨hn, hd, hf, ht⟩ := hr
    have hs : Database.saveGame true ⟨[]⟩ r =
        (⟨[{ r with id := 1, playerName := cText r.playerName, date := cText r.date,
                    difficulty := cText r.difficulty }]⟩, true) := by
      simp [Database.saveGame, Database.nextId, ht]
    rw [hs, cText_of_noNul _ hn, cText_of_noNul _ hd, cText_of_noNul _ hf]
    exact ⟨rfl, by simp [Database.getTopScores]⟩
  refine ⟨h1, ?_⟩
  intro g hg w inp new hd hnew r hr
  obtain ⟨new1, e1, p1⟩ := step_saves pol w g inp (reachable_namesClean pol g hg) hd
  have e : new = new1 := List.append_cancel_left (hnew.symm.trans e1)
  subst e
  exact ⟨p1 r hr, h1 r (p1 r hr)⟩

set_option maxRecDepth 100000 in
/-- Witness for C22: the record "A", 100 points, comes back from the empty store with the
id 1; and the record that the last move of the example game hands to `saveGame` is stored and
read back as it is. -/
theorem save_query_round_trip_witness :
    Storable plainRecord ∧
      Database.getTopScores true (Database.saveGame true ⟨[]⟩ plainRecord).1 10 =
        [{ plainRecord with id := 1 }] ∧
      Reachable examplePolicy lastMoveWithDatabase ∧
      (step examplePolicy exampleWorld lastMoveWithDatabase (.tick 300000)).signals =
        lastMoveWithDatabase.signals ++
          [Signal.cardMatch, Signal.saveGame winRecord, Signal.gameWin] ∧
      Database.getTopScores true (Database.saveGame true ⟨[]⟩ winRecord).1 10 =
        [{ winRecord with id := 1 }] :=
  have hr : Reachable examplePolicy lastMoveWithDatabase :=
    reachable_run _ _ _ _ (reachable_run _ _ _ _ (Reachable.init _ _))
  ⟨by decide, ((save_query_round_trip examplePolicy).1 plainRecord (by decide)).2, hr,
    by decide,
    ((save_query_round_trip examplePolicy).2 lastMoveWithDatabase hr exampleWorld
      (.tick 300000) [Signal.cardMatch, Signal.saveGame winRecord, Signal.gameWin]
      (by decide) (by decide) winRecord (by decide)).2.2⟩

/-! ## Lemmas on persistence and gameplay -/

theorem filter_gameplay_append (l : List Signal) (s : Signal) (h : isSave s = false) :
    (l ++ [s]).filter (fun s => !isSave s) = l.filter (fun s => !isSave s) ++ [s] := by
  rw [List.filter_append]
  congr 1
  simp [List.filter, h]

theorem filter_gameplay_save (l : List Signal) (r : GameRecord) :
    (l ++ [Signal.saveGame r]).filter (fun s => !isSave s) = l.filter (fun s => !isSave s) := by
  rw [List.filter_append]
  simp [List.filter, isSave]

theorem announceWin_gameplay (g : Game) : (announceWin g).gameplay = announceWin g.gameplay := by
  simp only [Game.gameplay, announceWin]
  rw [filter_gameplay_append _ Signal.gameWin rfl]

theorem markPair_gameplay (pol : ScorePolicy) (g : Game) (fc sc : Nat) :
    (markPair pol g fc sc).gameplay = markPair pol g.gameplay fc sc := by
  simp only [Game.gameplay, markPair]
  rw [filter_gameplay_append _ Signal.cardMatch rfl]

theorem hidePair_gameplay (g : Game) (fc sc : Nat) :
    (hidePair g fc sc).gameplay = hidePair g.gameplay fc sc := by
  simp only [Game.gameplay, hidePair]
  rw [filter_gameplay_append _ Signal.cardMismatch rfl]

theorem concede_gameplay (g : Game) : (concede g).gameplay = concede g.gameplay := by
  simp only [Game.gameplay, concede]
  rw [filter_gameplay_append _ Signal.gameLose rfl]

theorem storeRecord_gameplay (w : World) (g : Game) (db : Database) (r : GameRecord) :
    (storeRecord w g db r).gameplay = g.gameplay := by
  simp only [Game.gameplay, storeRecord]
  rw [filter_gameplay_save]

theorem saveGameResult_gameplay (w : World) (g : Game) :
    (saveGameResult w g).gameplay = g.gameplay := by
  unfold saveGameResult
  split
  · exact storeRecord_gameplay w g _ _
  · rfl

theorem saveGameResult_no_database (w : World) (g : Game) (h : g.database = none) :
    saveGameResult w g = g := by
  unfold saveGameResult
  split
  · next hd => rw [h] at hd; exact Option.noConfusion hd
  · rfl

theorem winGame_gameplay (pol : ScorePolicy) (w w1 : World) (g : Game) :
    (winGame pol w g).gameplay = winGame pol w1 g.gameplay := by
  unfold winGame
  simp only []
  cases hp : g.player with
  | none =>
    have h1 : (declareWon g).player = none := hp
    have h2 : (declareWon g.gameplay).player = none := hp
    simp only [h1, h2]
    exact announceWin_gameplay _
  | some p =>
    have h1 : (declareWon g).player = some p := hp
    have h2 : (declareWon g.gameplay).player = some p := hp
    simp only [h1, h2]
    rw [announceWin_gameplay, saveGameResult_gameplay,
      saveGameResult_no_database w1 (finishPlayer pol (declareWon g.gameplay) p) rfl]
    rfl

theorem processCardMatch_gameplay (pol : ScorePolicy) (w w1 : World) (g : Game) :
    (processCardMatch pol w g).gameplay = processCardMatch pol w1 g.gameplay := by
  unfold processCardMatch
  have hf : g.gameplay.firstCard = g.firstCard := rfl
  have hs : g.gameplay.secondCard = g.secondCard := rfl
  have hc : g.gameplay.isChecking = g.isChecking := rfl
  rw [hf, hs, hc]
  split
  · next fc sc _ _ =>
    have hm : symbolsMatch g.gameplay fc sc = symbolsMatch g fc sc := rfl
    rw [hm]
    split
    · rfl
    · split
      · simp only [← markPair_gameplay]
        have h1 : (markPair pol g fc sc).gameplay.matchedPairs =
          (markPair pol g fc sc).matchedPairs := rfl
        have h2 : (markPair pol g fc sc).gameplay.totalPairs =
          (markPair pol g fc sc).totalPairs := rfl
        have h3 : (markPair pol g fc sc).gameplay.hasWon = (markPair pol g fc sc).hasWon := rfl
        have h4 : (markPair pol g fc sc).gameplay.currentState =
          (markPair pol g fc sc).currentState := rfl
        rw [h1, h2, h3, h4]
        split
        · exact winGame_gameplay pol w w1 _
        · split <;> rfl
      · simp only [← hidePair_gameplay]
        have h4 : (hidePair g fc sc).gameplay.currentState = (hidePair g fc sc).currentState := rfl
        rw [h4]
        split <;> rfl
  · rfl

theorem surrenderGame_gameplay (pol : ScorePolicy) (w w1 : World) (g : Game) :
    (surrenderGame pol w g).gameplay = surrenderGame pol w1 g.gameplay := by
  unfold surrenderGame
  have ha : g.gameplay.isGameActive = g.isGameActive := rfl
  rw [ha]
  split
  · rfl
  · simp only [← concede_gameplay]
    cases hp : g.player with
    | none =>
      have h1 : (concede g).player = none := hp
      have h2 : (concede g).gameplay.player = none := hp
      simp only [h1, h2]
      rfl
    | some p =>
      have h1 : (concede g).player = some p := hp
      have h2 : (concede g).gameplay.player = some p := hp
      simp only [h1, h2]
      have h3 : (finishPlayer pol (concede g).gameplay p).database = none := rfl
      simp only [h3]
      cases hd : g.database with
      | none =>
        have h4 : (finishPlayer pol (concede g) p).database = none := hd
        simp only [h4]
        rfl
      | some db =>
        have h4 : (finishPlayer pol (concede g) p).database = some db := hd
        simp only [h4]
        show setCurrentState (storeRecord w (finishPlayer pol (concede g) p) db _).gameplay
          GameState.GAME_OVER_LOSE = _
        rw [storeRecord_gameplay]
        rfl

/-! ## Claim on persistence and gameplay -/

/-- C23: persistence never influences gameplay. For every game state, the state after
`processCardMatch` (a win included) and after `surrenderGame`, taken without the database
and the recorded calls of `saveGame`, is the same whatever database is present or absent and
whether the insert succeeds or fails: mode, counters, flags, cards and player agree. Both
functions return a state in every case. -/
theorem persistence_leaves_gameplay (pol : ScorePolicy) (w w1 : World) (g : Game)
    (d d1 : Option Database) :
    (processCardMatch pol w (withDatabase g d)).gameplay =
        (processCardMatch pol w1 (withDatabase g d1)).gameplay ∧
      (surrenderGame pol w (withDatabase g d)).gameplay =
        (surrenderGame pol w1 (withDatabase g d1)).gameplay ∧
      (processCardMatch pol w (withDatabase g d)).view =
        (processCardMatch pol w1 (withDatabase g d1)).view ∧
      (surrenderGame pol w (withDatabase g d)).view =
        (surrenderGame pol w1 (withDatabase g d1)).view ∧
      (processCardMatch pol w (withDatabase g d)).player =
        (processCardMatch pol w1 (withDatabase g d1)).player ∧
      (surrenderGame pol w (withDatabase g d)).player =
        (surrenderGame pol w1 (withDatabase g d1)).player := by
  have hg : (withDatabase g d).gameplay = (withDatabase g d1).gameplay := rfl
  have h1 : (processCardMatch pol w (withDatabase g d)).gameplay =
      (processCardMatch pol w1 (withDatabase g d1)).gameplay := by
    rw [processCardMatch_gameplay pol w w (withDatabase g d),
      processCardMatch_gameplay pol w1 w (withDatabase g d1), hg]
  have h2 : (surrenderGame pol w (withDatabase g d)).gameplay =
      (surrenderGame pol w1 (withDatabase g d1)).gameplay := by
    rw [surrenderGame_gameplay pol w w (withDatabase g d),
      surrenderGame_gameplay pol w1 w (withDatabase g d1), hg]
  exact ⟨h1, h2, congrArg (fun x => x.view) h1, congrArg (fun x => x.view) h2,
    congrArg (fun x => x.player) h1, congrArg (fun x => x.player) h2⟩

/-! ## Lemmas on the invariant of the session -/

theorem viewInv_menu {v v1 : SessionView} (hm : MenuMode v1.currentState)
    (h1 : v1.matchedPairs = v.matchedPairs) (h2 : v1.totalPairs = v.totalPairs)
    (h3 : v1.moves = v.moves) (h4 : v1.firstCard = v.firstCard)
    (h5 : v1.secondCard = v.secondCard) (h6 : v1.selectedCard1 = v.selectedCard1)
    (h7 : v1.selectedCard2 = v.selectedCard2) (h : ViewInv v) : ViewInv v1 := by
  obtain ⟨m1, m2, m3, m4⟩ := hm
  refine ⟨?_, ?_, ?_, ?_, ?_, ?_, ?_, ?_, ?_⟩
  · rw [h1]; exact h.pairs_nonneg
  · rw [h1, h2]; exact h.pairs_le
  · rw [h1, h3]; exact h.pairs_moves
  · rw [h4, h5, h6, h7]; exact h.distinct
  · intro e; exact absurd e m3
  · intro e; exact absurd e m4
  · intro e; exact absurd e m1
  · intro e; exact absurd e m2
  · intro e; rcases e with e | e
    · exact absurd e m1
    · exact absurd e m2

theorem viewInv_window (v : SessionView) (b : Bool) (h : ViewInv v) :
    ViewInv { v with windowOpen := b } :=
  ⟨h.pairs_nonneg, h.pairs_le, h.pairs_moves, h.distinct, h.won, h.lost, h.running, h.halted,
    h.inplay⟩

theorem viewInv_pause (v : SessionView) (hs : v.currentState = GameState.PLAYING)
    (h : ViewInv v) :
    ViewInv { v with currentState := GameState.PAUSED, isGameActive := false } := by
  refine ⟨h.pairs_nonneg, h.pairs_le, h.pairs_moves, h.distinct, ?_, ?_, ?_, ?_, ?_⟩
  · intro e; simp at e
  · intro e; simp at e
  · intro e; simp at e
  · intro _; rfl
  · intro _; exact h.inplay (Or.inl hs)

theorem viewInv_resume (v : SessionView) (hs : v.currentState = GameState.PAUSED)
    (h : ViewInv v) :
    ViewInv { v with currentState := GameState.PLAYING, isGameActive := true } := by
  refine ⟨h.pairs_nonneg, h.pairs_le, h.pairs_moves, h.distinct, ?_, ?_, ?_, ?_, ?_⟩
  · intro e; simp at e
  · intro e; simp at e
  · intro _; rfl
  · intro e; simp at e
  · intro _; exact h.inplay (Or.inr hs)

theorem viewInv_lose (v : SessionView) (h : ViewInv v) :
    ViewInv { v with currentState := GameState.GAME_OVER_LOSE, isGameActive := false } := by
  refine ⟨h.pairs_nonneg, h.pairs_le, h.pairs_moves, h.distinct, ?_, ?_, ?_, ?_, ?_⟩
  · intro e; simp at e
  · intro _; rfl
  · intro e; simp at e
  · intro e; simp at e
  · intro e; simp at e

theorem viewInv_fresh (wo : Bool) (tp : Int) (cs : List CardSprite) (htp : 0 < tp) :
    ViewInv ⟨wo, GameState.PLAYING, true, false, false, false, none, none, -1, -1, 0, 0, tp,
      false, cs⟩ := by
  refine ⟨le_refl _, le_of_lt htp, le_refl _, ?_, ?_, ?_, ?_, ?_, ?_⟩
  · intro i j e; exact Option.noConfusion e
  · intro e; simp at e
  · intro e; simp at e
  · intro _; rfl
  · intro e; simp at e
  · intro _; exact ⟨rfl, rfl, htp, Or.inl ⟨rfl, rfl, rfl, rfl⟩⟩

theorem flipped_not_hidden (cards : List CardSprite) (i : Nat) (c : CardSprite)
    (h : (flipped cards i)[i]? = some c) : c.state ≠ CardState.HIDDEN := by
  unfold flipped at h
  rw [updCard_getElem, updCard_getElem] at h
  simp only [if_true] at h
  cases hc : cards[i]? with
  | none => rw [hc] at h; exact Option.noConfusion h
  | some c0 =>
    rw [hc] at h
    simp only [Option.map_some', Option.some.injEq] at h
    rw [← h]
    simp [CardSprite.setClickable, CardSprite.reveal]


theorem viewInv_first (v : SessionView) (i : Nat) (h : ViewInv v)
    (hs : v.currentState = GameState.PLAYING) (hsel : v.firstCardSelected = false)
    (hf : v.isFlipping = false) :
    ViewInv { v with cards := flipped v.cards i, firstCardSelected := true,
                     selectedCard1 := (i : Int), firstCard := some i, isFlipping := true } := by
  obtain ⟨hw, hc, hlt, hshape⟩ := h.inplay (Or.inl hs)
  have hnone : v.firstCard = none ∧ v.secondCard = none := by
    rcases hshape with ⟨_, h1, h2, _⟩ | ⟨h1, _⟩ | ⟨_, h2, _⟩
    · exact ⟨h1, h2⟩
    · rw [hsel] at h1; exact Bool.noConfusion h1
    · rw [hf] at h2; exact Bool.noConfusion h2
  refine ⟨h.pairs_nonneg, h.pairs_le, h.pairs_moves, ?_, h.won, h.lost, h.running, h.halted, ?_⟩
  · intro a b _ e
    have e2 : v.secondCard = some b := e
    rw [hnone.2] at e2
    exact Option.noConfusion e2
  · intro _
    exact ⟨hw, hc, hlt, Or.inr (Or.inl ⟨rfl, hnone.2, i, rfl, rfl,
      fun c hc => flipped_not_hidden v.cards i c hc⟩)⟩

theorem viewInv_second (v : SessionView) (j : Nat) (c : CardSprite) (h : ViewInv v)
    (hs : v.currentState = GameState.PLAYING) (hsel : v.firstCardSelected = true)
    (hj : v.cards[j]? = some c) (hh : c.state = CardState.HIDDEN) :
    ViewInv { v with cards := flipped v.cards j, selectedCard2 := (j : Int),
                     secondCard := some j, isFlipping := true, moves := v.moves + 1,
                     firstCardSelected := false } := by
  obtain ⟨hw, hc, hlt, hshape⟩ := h.inplay (Or.inl hs)
  have hfirst : ∃ i : Nat, v.firstCard = some i ∧ v.selectedCard1 = (i : Int) ∧ i ≠ j := by
    rcases hshape with ⟨h1, _⟩ | ⟨_, _, i, h1, h2, h3⟩ | ⟨h1, _⟩
    · rw [hsel] at h1; exact Bool.noConfusion h1
    · refine ⟨i, h1, h2, ?_⟩
      intro e
      subst e
      exact h3 c hj hh
    · rw [hsel] at h1; exact Bool.noConfusion h1
  obtain ⟨i, hi1, hi2, hij⟩ := hfirst
  have hm := h.pairs_moves
  refine ⟨h.pairs_nonneg, h.pairs_le, ?_, ?_, h.won, h.lost, h.running, h.halted, ?_⟩
  · show v.matchedPairs ≤ v.moves + 1
    omega
  · intro a b ea eb
    have ea2 : v.firstCard = some a := ea
    have eb2 : some j = some b := eb
    rw [hi1] at ea2
    cases ea2
    cases eb2
    exact ⟨hij, hi2, rfl⟩
  · intro _
    refine ⟨hw, hc, hlt, Or.inr (Or.inr ⟨rfl, rfl, ⟨i, j, hi1, rfl⟩, ?_⟩)⟩
    show v.matchedPairs < v.moves + 1
    omega

theorem viewInv_flipped_done (v : SessionView) (h : ViewInv v)
    (h2 : v.secondCard = none) : ViewInv { v with isFlipping := false } := by
  refine ⟨h.pairs_nonneg, h.pairs_le, h.pairs_moves, h.distinct, h.won, h.lost, h.running,
    h.halted, ?_⟩
  intro hs
  obtain ⟨hw, hc, hlt, hshape⟩ := h.inplay hs
  refine ⟨hw, hc, hlt, ?_⟩
  rcases hshape with ⟨a1, a2, a3, _⟩ | ⟨b1, b2, b3⟩ | ⟨_, _, ⟨i, j, _, c3⟩, _⟩
  · exact Or.inl ⟨a1, a2, a3, rfl⟩
  · exact Or.inr (Or.inl ⟨b1, b2, b3⟩)
  · rw [h2] at c3; exact Option.noConfusion c3

theorem second_shape {v : SessionView} {fc sc : Nat} (h : ViewInv v)
    (hs : v.currentState = GameState.PLAYING) (h1 : v.firstCard = some fc)
    (h2 : v.secondCard = some sc) :
    v.hasWon = false ∧ v.matchedPairs < v.totalPairs ∧ v.firstCardSelected = false ∧
      v.matchedPairs < v.moves := by
  obtain ⟨hw, _, hlt, hshape⟩ := h.inplay (Or.inl hs)
  rcases hshape with ⟨_, a2, _⟩ | ⟨_, b2, _⟩ | ⟨c1, _, _, c4⟩
  · rw [h1] at a2; exact Option.noConfusion a2
  · rw [h2] at b2; exact Option.noConfusion b2
  · exact ⟨hw, hlt, c1, c4⟩

theorem viewInv_win {v v1 : SessionView} {fc sc : Nat} (cs : List CardSprite)
    (hv : v1 = { v with isFlipping := false, isChecking := true }) (h : ViewInv v)
    (hs : v.currentState = GameState.PLAYING) (h1 : v.firstCard = some fc)
    (h2 : v.secondCard = some sc) (hwin : v.totalPairs ≤ v.matchedPairs + 1) :
    ViewInv { v1 with cards := cs, matchedPairs := v1.matchedPairs + 1, hasWon := true,
                      isGameActive := false, currentState := GameState.GAME_OVER_WIN } := by
  subst hv
  obtain ⟨_, hlt, _, hmv⟩ := second_shape h hs h1 h2
  have hn := h.pairs_nonneg
  refine ⟨?_, ?_, ?_, h.distinct, ?_, ?_, ?_, ?_, ?_⟩
  · show 0 ≤ v.matchedPairs + 1
    omega
  · show v.matchedPairs + 1 ≤ v.totalPairs
    omega
  · show v.matchedPairs + 1 ≤ v.moves
    omega
  · intro _
    refine ⟨rfl, ?_, rfl⟩
    show v.matchedPairs + 1 = v.totalPairs
    omega
  · intro e; simp at e
  · intro e; simp at e
  · intro e; simp at e
  · intro e; simp at e

theorem viewInv_matched {v v1 : SessionView} {fc sc : Nat} (cs : List CardSprite)
    (hv : v1 = { v with isFlipping := false, isChecking := true }) (h : ViewInv v)
    (hs : v.currentState = GameState.PLAYING) (h1 : v.firstCard = some fc)
    (h2 : v.secondCard = some sc) (hwin : ¬ v.totalPairs ≤ v.matchedPairs + 1) :
    ViewInv { v1 with cards := cs, matchedPairs := v1.matchedPairs + 1, firstCard := none,
                      secondCard := none, selectedCard1 := -1, selectedCard2 := -1,
                      isChecking := false } := by
  subst hv
  obtain ⟨hw, hlt, hsel, hmv⟩ := second_shape h hs h1 h2
  have hn := h.pairs_nonneg
  refine ⟨?_, ?_, ?_, ?_, ?_, ?_, h.running, h.halted, ?_⟩
  · show 0 ≤ v.matchedPairs + 1
    omega
  · show v.matchedPairs + 1 ≤ v.totalPairs
    omega
  · show v.matchedPairs + 1 ≤ v.moves
    omega
  · intro a b e; exact Option.noConfusion e
  · intro e
    have e2 : v.currentState = GameState.GAME_OVER_WIN := e
    rw [hs] at e2; exact GameState.noConfusion e2
  · intro e
    have e2 : v.currentState = GameState.GAME_OVER_LOSE := e
    rw [hs] at e2; exact GameState.noConfusion e2
  · intro _
    refine ⟨hw, rfl, ?_, Or.inl ⟨hsel, rfl, rfl, rfl⟩⟩
    show v.matchedPairs + 1 < v.totalPairs
    omega

theorem viewInv_mismatched {v v1 : SessionView} {fc sc : Nat} (cs : List CardSprite)
    (hv : v1 = { v with isFlipping := false, isChecking := true }) (h : ViewInv v)
    (hs : v.currentState = GameState.PLAYING) (h1 : v.firstCard = some fc)
    (h2 : v.secondCard = some sc) :
    ViewInv { v1 with cards := cs, firstCard := none, secondCard := none,
                      selectedCard1 := -1, selectedCard2 := -1, isChecking := false } := by
  subst hv
  obtain ⟨hw, hlt, hsel, _⟩ := second_shape h hs h1 h2
  refine ⟨h.pairs_nonneg, h.pairs_le, h.pairs_moves, ?_, h.won, h.lost, h.running, h.halted, ?_⟩
  · intro a b e; exact Option.noConfusion e
  · intro _
    exact ⟨hw, rfl, hlt, Or.inl ⟨hsel, rfl, rfl, rfl⟩⟩

theorem tick_menu_view (pol : ScorePolicy) (w : World) (g : Game) (dt : Nat)
    (hs : g.currentState ≠ GameState.PLAYING) : (step pol w g (.tick dt)).view = g.view := by
  cases hw : g.windowOpen <;> cases hs1 : g.currentState <;>
    simp [step, update, hw, hs1, Game.view] at hs ⊢

theorem tick_viewInv (pol : ScorePolicy) (w : World) (g : Game) (dt : Nat)
    (hw : g.windowOpen = true) (h : ViewInv g.view) :
    ViewInv (step pol w g (.tick dt)).view := by
  by_cases hs : g.currentState = GameState.PLAYING
  · cases hf : g.isFlipping
    · rw [tick_idle_view pol w g dt hf]; exact h
    · by_cases hge : cardFlipTime ≤ g.cardFlipProgress + dt
      · cases h2 : g.secondCard with
        | none =>
          rw [tick_fire_one pol w g dt hw hs hf hge h2]
          exact viewInv_flipped_done g.view h h2
        | some sc =>
          have h1 : ∃ fc, g.firstCard = some fc := by
            obtain ⟨_, _, _, hshape⟩ := h.inplay (Or.inl hs)
            rcases hshape with ⟨_, _, a3, _⟩ | ⟨_, b2, _⟩ | ⟨_, _, ⟨i, j, c1, _⟩, _⟩
            · have a3 : g.secondCard = none := a3
              rw [h2] at a3; exact Option.noConfusion a3
            · have b2 : g.secondCard = none := b2
              rw [h2] at b2; exact Option.noConfusion b2
            · exact ⟨i, c1⟩
          obtain ⟨fc, h1⟩ := h1
          obtain ⟨g1, hg1, hstep⟩ := tick_fire_two pol w g dt fc sc hw hs hf hge h1 h2
          have e1 : g1.firstCard = some fc := (congrArg SessionView.firstCard hg1).trans h1
          have e2 : g1.secondCard = some sc := (congrArg SessionView.secondCard hg1).trans h2
          have e3 : g1.isChecking = true := congrArg SessionView.isChecking hg1
          have e4 : g1.currentState = GameState.PLAYING :=
            (congrArg SessionView.currentState hg1).trans hs
          have e5 : g1.totalPairs = g.totalPairs := congrArg SessionView.totalPairs hg1
          have e6 : g1.matchedPairs = g.matchedPairs := congrArg SessionView.matchedPairs hg1
          have e7 : g1.hasWon = false :=
            (congrArg SessionView.hasWon hg1).trans (second_shape h hs h1 h2).1
          have e8 : g1.currentState ≠ GameState.GAME_OVER_WIN := by rw [e4]; decide
          rw [hstep]
          cases hm : symbolsMatch g1 fc sc
          · rw [processCardMatch_view_mismatch pol w g1 fc sc e1 e2 e3 hm, if_pos e8]
            exact viewInv_mismatched _ hg1 h hs h1 h2
          · rw [processCardMatch_view_match pol w g1 fc sc e1 e2 e3 hm]
            by_cases hwin : g.totalPairs ≤ g.matchedPairs + 1
            · rw [if_pos ⟨by rw [e5, e6]; exact hwin, e7⟩]
              exact viewInv_win _ hg1 h hs h1 h2 hwin
            · rw [if_neg (fun hc => hwin (by rw [← e5, ← e6]; exact hc.1)), if_pos e8]
              exact viewInv_matched _ hg1 h hs h1 h2 hwin
      · have hlt : g.cardFlipProgress + dt < cardFlipTime := by omega
        rw [(tick_wait pol w g dt hw hs hf hlt).1]; exact h
  · rw [tick_menu_view pol w g dt hs]; exact h


theorem processCardMatch_previousState (pol : ScorePolicy) (w : World) (g : Game) :
    (processCardMatch pol w g).previousState = g.previousState := by
  unfold processCardMatch
  split
  · split
    · rfl
    · split
      · simp only []
        split
        · rw [winGame_previousState]; rfl
        · split <;> rfl
      · simp only []
        split <;> rfl
  · rfl

theorem update_previousState (pol : ScorePolicy) (w : World) (dt : Nat) (g : Game) :
    (update pol w dt g).previousState = g.previousState := by
  unfold update
  split
  · simp only []
    repeat' split
    all_goals first | rfl | (rw [processCardMatch_previousState]; rfl)
  · rfl

theorem surrenderGame_active (pol : ScorePolicy) (w : World) (g : Game)
    (ha : g.isGameActive = true) :
    (surrenderGame pol w g).view =
        { g.view with currentState := GameState.GAME_OVER_LOSE, isGameActive := false } ∧
      (surrenderGame pol w g).previousState = g.previousState := by
  cases hp : g.player with
  | none => rw [surrenderGame_no_player pol w g ha hp]; exact ⟨rfl, rfl⟩
  | some p =>
    cases hd : g.database with
    | none => rw [surrenderGame_unsaved pol w g p ha hp hd]; exact ⟨rfl, rfl⟩
    | some db => rw [surrenderGame_saved pol w g p db ha hp hd]; exact ⟨rfl, rfl⟩

theorem cardPress_cases (g : Game) (i : Nat) (ha : g.isGameActive = true) :
    cardPress g i = g ∨
      ∃ c : CardSprite, g.cards[i]? = some c ∧ c.state = CardState.HIDDEN ∧
        g.isFlipping = false ∧ g.isChecking = false ∧
        cardPress g i =
          if g.firstCardSelected = false then selectFirst (flipCard g i) (i : Int)
          else selectSecond (flipCard g i) (i : Int) := by
  cases hi : g.cards[i]? with
  | none => left; simp [cardPress, hi]
  | some c =>
    by_cases hcond : c.state = CardState.HIDDEN ∧ c.isClickable = true ∧
        g.isFlipping = false ∧ g.isChecking = false
    · obtain ⟨hh, hcl, hf, hc⟩ := hcond
      right
      refine ⟨c, rfl, hh, hf, hc, ?_⟩
      have hlt : i < g.cards.length := by
        by_contra hge
        rw [List.getElem?_eq_none (by omega)] at hi
        exact Option.noConfusion hi
      have hlt2 : ¬ ((g.cards.length : Int) ≤ (i : Int)) := by omega
      simp [cardPress, handleCardClick, ha, hf, hc, hi, hh, hcl, hlt2]
    · left
      unfold cardPress
      rw [hi]
      simp only []
      rw [if_neg]
      intro hc
      apply hcond
      simpa [and_assoc] using hc

theorem cardPress_sessionInv (g : Game) (i : Nat) (hs : g.currentState = GameState.PLAYING)
    (h : SessionInv g) : SessionInv (cardPress g i) := by
  have ha : g.isGameActive = true := h.2.running hs
  rcases cardPress_cases g i ha with e | ⟨c, hi, hh, hf, hc, e⟩
  · rw [e]; exact h
  · rw [e]
    cases hsel : g.firstCardSelected
    · rw [if_pos rfl]
      refine ⟨h.1, ?_⟩
      have hv : (selectFirst (flipCard g i) (i : Int)).view =
          { g.view with cards := flipped g.cards i, firstCardSelected := true,
                        selectedCard1 := (i : Int), firstCard := some i, isFlipping := true } := by
        simp [Game.view, flipped]
      rw [hv]
      exact viewInv_first g.view i h.2 hs hsel hf
    · rw [if_neg (by simp)]
      refine ⟨h.1, ?_⟩
      have hv : (selectSecond (flipCard g i) (i : Int)).view =
          { g.view with cards := flipped g.cards i, selectedCard2 := (i : Int),
                        secondCard := some i, isFlipping := true, moves := g.moves + 1,
                        firstCardSelected := false } := by
        simp [Game.view, flipped]
      rw [hv]
      exact viewInv_second g.view i c h.2 hs hsel hi hh

theorem sessionInv_goto (g : Game) (m : GameState) (hm : MenuMode m) (h : SessionInv g) :
    SessionInv (setCurrentState g m) :=
  ⟨h.1, @viewInv_menu g.view (setCurrentState g m).view hm rfl rfl rfl rfl rfl rfl rfl h.2⟩

theorem sessionInv_startNewGame (g : Game) (h : SessionInv g) : SessionInv (startNewGame g) :=
  ⟨h.1, @viewInv_menu g.view (startNewGame g).view
    ⟨by simp [Game.view], by simp [Game.view], by simp [Game.view], by simp [Game.view]⟩
    rfl rfl rfl rfl rfl rfl rfl h.2⟩

theorem sessionInv_createPlayer (g : Game) (h : SessionInv g) : SessionInv (createPlayer g) :=
  ⟨h.1, @viewInv_menu g.view (createPlayer g).view
    ⟨by simp [Game.view], by simp [Game.view], by simp [Game.view], by simp [Game.view]⟩
    rfl rfl rfl rfl rfl rfl rfl h.2⟩

theorem sessionInv_openContactForm (g : Game) (hs : g.currentState = GameState.SETTINGS)
    (h : SessionInv g) : SessionInv (openContactForm g) :=
  ⟨Or.inr hs, @viewInv_menu g.view (openContactForm g).view
    ⟨by simp [Game.view], by simp [Game.view], by simp [Game.view], by simp [Game.view]⟩
    rfl rfl rfl rfl rfl rfl rfl h.2⟩

theorem sessionInv_back (g : Game) (h : SessionInv g) :
    SessionInv (setCurrentState g g.previousState) := by
  apply sessionInv_goto g _ _ h
  rcases h.1 with e | e <;> rw [e] <;> simp [MenuMode]

theorem sessionInv_closeWindow (g : Game) (h : SessionInv g) : SessionInv (closeWindow g) :=
  ⟨h.1, viewInv_window g.view false h.2⟩

theorem sessionInv_start (w : World) (g : Game) : SessionInv g →
    SessionInv (leavePause (resetGame w g)) := by
  intro h
  refine ⟨h.1, ?_⟩
  have hv : (leavePause (resetGame w g)).view =
      ⟨g.windowOpen, GameState.PLAYING, true, false, false, false, none, none, -1, -1, 0, 0,
        layoutPairs g.difficulty, false, (resetGame w g).cards⟩ := rfl
  rw [hv]
  apply viewInv_fresh
  cases g.difficulty <;> decide

theorem enterNameText_sessionInv (g : Game) (u : Nat) (h : SessionInv g) :
    SessionInv (enterNameText g u) := by
  unfold enterNameText
  repeat' split
  all_goals first
    | exact h
    | exact sessionInv_createPlayer g h

theorem activate_sessionInv (pol : ScorePolicy) (w : World) (g : Game) (b : Button)
    (h : SessionInv g) : SessionInv (activate pol w g b) := by
  cases b <;> simp only [activate] <;>
    first
    | exact h
    | (split
       · next hs =>
         first
         | exact sessionInv_startNewGame g h
         | exact sessionInv_goto g _ (by simp [MenuMode]) h
         | exact sessionInv_closeWindow g h
         | exact sessionInv_openContactForm g hs h
         | (unfold cycleDifficulty; split <;> exact ⟨h.1, h.2⟩)
         | (unfold cycleTheme; split <;> exact ⟨h.1, h.2⟩)
         | (unfold startGameAction; split
            · exact sessionInv_start w g h
            · exact h)
         | (unfold pauseGame; rw [if_pos hs]
            exact ⟨h.1, viewInv_pause g.view hs h.2⟩)
         | (unfold resumeGame; rw [if_pos hs]
            exact ⟨h.1, viewInv_resume g.view hs h.2⟩)
         | (have ha := h.2.running hs
            obtain ⟨e1, e2⟩ := surrenderGame_active pol w g ha
            refine ⟨e2 ▸ h.1, ?_⟩
            rw [e1]
            exact viewInv_lose g.view h.2)
       · exact h)

theorem step_sessionInv (pol : ScorePolicy) (w : World) (g : Game) (inp : Input)
    (h : SessionInv g) : SessionInv (step pol w g inp) := by
  cases hw : g.windowOpen
  · rw [step_closed pol w g inp hw]; exact h
  · cases inp with
    | tick dt =>
      refine ⟨?_, tick_viewInv pol w g dt hw h.2⟩
      have e : (step pol w g (.tick dt)).previousState = g.previousState := by
        simp only [step, hw]
        exact update_previousState pol w dt (passTime g dt)
      rw [e]; exact h.1
    | event e =>
      have hstep : step pol w g (.event e) = handleEvent pol w g e := by simp [step, hw]
      rw [hstep]
      unfold handleEvent
      split
      · exact sessionInv_closeWindow g h
      · cases e with
        | closed => exact sessionInv_closeWindow g h
        | textEntered u => simp only; split; exact enterNameText_sessionInv g u h; exact h
        | cardPressed i =>
          simp only
          split
          · next hs => exact cardPress_sessionInv g i hs h
          · exact h
        | activated b => exact activate_sessionInv pol w g b h
        | continuePressed =>
          simp only
          split
          · exact sessionInv_goto g _ (by simp [MenuMode]) h
          · exact h
        | contactBack =>
          simp only
          split
          · exact sessionInv_back g h
          · exact h

theorem init_sessionInv (db : Option Database) (b : Bool) : SessionInv (Game.init db b) := by
  refine ⟨Or.inl rfl, ?_⟩
  refine ⟨by simp [Game.init, Game.view], by simp [Game.init, Game.view],
    by simp [Game.init, Game.view], ?_, ?_, ?_, ?_, ?_, ?_⟩
  · intro i j e; exact Option.noConfusion e
  · intro e; exact GameState.noConfusion e
  · intro e; exact GameState.noConfusion e
  · intro e; exact GameState.noConfusion e
  · intro e; exact GameState.noConfusion e
  · intro e; rcases e with e | e <;> exact GameState.noConfusion e

theorem reachable_sessionInv (pol : ScorePolicy) (g : Game) (h : Reachable pol g) :
    SessionInv g := by
  induction h with
  | init db b => exact init_sessionInv db b
  | step w inp _ ih => exact step_sessionInv pol w _ inp ih

/-! ## Lemmas on what a transition does -/

theorem playing_not_over {m : GameState} (e : m = GameState.PLAYING) :
    m ≠ GameState.GAME_OVER_WIN ∧ m ≠ GameState.GAME_OVER_LOSE := by
  rw [e]; exact ⟨by decide, by decide⟩

theorem stepEffect_quiet {g g1 : Game} {new : List Signal}
    (h1 : new.count Signal.gameWin = 0) (h2 : new.count Signal.gameLose = 0)
    (h3 : new.countP isSave = 0) (h4 : storedRows g1 = storedRows g)
    (h5 : g.currentState = GameState.PLAYING →
      g1.currentState ≠ GameState.GAME_OVER_WIN ∧
      g1.currentState ≠ GameState.GAME_OVER_LOSE) : StepEffect g g1 new :=
  Or.inl ⟨h1, h2, h3, h4, h5⟩

theorem saveGame_rows_le (ok : Bool) (db : Database) (r : GameRecord) :
    (db.saveGame ok r).1.rows.length ≤ db.rows.length + 1 := by
  unfold Database.saveGame
  split <;> simp

theorem storedRows_storeRecord (w : World) (g : Game) (db : Database) (r : GameRecord)
    (hd : g.database = some db) :
    storedRows (storeRecord w g db r) ≤ storedRows g + 1 := by
  simp only [storedRows, storeRecord, hd]
  exact saveGame_rows_le _ _ _

theorem saveGameResult_effect (w : World) (g : Game) :
    ∃ saves : List Signal, (saveGameResult w g).signals = g.signals ++ saves ∧
      SaveEffect g (saveGameResult w g) g.moves g.matchedPairs saves := by
  unfold saveGameResult
  split
  · next p db hp hd =>
    exact ⟨[Signal.saveGame (resultRecord w g p)], rfl,
      Or.inr ⟨_, rfl, rfl, rfl, storedRows_storeRecord w g db _ hd⟩⟩
  · exact ⟨[], (List.append_nil _).symm, Or.inl ⟨rfl, rfl⟩⟩

theorem winGame_effect (pol : ScorePolicy) (w : World) (g : Game) :
    ∃ saves : List Signal,
      (winGame pol w g).signals = g.signals ++ saves ++ [Signal.gameWin] ∧
      SaveEffect g (winGame pol w g) g.moves g.matchedPairs saves := by
  unfold winGame
  simp only []
  cases hp : g.player with
  | none =>
    have h1 : (declareWon g).player = none := hp
    simp only [h1]
    exact ⟨[], by simp, Or.inl ⟨rfl, rfl⟩⟩
  | some p =>
    have h1 : (declareWon g).player = some p := hp
    simp only [h1]
    obtain ⟨saves, hs, he⟩ := saveGameResult_effect w (finishPlayer pol (declareWon g) p)
    refine ⟨saves, ?_, ?_⟩
    · simp only [announceWin_signals, hs]
      rfl
    · rcases he with ⟨e1, e2⟩ | ⟨r, e1, e2, e3, e4⟩
      · exact Or.inl ⟨e1, e2⟩
      · exact Or.inr ⟨r, e1, e2, e3, e4⟩

theorem processCardMatch_effect (pol : ScorePolicy) (w : World) (g : Game)
    (hs : g.currentState = GameState.PLAYING) :
    ∃ new : List Signal, (processCardMatch pol w g).signals = g.signals ++ new ∧
      StepEffect g (processCardMatch pol w g) new := by
  unfold processCardMatch
  split
  · next fc sc _ _ =>
    split
    · exact ⟨[], (List.append_nil _).symm, stepEffect_quiet rfl rfl rfl rfl playing_not_over⟩
    · split
      · simp only []
        split
        · next hwin =>
          have hlast : g.totalPairs ≤ g.matchedPairs + 1 := by
            simp only [markPair_matchedPairs, markPair_totalPairs, ge_iff_le, Bool.and_eq_true,
              decide_eq_true_eq] at hwin
            exact hwin.1
          obtain ⟨saves, h1, h2⟩ := winGame_effect pol w (markPair pol g fc sc)
          refine ⟨[Signal.cardMatch] ++ saves ++ [Signal.gameWin], ?_,
            Or.inr (Or.inl ⟨hs, (winGame_fields pol w _).2.2.1, hlast, ?_, ?_, saves, rfl, ?_⟩)⟩
          · rw [h1]; simp
          · intro e; simp_all
          · intro e; simp_all
          · rcases h2 with ⟨e1, e2⟩ | ⟨r, e1, e2, e3, e4⟩
            · exact Or.inl ⟨e1, e2⟩
            · exact Or.inr ⟨r, e1, e2, e3, e4⟩
        · split
          · exact ⟨[Signal.cardMatch], rfl, stepEffect_quiet (by decide) (by decide) rfl rfl playing_not_over⟩
          · exact ⟨[Signal.cardMatch], rfl, stepEffect_quiet (by decide) (by decide) rfl rfl playing_not_over⟩
      · simp only []
        split
        · exact ⟨[Signal.cardMismatch], rfl, stepEffect_quiet (by decide) (by decide) rfl rfl playing_not_over⟩
        · exact ⟨[Signal.cardMismatch], rfl, stepEffect_quiet (by decide) (by decide) rfl rfl playing_not_over⟩
  · exact ⟨[], (List.append_nil _).symm, stepEffect_quiet rfl rfl rfl rfl playing_not_over⟩

theorem stepEffect_congr {g g1 g0 : Game} {new : List Signal}
    (h1 : g0.currentState = g.currentState) (h2 : g0.isGameActive = g.isGameActive)
    (h3 : g0.moves = g.moves) (h4 : g0.matchedPairs = g.matchedPairs)
    (h5 : storedRows g0 = storedRows g) (h6 : g0.totalPairs = g.totalPairs)
    (h7 : g0.firstCard = g.firstCard) (h8 : g0.secondCard = g.secondCard)
    (h : StepEffect g0 g1 new) : StepEffect g g1 new := by
  unfold StepEffect SaveEffect at *
  rw [h1, h2, h3, h4, h5, h6, h7, h8] at h
  exact h

theorem update_effect (pol : ScorePolicy) (w : World) (dt : Nat) (g : Game) :
    ∃ new : List Signal, (update pol w dt g).signals = g.signals ++ new ∧
      StepEffect g (update pol w dt g) new := by
  unfold update
  split
  · next hs =>
    simp only []
    repeat' split
    all_goals first
      | exact ⟨[], (List.append_nil _).symm, stepEffect_quiet rfl rfl rfl rfl playing_not_over⟩
      | (obtain ⟨new, h1, h2⟩ := processCardMatch_effect pol w
          (startChecking (finishFlip (advanceFlip (updateStats pol (recordElapsed g)) dt))) hs
         exact ⟨new, h1, stepEffect_congr rfl rfl rfl rfl rfl rfl rfl rfl h2⟩)
      | (obtain ⟨new, h1, h2⟩ := processCardMatch_effect pol w
          (startChecking (finishFlip (advanceFlip g dt))) hs
         exact ⟨new, h1, stepEffect_congr rfl rfl rfl rfl rfl rfl rfl rfl h2⟩)
  · exact ⟨[], (List.append_nil _).symm, stepEffect_quiet rfl rfl rfl rfl playing_not_over⟩


theorem surrenderGame_effect (pol : ScorePolicy) (w : World) (g : Game)
    (hs : g.currentState = GameState.PLAYING) :
    ∃ new : List Signal, (surrenderGame pol w g).signals = g.signals ++ new ∧
      StepEffect g (surrenderGame pol w g) new := by
  cases ha : g.isGameActive with
  | false =>
    rw [surrenderGame_inactive pol w g ha]
    exact ⟨[], (List.append_nil _).symm, stepEffect_quiet rfl rfl rfl rfl playing_not_over⟩
  | true =>
    cases hp : g.player with
    | none =>
      rw [surrenderGame_no_player pol w g ha hp]
      exact ⟨[Signal.gameLose], rfl, Or.inr (Or.inr ⟨hs, ha, rfl, [], rfl, Or.inl ⟨rfl, rfl⟩⟩)⟩
    | some p =>
      cases hd : g.database with
      | none =>
        rw [surrenderGame_unsaved pol w g p ha hp hd]
        exact ⟨[Signal.gameLose], rfl,
          Or.inr (Or.inr ⟨hs, ha, rfl, [], rfl, Or.inl ⟨rfl, by simp [storedRows, hd]⟩⟩)⟩
      | some db =>
        rw [surrenderGame_saved pol w g p db ha hp hd]
        refine ⟨[Signal.gameLose, Signal.saveGame (surrenderRecord w (finishPlayer pol (concede g) p)
            ((p.finishGame).calculateScore pol g.totalPairs))], by simp,
          Or.inr (Or.inr ⟨hs, ha, rfl, [Signal.saveGame (surrenderRecord w
            (finishPlayer pol (concede g) p) ((p.finishGame).calculateScore pol g.totalPairs))],
            rfl, Or.inr ⟨_, rfl, rfl, rfl, ?_⟩⟩)⟩
        simp only [storedRows, hd]
        exact saveGame_rows_le _ _ _

theorem handleCardClick_effect (g : Game) (i : Int) :
    ∃ new : List Signal, (handleCardClick g i).signals = g.signals ++ new ∧
      StepEffect g (handleCardClick g i) new := by
  unfold handleCardClick
  repeat' split
  all_goals first
    | exact ⟨[], (List.append_nil _).symm, stepEffect_quiet rfl rfl rfl rfl playing_not_over⟩
    | (simp only []
       split
       · exact ⟨[Signal.cardFlip], rfl, stepEffect_quiet (by decide) (by decide) rfl rfl playing_not_over⟩
       · exact ⟨[Signal.cardFlip], rfl, stepEffect_quiet (by decide) (by decide) rfl rfl playing_not_over⟩)

theorem quiet_effect (g g1 : Game) (h1 : g1.signals = g.signals)
    (h2 : g1.database = g.database)
    (h3 : g.currentState = GameState.PLAYING →
      g1.currentState ≠ GameState.GAME_OVER_WIN ∧
      g1.currentState ≠ GameState.GAME_OVER_LOSE) :
    ∃ new : List Signal, g1.signals = g.signals ++ new ∧ StepEffect g g1 new :=
  ⟨[], by rw [h1, List.append_nil], stepEffect_quiet rfl rfl rfl (by simp [storedRows, h2]) h3⟩

theorem activate_effect (pol : ScorePolicy) (w : World) (g : Game) (b : Button) :
    ∃ new : List Signal, (activate pol w g b).signals = g.signals ++ new ∧
      StepEffect g (activate pol w g b) new := by
  cases b <;> simp only [activate] <;>
    first
    | exact quiet_effect g g rfl rfl playing_not_over
    | (split
       · next hs =>
         first
         | exact surrenderGame_effect pol w g hs
         | (refine quiet_effect g _ rfl rfl ?_; intro e; first | exact playing_not_over e | simp_all)
         | (unfold cycleDifficulty; split <;> exact quiet_effect g _ rfl rfl playing_not_over)
         | (unfold cycleTheme; split <;> exact quiet_effect g _ rfl rfl playing_not_over)
         | (unfold startGameAction; split <;> (refine quiet_effect g _ rfl rfl ?_; intro e; first | exact playing_not_over e | simp_all))
         | (unfold pauseGame; split <;> (refine quiet_effect g _ rfl rfl ?_; intro e; first | exact playing_not_over e | simp_all))
         | (unfold resumeGame; split <;> (refine quiet_effect g _ rfl rfl ?_; intro e; first | exact playing_not_over e | simp_all))
       · exact quiet_effect g g rfl rfl playing_not_over)

theorem step_effect (pol : ScorePolicy) (w : World) (g : Game) (inp : Input) :
    ∃ new : List Signal, (step pol w g inp).signals = g.signals ++ new ∧
      StepEffect g (step pol w g inp) new := by
  unfold step
  split
  · exact quiet_effect g g rfl rfl playing_not_over
  · cases inp with
    | tick dt =>
      obtain ⟨new, h1, h2⟩ := update_effect pol w dt (passTime g dt)
      exact ⟨new, h1, stepEffect_congr rfl rfl rfl rfl rfl rfl rfl rfl h2⟩
    | event e =>
      simp only
      unfold handleEvent
      split
      · exact quiet_effect g _ rfl rfl playing_not_over
      · cases e with
        | closed => exact quiet_effect g _ rfl rfl playing_not_over
        | textEntered u =>
          simp only
          split
          · unfold enterNameText
            repeat' split
            all_goals (refine quiet_effect g _ rfl rfl ?_; intro e; first | exact playing_not_over e | simp_all)
          · exact quiet_effect g g rfl rfl playing_not_over
        | cardPressed i =>
          simp only
          split
          · unfold cardPress
            repeat' split
            all_goals first
              | exact quiet_effect g g rfl rfl playing_not_over
              | exact handleCardClick_effect g _
          · exact quiet_effect g g rfl rfl playing_not_over
        | activated b => exact activate_effect pol w g b
        | continuePressed => simp only; split <;> (refine quiet_effect g _ rfl rfl ?_; intro e; first | exact playing_not_over e | simp_all)
        | contactBack => simp only; split <;> (refine quiet_effect g _ rfl rfl ?_; intro e; first | exact playing_not_over e | simp_all)


theorem processCardMatch_mode (pol : ScorePolicy) (w : World) (g : Game) :
    (processCardMatch pol w g).currentState = g.currentState ∨
      (processCardMatch pol w g).currentState = GameState.GAME_OVER_WIN := by
  unfold processCardMatch
  split
  · split
    · exact Or.inl rfl
    · split
      · simp only []
        split
        · exact Or.inr (winGame_fields pol w _).2.2.1
        · split <;> exact Or.inl rfl
      · simp only []
        split <;> exact Or.inl rfl
  · exact Or.inl rfl

theorem update_mode (pol : ScorePolicy) (w : World) (dt : Nat) (g : Game) :
    (update pol w dt g).currentState = g.currentState ∨
      (g.currentState = GameState.PLAYING ∧
        (update pol w dt g).currentState = GameState.GAME_OVER_WIN) := by
  unfold update
  split
  · next hs =>
    simp only []
    repeat' split
    all_goals first
      | exact Or.inl rfl
      | (rcases processCardMatch_mode pol w
            (startChecking (finishFlip (advanceFlip (updateStats pol (recordElapsed g)) dt)))
          with e | e
         · exact Or.inl e
         · exact Or.inr ⟨hs, e⟩)
      | (rcases processCardMatch_mode pol w (startChecking (finishFlip (advanceFlip g dt)))
          with e | e
         · exact Or.inl e
         · exact Or.inr ⟨hs, e⟩)
  · exact Or.inl rfl

theorem step_modes (pol : ScorePolicy) (w : World) (g : Game) (inp : Input)
    (h : SessionInv g) :
    (step pol w g inp).currentState = g.currentState ∨
      HubMode (step pol w g inp).currentState ∨
      (g.currentState = GameState.ENTER_NAME ∧ step pol w g inp = createPlayer g) ∨
      (inp = .event (.activated .startGame) ∧ g.currentState = GameState.SETUP ∧
        g.player.isSome = true ∧ g.windowOpen = true ∧
        step pol w g inp = leavePause (resetGame w g)) ∨
      (inp = .event (.activated .resume) ∧ g.currentState = GameState.PAUSED ∧
        step pol w g inp = leavePause g) ∨
      (inp = .event (.activated .pause) ∧ g.currentState = GameState.PLAYING ∧
        step pol w g inp = enterPause g) ∨
      (inp = .event (.activated .surrender) ∧ g.currentState = GameState.PLAYING ∧
        g.isGameActive = true ∧ step pol w g inp = surrenderGame pol w g ∧
        (step pol w g inp).currentState = GameState.GAME_OVER_LOSE) ∨
      (g.currentState = GameState.PLAYING ∧ (∃ dt : Nat, inp = .tick dt) ∧
        (step pol w g inp).currentState = GameState.GAME_OVER_WIN) := by
  cases hw : g.windowOpen
  · rw [step_closed pol w g inp hw]; exact Or.inl rfl
  · cases inp with
    | tick dt =>
      have e : step pol w g (.tick dt) = update pol w dt (passTime g dt) := by simp [step, hw]
      rw [e]
      rcases update_mode pol w dt (passTime g dt) with e1 | ⟨e1, e2⟩
      · exact Or.inl e1
      · exact Or.inr (Or.inr (Or.inr (Or.inr (Or.inr (Or.inr (Or.inr ⟨e1, ⟨dt, rfl⟩, e2⟩))))))
    | event e =>
      have hstep : step pol w g (.event e) = handleEvent pol w g e := by simp [step, hw]
      rw [hstep]
      unfold handleEvent
      split
      · exact Or.inl rfl
      · cases e with
        | closed => exact Or.inl rfl
        | textEntered u =>
          simp only
          split
          · next hs =>
            unfold enterNameText
            repeat' split
            all_goals first
              | exact Or.inl rfl
              | exact Or.inr (Or.inr (Or.inl ⟨hs, rfl⟩))
          · exact Or.inl rfl
        | cardPressed i =>
          simp only
          split
          · unfold cardPress
            repeat' split
            all_goals first
              | exact Or.inl rfl
              | exact Or.inl (handleCardClick_modes g _).1
          · exact Or.inl rfl
        | activated b =>
          cases b <;> dsimp only [activate] <;>
            first
            | exact Or.inl rfl
            | (split
               · next hs =>
                 first
                 | exact Or.inr (Or.inl (Or.inl rfl))
                 | exact Or.inr (Or.inl (Or.inr (Or.inl rfl)))
                 | exact Or.inr (Or.inl (Or.inr (Or.inr (Or.inl rfl))))
                 | exact Or.inr (Or.inl (Or.inr (Or.inr (Or.inr (Or.inl rfl)))))
                 | exact Or.inr (Or.inl (Or.inr (Or.inr (Or.inr (Or.inr rfl)))))
                 | exact Or.inl rfl
                 | (unfold cycleDifficulty; split <;> exact Or.inl rfl)
                 | (unfold cycleTheme; split <;> exact Or.inl rfl)
                 | (unfold startGameAction; split
                    · next hp =>
                      exact Or.inr (Or.inr (Or.inr (Or.inl ⟨rfl, hs, hp, rfl, rfl⟩)))
                    · exact Or.inl rfl)
                 | (unfold pauseGame; rw [if_pos hs]
                    exact Or.inr (Or.inr (Or.inr (Or.inr (Or.inr (Or.inl ⟨rfl, hs, rfl⟩))))))
                 | (unfold resumeGame; rw [if_pos hs]
                    exact Or.inr (Or.inr (Or.inr (Or.inr (Or.inl ⟨rfl, hs, rfl⟩)))))
                 | (have ha := h.2.running hs
                    exact Or.inr (Or.inr (Or.inr (Or.inr (Or.inr (Or.inr (Or.inl
                      ⟨rfl, hs, ha, rfl,
                        congrArg SessionView.currentState
                          (surrenderGame_active pol w g ha).1⟩)))))))
               · exact Or.inl rfl)
        | continuePressed =>
          simp only
          split
          · exact Or.inr (Or.inl (Or.inl rfl))
          · exact Or.inl rfl
        | contactBack =>
          simp only
          split
          · rcases h.1 with e | e
            · exact Or.inr (Or.inl (Or.inl e))
            · exact Or.inr (Or.inl (Or.inr (Or.inr (Or.inr (Or.inl e)))))
          · exact Or.inl rfl

/-! ## Lemmas on the count of matched pairs -/

theorem reachable_play (pol : ScorePolicy) (steps : List (World × Input)) :
    ∀ g : Game, Reachable pol g → Reachable pol (play pol g steps) := by
  induction steps with
  | nil => intro g h; exact h
  | cons s rest ih => intro g h; exact ih _ (Reachable.step s.1 s.2 h)

theorem processCardMatch_matchedPairs_le (pol : ScorePolicy) (w : World) (g : Game) :
    g.matchedPairs ≤ (processCardMatch pol w g).matchedPairs := by
  unfold processCardMatch
  split
  · split
    · exact le_refl _
    · split
      · simp only []
        split
        · rw [(winGame_fields pol w _).2.2.2.1]
          show g.matchedPairs ≤ g.matchedPairs + 1
          omega
        · split <;> (show g.matchedPairs ≤ g.matchedPairs + 1; omega)
      · simp only []
        split <;> exact le_refl _
  · exact le_refl _

theorem update_matchedPairs_le (pol : ScorePolicy) (w : World) (dt : Nat) (g : Game) :
    g.matchedPairs ≤ (update pol w dt g).matchedPairs := by
  unfold update
  split
  · simp only []
    repeat' split
    all_goals first
      | exact le_refl _
      | exact processCardMatch_matchedPairs_le pol w
          (startChecking (finishFlip (advanceFlip (updateStats pol (recordElapsed g)) dt)))
      | exact processCardMatch_matchedPairs_le pol w (startChecking (finishFlip (advanceFlip g dt)))
  · exact le_refl _

theorem handleCardClick_matchedPairs (g : Game) (i : Int) :
    (handleCardClick g i).matchedPairs = g.matchedPairs := by
  unfold handleCardClick
  repeat' split
  all_goals first | rfl | (simp only []; split <;> rfl)

theorem surrenderGame_matchedPairs (pol : ScorePolicy) (w : World) (g : Game) :
    (surrenderGame pol w g).matchedPairs = g.matchedPairs := by
  cases ha : g.isGameActive
  · rw [surrenderGame_inactive pol w g ha]
  · exact congrArg SessionView.matchedPairs (surrenderGame_active pol w g ha).1

theorem step_matchedPairs_le (pol : ScorePolicy) (w : World) (g : Game) (inp : Input)
    (hr : isReset g inp = false) : g.matchedPairs ≤ (step pol w g inp).matchedPairs := by
  cases hw : g.windowOpen
  · rw [step_closed pol w g inp hw]
  · cases inp with
    | tick dt =>
      have e : step pol w g (.tick dt) = update pol w dt (passTime g dt) := by simp [step, hw]
      rw [e]
      exact update_matchedPairs_le pol w dt (passTime g dt)
    | event e =>
      have hstep : step pol w g (.event e) = handleEvent pol w g e := by simp [step, hw]
      rw [hstep]
      unfold handleEvent
      split
      · exact le_refl _
      · cases e with
        | closed => exact le_refl _
        | textEntered u =>
          simp only
          split
          · unfold enterNameText
            repeat' split
            all_goals exact le_refl _
          · exact le_refl _
        | cardPressed i =>
          simp only
          split
          · unfold cardPress
            repeat' split
            all_goals first
              | exact le_refl _
              | exact le_of_eq (handleCardClick_matchedPairs g _).symm
          · exact le_refl _
        | activated b =>
          cases b <;> dsimp only [activate] <;>
            first
            | exact le_refl _
            | (split
               · next hs =>
                 first
                 | exact le_refl _
                 | exact le_of_eq (surrenderGame_matchedPairs pol w g).symm
                 | (unfold cycleDifficulty; split <;> exact le_refl _)
                 | (unfold cycleTheme; split <;> exact le_refl _)
                 | (unfold pauseGame; split <;> exact le_refl _)
                 | (unfold resumeGame; split <;> exact le_refl _)
                 | (unfold startGameAction; split
                    · next hp =>
                      simp [isReset, hw, hs, hp] at hr
                    · exact le_refl _)
               · exact le_refl _)
        | continuePressed => simp only; split <;> exact le_refl _
        | contactBack => simp only; split <;> exact le_refl _

theorem play_matchedPairs_le (pol : ScorePolicy) (steps : List (World × Input)) :
    ∀ g : Game, ResetFree pol g steps → g.matchedPairs ≤ (play pol g steps).matchedPairs := by
  induction steps with
  | nil => intro g _; exact le_refl _
  | cons s rest ih =>
    intro g h
    exact le_trans (step_matchedPairs_le pol s.1 g s.2 h.1) (ih _ h.2)

theorem step_reset (pol : ScorePolicy) (w : World) (g : Game) (inp : Input)
    (hr : isReset g inp = true) : step pol w g inp = leavePause (resetGame w g) := by
  simp only [isReset, Bool.and_eq_true, decide_eq_true_eq] at hr
  obtain ⟨⟨⟨h1, h2⟩, h3⟩, h4⟩ := hr
  subst h1
  simp [step, handleEvent, activate, startGameAction, h2, h3, h4]

/-! ## Claim on the count of matched pairs -/

/-- C24: in every state reachable from the initial state through input events and update
ticks, `0 ≤ matchedPairs ≤ totalPairs`; over a run of steps none of which resets the session
`matchedPairs` does not decrease; and a step that resets the session sets it to 0. -/
theorem matchedPairs_bounded_monotone (pol : ScorePolicy) :
    (∀ g : Game, Reachable pol g → 0 ≤ g.matchedPairs ∧ g.matchedPairs ≤ g.totalPairs) ∧
      (∀ (g : Game) (steps : List (World × Input)), ResetFree pol g steps →
        g.matchedPairs ≤ (play pol g steps).matchedPairs) ∧
      (∀ (g : Game) (w : World) (inp : Input), isReset g inp = true →
        (step pol w g inp).matchedPairs = 0) := by
  refine ⟨?_, ?_, ?_⟩
  · intro g h
    have hi := (reachable_sessionInv pol g h).2
    exact ⟨hi.pairs_nonneg, hi.pairs_le⟩
  · intro g steps h
    exact play_matchedPairs_le pol steps g h
  · intro g w inp hr
    rw [step_reset pol w g inp hr]
    rfl

set_option maxRecDepth 100000 in
/-- Witness for C24: the example session with one pair found is reachable and has 1 of 6
pairs; the move that found the pair contains no reset and took the count from 0 to 1. -/
theorem matchedPairs_bounded_monotone_witness :
    Reachable examplePolicy onePairFound ∧
      (0 ≤ onePairFound.matchedPairs ∧ onePairFound.matchedPairs ≤ onePairFound.totalPairs) ∧
      ResetFree examplePolicy freshEasy oneMoveSteps ∧
      freshEasy.matchedPairs ≤ (play examplePolicy freshEasy oneMoveSteps).matchedPairs ∧
      (play examplePolicy freshEasy oneMoveSteps).matchedPairs = 1 :=
  have hr : Reachable examplePolicy onePairFound :=
    reachable_run _ _ _ _ (reachable_run _ _ _ _ (Reachable.init _ _))
  have hf : ResetFree examplePolicy freshEasy oneMoveSteps :=
    ⟨by decide, by decide, by decide, by decide, trivial⟩
  ⟨hr, (matchedPairs_bounded_monotone examplePolicy).1 onePairFound hr, hf,
    (matchedPairs_bounded_monotone examplePolicy).2.1 freshEasy oneMoveSteps hf, by decide⟩

/-! ## Lemmas on the pending selection -/

theorem cardPress_rejected (g : Game) (i : Nat)
    (h : g.isFlipping = true ∨ ∀ c : CardSprite, g.cards[i]? = some c →
      c.state ≠ CardState.HIDDEN) : cardPress g i = g := by
  unfold cardPress
  split
  · next c hc =>
    rcases h with h | h
    · simp [h]
    · have := h c hc
      simp [this]
  · rfl

theorem pending_press_rejected (pol : ScorePolicy) (w : World) (g : Game) (i : Nat)
    (h : SessionInv g) (hne : g.currentState ≠ GameState.EXIT) (hi : i ∈ pending g) :
    step pol w g (.event (.cardPressed i)) = g := by
  cases hw : g.windowOpen
  · exact step_closed pol w g _ hw
  · have hstep : step pol w g (.event (.cardPressed i)) = handleEvent pol w g (.cardPressed i) := by
      simp [step, hw]
    rw [hstep]
    unfold handleEvent
    rw [if_neg hne]
    simp only
    split
    · next hs =>
      apply cardPress_rejected
      obtain ⟨_, _, _, hshape⟩ := h.2.inplay (Or.inl hs)
      rcases hshape with ⟨_, a2, a3, _⟩ | ⟨_, b2, j, b3, _, b5⟩ | ⟨_, c2, _⟩
      · have a2 : g.firstCard = none := a2
        have a3 : g.secondCard = none := a3
        simp [pending, a2, a3] at hi
      · have b2 : g.secondCard = none := b2
        have b3 : g.firstCard = some j := b3
        simp [pending, b2, b3] at hi
        subst hi
        exact Or.inr b5
      · exact Or.inl c2
    · rfl

/-! ## Claim on the pending selection -/

/-- C25: in every reachable state the pending selection holds at most two cards and no card
twice; when two cards are pending they are two different cards, `selectedCard1` and
`selectedCard2` are their indices and differ; and a press on a pending card is rejected,
so no card is compared with itself. -/
theorem pending_cards_distinct (pol : ScorePolicy) (g : Game) (h : Reachable pol g) :
    (pending g).length ≤ 2 ∧ (pending g).Nodup ∧
      (∀ i j : Nat, g.firstCard = some i → g.secondCard = some j →
        i ≠ j ∧ g.selectedCard1 = (i : Int) ∧ g.selectedCard2 = (j : Int) ∧
        g.selectedCard1 ≠ g.selectedCard2) ∧
      (∀ (w : World) (i : Nat), i ∈ pending g →
        step pol w g (.event (.cardPressed i)) = g) := by
  have hi := reachable_sessionInv pol g h
  have hd : ∀ i j : Nat, g.firstCard = some i → g.secondCard = some j →
      i ≠ j ∧ g.selectedCard1 = (i : Int) ∧ g.selectedCard2 = (j : Int) := hi.2.distinct
  refine ⟨?_, ?_, ?_, ?_⟩
  · cases h1 : g.firstCard <;> cases h2 : g.secondCard <;> simp [pending, h1, h2]
  · cases h1 : g.firstCard with
    | none => cases h2 : g.secondCard <;> simp [pending, h1, h2]
    | some i =>
      cases h2 : g.secondCard with
      | none => simp [pending, h1, h2]
      | some j =>
        simp only [pending, h1, h2, Option.toList_some, List.singleton_append,
          List.nodup_cons, List.mem_singleton, List.not_mem_nil, not_false_eq_true,
          List.nodup_nil, and_true]
        exact (hd i j h1 h2).1
  · intro i j h1 h2
    obtain ⟨e1, e2, e3⟩ := hd i j h1 h2
    refine ⟨e1, e2, e3, ?_⟩
    rw [e2, e3]
    exact fun e => e1 (Int.ofNat.inj e)
  · intro w i hmem
    exact pending_press_rejected pol w g i hi (reachable_noExit pol g h).1 hmem

set_option maxRecDepth 100000 in
/-- Witness for C25: in the example session with the cards 1 and 3 turned over the pending
cards are 1 and 3, and a press on card 1 changes nothing. -/
theorem pending_cards_distinct_witness :
    Reachable examplePolicy twoCardsUp ∧ pending twoCardsUp = [1, 3] ∧
      twoCardsUp.selectedCard1 ≠ twoCardsUp.selectedCard2 ∧
      step examplePolicy exampleWorld twoCardsUp (.event (.cardPressed 1)) = twoCardsUp :=
  have hr : Reachable examplePolicy twoCardsUp :=
    reachable_run _ _ _ _ (reachable_run _ _ _ _ (Reachable.init _ _))
  ⟨hr, by decide,
    ((pending_cards_distinct examplePolicy twoCardsUp hr).2.2.1 1 3 (by decide)
      (by decide)).2.2.2,
    (pending_cards_distinct examplePolicy twoCardsUp hr).2.2.2 exampleWorld 1 (by decide)⟩

/-! ## Lemmas on the end of a session -/

theorem step_inSession (pol : ScorePolicy) (w : World) (g : Game) (inp : Input)
    (h : SessionInv g) (hr : isReset g inp = false) (hin : InSession (step pol w g inp)) :
    InSession g := by
  unfold InSession at hin ⊢
  rcases step_modes pol w g inp h with e | e | ⟨_, e⟩ | ⟨e1, e2, e3, e4, _⟩ | ⟨_, e, _⟩ |
      ⟨_, e, _⟩ | ⟨_, _, _, _, e⟩ | ⟨_, _, e⟩
  · rw [e] at hin; exact hin
  · rcases e with e | e | e | e | e <;> rw [e] at hin <;> simp at hin
  · rw [e] at hin; simp at hin
  · simp [isReset, e1, e2, e3, e4] at hr
  · exact Or.inr e
  · exact Or.inl e
  · rw [e] at hin; simp at hin
  · rw [e] at hin; simp at hin

theorem step_session_count (pol : ScorePolicy) (w : World) (g : Game) (inp : Input)
    (h : SessionInv g) (hr : isReset g inp = false) :
    endSignals (step pol w g inp) + (if InSession (step pol w g inp) then 1 else 0) ≤
        endSignals g + (if InSession g then 1 else 0) ∧
      endSignals g ≤ endSignals (step pol w g inp) ∧
      saveSignals (step pol w g inp) + endSignals g ≤
        saveSignals g + endSignals (step pol w g inp) ∧
      storedRows (step pol w g inp) + endSignals g ≤
        storedRows g + endSignals (step pol w g inp) := by
  obtain ⟨new, hsig, heff⟩ := step_effect pol w g inp
  have hends : endSignals (step pol w g inp) =
      endSignals g + (new.count Signal.gameWin + new.count Signal.gameLose) := by
    simp only [endSignals, hsig, List.count_append]; omega
  have hsaves : saveSignals (step pol w g inp) = saveSignals g + new.countP isSave := by
    simp only [saveSignals, hsig, List.countP_append]
  rw [hends, hsaves]
  rcases heff with ⟨q1, q2, q3, q4, _⟩ | ⟨hs, hs1, _, _, _, saves, hn, hsave⟩ |
      ⟨hs, _, hs1, saves, hn, hsave⟩
  · rw [q1, q2, q3, q4]
    refine ⟨?_, by omega, by omega, by omega⟩
    by_cases hin : InSession (step pol w g inp)
    · rw [if_pos hin, if_pos (step_inSession pol w g inp h hr hin)]
    · rw [if_neg hin]; split <;> omega
  · have hin : InSession g := Or.inl hs
    have hout : ¬ InSession (step pol w g inp) := by
      unfold InSession; rw [hs1]; simp
    rw [if_pos hin, if_neg hout]
    rcases hsave with ⟨e1, e2⟩ | ⟨r, e1, _, _, e2⟩
    · subst e1
      have c1 : new.count Signal.gameWin = 1 := by rw [hn]; decide
      have c2 : new.count Signal.gameLose = 0 := by rw [hn]; decide
      have c3 : new.countP isSave = 0 := by rw [hn]; rfl
      rw [c1, c2, c3, e2]; omega
    · subst e1
      have c1 : new.count Signal.gameWin = 1 := by
        rw [hn]; simp [List.count_cons]
      have c2 : new.count Signal.gameLose = 0 := by
        rw [hn]; simp [List.count_cons]
      have c3 : new.countP isSave = 1 := by
        rw [hn]; simp [List.countP_cons, isSave]
      rw [c1, c2, c3]; omega
  · have hin : InSession g := Or.inl hs
    have hout : ¬ InSession (step pol w g inp) := by
      unfold InSession; rw [hs1]; simp
    rw [if_pos hin, if_neg hout]
    rcases hsave with ⟨e1, e2⟩ | ⟨r, e1, _, _, e2⟩
    · subst e1
      have c1 : new.count Signal.gameWin = 0 := by rw [hn]; decide
      have c2 : new.count Signal.gameLose = 1 := by rw [hn]; decide
      have c3 : new.countP isSave = 0 := by rw [hn]; rfl
      rw [c1, c2, c3, e2]; omega
    · subst e1
      have c1 : new.count Signal.gameWin = 0 := by
        rw [hn]; simp [List.count_cons]
      have c2 : new.count Signal.gameLose = 1 := by
        rw [hn]; simp [List.count_cons]
      have c3 : new.countP isSave = 1 := by
        rw [hn]; simp [List.countP_cons, isSave]
      rw [c1, c2, c3]; omega

theorem play_session_count (pol : ScorePolicy) (steps : List (World × Input)) :
    ∀ g : Game, SessionInv g → ResetFree pol g steps →
      endSignals (play pol g steps) + (if InSession (play pol g steps) then 1 else 0) ≤
          endSignals g + (if InSession g then 1 else 0) ∧
        endSignals g ≤ endSignals (play pol g steps) ∧
        saveSignals (play pol g steps) + endSignals g ≤
          saveSignals g + endSignals (play pol g steps) ∧
        storedRows (play pol g steps) + endSignals g ≤
          storedRows g + endSignals (play pol g steps) := by
  induction steps with
  | nil => intro g _ _; exact ⟨le_refl _, le_refl _, le_refl _, le_refl _⟩
  | cons s rest ih =>
    intro g h hf
    obtain ⟨a1, a2, a3, a4⟩ := step_session_count pol s.1 g s.2 h hf.1
    obtain ⟨b1, b2, b3, b4⟩ := ih _ (step_sessionInv pol s.1 g s.2 h) hf.2
    have e : play pol g (s :: rest) = play pol (step pol s.1 g s.2) rest := rfl
    rw [e]
    refine ⟨by omega, by omega, by omega, by omega⟩

/-! ## Claim on the end of a session -/

/-- C26: between two session resets at most one result is finalized and persisted. From a
reachable state, over every run of steps none of which resets the session, at most one win
or lose sound is played (a session ends once, by a win or by a surrender), `saveGame` is
called at most once and the database gets at most one row; a save happens only together
with such an end; and outside a session in play or paused nothing of this happens at all. -/
theorem one_result_per_session (pol : ScorePolicy) (g : Game) (h : Reachable pol g)
    (steps : List (World × Input)) (hfree : ResetFree pol g steps) :
    endSignals (play pol g steps) ≤ endSignals g + 1 ∧
      saveSignals (play pol g steps) ≤ saveSignals g + 1 ∧
      storedRows (play pol g steps) ≤ storedRows g + 1 ∧
      saveSignals (play pol g steps) + endSignals g ≤
        saveSignals g + endSignals (play pol g steps) ∧
      (¬ InSession g →
        endSignals (play pol g steps) = endSignals g ∧
        saveSignals (play pol g steps) ≤ saveSignals g ∧
        storedRows (play pol g steps) ≤ storedRows g) := by
  obtain ⟨a1, a2, a3, a4⟩ :=
    play_session_count pol steps g (reachable_sessionInv pol g h) hfree
  have hle : endSignals (play pol g steps) ≤ endSignals g + (if InSession g then 1 else 0) := by
    omega
  refine ⟨?_, ?_, ?_, a3, ?_⟩
  · split at hle <;> omega
  · split at hle <;> omega
  · split at hle <;> omega
  · intro hout
    rw [if_neg hout] at hle
    refine ⟨by omega, by omega, by omega⟩

set_option maxRecDepth 100000 in
/-- Witness for C26: in the example session with one pair found the player surrenders and
goes on to the name entry; one result is saved. -/
theorem one_result_per_session_witness :
    Reachable examplePolicy onePairFound ∧ ResetFree examplePolicy onePairFound surrenderSteps ∧
      saveSignals (play examplePolicy onePairFound surrenderSteps) ≤
        saveSignals onePairFound + 1 ∧
      saveSignals (play examplePolicy onePairFound surrenderSteps) = 1 ∧
      storedRows (play examplePolicy onePairFound surrenderSteps) = 1 :=
  have hr : Reachable examplePolicy onePairFound :=
    reachable_run _ _ _ _ (reachable_run _ _ _ _ (Reachable.init _ _))
  have hf : ResetFree examplePolicy onePairFound surrenderSteps :=
    ⟨by decide, by decide, by decide, trivial⟩
  ⟨hr, hf, (one_result_per_session examplePolicy onePairFound hr surrenderSteps hf).2.1,
    by decide, by decide⟩

/-! ## Lemmas on entering play -/

theorem step_setup_frame (pol : ScorePolicy) (w : World) (g : Game) (inp : Input)
    (hs : g.currentState = GameState.SETUP)
    (hs1 : (step pol w g inp).currentState = GameState.SETUP) :
    (step pol w g inp).player = g.player ∧
      (step pol w g inp).playerNameInput = g.playerNameInput := by
  cases hw : g.windowOpen
  · rw [step_closed pol w g inp hw]; exact ⟨rfl, rfl⟩
  · cases inp with
    | tick dt => simp [step, update, hs, hw]
    | event e =>
      cases e with
      | closed => simp [step, handleEvent, hs, hw]
      | textEntered u => simp [step, handleEvent, hs, hw]
      | cardPressed i => simp [step, handleEvent, hs, hw]
      | continuePressed => simp [step, handleEvent, hs, hw]
      | contactBack => simp [step, handleEvent, hs, hw]
      | activated b =>
        cases b <;> simp [step, handleEvent, activate, hs, hw] at hs1 ⊢
        · unfold cycleDifficulty; split <;> exact ⟨rfl, rfl⟩
        · unfold cycleTheme; split <;> exact ⟨rfl, rfl⟩
        · unfold startGameAction at hs1 ⊢
          split
          · next hp => rw [if_pos hp] at hs1; simp at hs1
          · exact ⟨rfl, rfl⟩

theorem step_setupFresh (pol : ScorePolicy) (w : World) (g : Game) (inp : Input)
    (h : SessionInv g) (hf : SetupFresh g) : SetupFresh (step pol w g inp) := by
  intro hs1
  rcases step_modes pol w g inp h with e | e | ⟨_, e⟩ | ⟨_, _, _, _, e⟩ | ⟨_, _, e⟩ |
      ⟨_, _, e⟩ | ⟨_, _, _, _, e⟩ | ⟨_, _, e⟩
  · have hs : g.currentState = GameState.SETUP := e ▸ hs1
    obtain ⟨e1, e2⟩ := step_setup_frame pol w g inp hs hs1
    rw [e1, e2]
    exact hf hs
  · rw [hs1] at e
    rcases e with e | e | e | e | e <;> exact GameState.noConfusion e
  · rw [e]; rfl
  · rw [e] at hs1; exact GameState.noConfusion hs1
  · rw [e] at hs1; exact GameState.noConfusion hs1
  · rw [e] at hs1; exact GameState.noConfusion hs1
  · rw [e] at hs1; exact GameState.noConfusion hs1
  · rw [e] at hs1; exact GameState.noConfusion hs1

theorem reachable_setupFresh (pol : ScorePolicy) (g : Game) (h : Reachable pol g) :
    SetupFresh g := by
  induction h with
  | init db b => intro e; simp [Game.init] at e
  | step w inp hg ih => exact step_setupFresh pol w _ inp (reachable_sessionInv pol _ hg) ih

theorem game_eta (g : Game) :
    { g with gameClock := g.gameClock, windowOpen := g.windowOpen } = g := by
  cases g; rfl

theorem step_paused_frame (pol : ScorePolicy) (w : World) (g : Game) (inp : Input)
    (hs : g.currentState = GameState.PAUSED)
    (hs1 : (step pol w g inp).currentState = GameState.PAUSED) :
    ∃ (c : Nat) (wo : Bool), step pol w g inp = { g with gameClock := c, windowOpen := wo } := by
  cases hw : g.windowOpen
  · rw [step_closed pol w g inp hw]; exact ⟨_, _, (game_eta g).symm⟩
  · cases inp with
    | tick dt =>
      have e : step pol w g (.tick dt) = passTime g dt := by simp [step, update, hs, hw]
      rw [e]
      exact ⟨g.gameClock + dt, g.windowOpen, rfl⟩
    | event e =>
      cases e with
      | closed =>
        have e : step pol w g (.event .closed) = closeWindow g := by
          simp [step, handleEvent, hs, hw]
        rw [e]
        exact ⟨g.gameClock, false, rfl⟩
      | textEntered u =>
        exact ⟨_, _, by rw [game_eta]; simp [step, handleEvent, hs, hw]⟩
      | cardPressed i =>
        exact ⟨_, _, by rw [game_eta]; simp [step, handleEvent, hs, hw]⟩
      | continuePressed =>
        exact ⟨_, _, by rw [game_eta]; simp [step, handleEvent, hs, hw]⟩
      | contactBack =>
        exact ⟨_, _, by rw [game_eta]; simp [step, handleEvent, hs, hw]⟩
      | activated b =>
        refine ⟨g.gameClock, g.windowOpen, ?_⟩
        rw [game_eta]
        cases b <;> simp [step, handleEvent, activate, hs, hw, resumeGame] at hs1 ⊢

theorem paused_play (pol : ScorePolicy) (steps : List (World × Input)) :
    ∀ g : Game, g.currentState = GameState.PAUSED → AllPaused pol g steps →
      ∃ (c : Nat) (wo : Bool), play pol g steps = { g with gameClock := c, windowOpen := wo } := by
  induction steps with
  | nil => intro g _ _; exact ⟨_, _, (game_eta g).symm⟩
  | cons s rest ih =>
    intro g hs ha
    obtain ⟨c, wo, e⟩ := step_paused_frame pol s.1 g s.2 hs ha.1
    obtain ⟨c1, wo1, e1⟩ := ih _ ha.1 ha.2
    refine ⟨c1, wo1, ?_⟩
    show play pol (step pol s.1 g s.2) rest = _
    rw [e1, e]

theorem resetGame_player (w : World) (g : Game) :
    (resetGame w g).player = g.player.map Player.startGame := rfl

/-! ## Claim on entering play -/

/-- C27: every transition into mode `PLAYING` from a reachable state is either the Start
action in mode `SETUP`, which runs `resetGame` (so `moves = 0`, `matchedPairs = 0`, `hasWon`
false, all cards Hidden) for the player just created from the name buffer, or Resume from
`PAUSED`. Mode `PAUSED` is entered only by Pause from a session in play, a step that stays
in `PAUSED` changes only the game clock or the window, and Resume after any such steps gives
the session back exactly as it was when play was paused, with the game clock restarted. -/
theorem playing_fresh_or_resumed (pol : ScorePolicy) (g : Game) (h : Reachable pol g)
    (w : World) (inp : Input) :
    ((step pol w g inp).currentState = GameState.PLAYING →
      g.currentState ≠ GameState.PLAYING →
      (inp = .event (.activated .startGame) ∧ g.currentState = GameState.SETUP ∧
        g.player = some (Player.create g.playerNameInput) ∧
        step pol w g inp = leavePause (resetGame w g) ∧
        (step pol w g inp).moves = 0 ∧ (step pol w g inp).matchedPairs = 0 ∧
        (step pol w g inp).hasWon = false ∧
        (∀ c ∈ (step pol w g inp).cards, c.state = CardState.HIDDEN) ∧
        (step pol w g inp).player = some (Player.create g.playerNameInput)) ∨
      (inp = .event (.activated .resume) ∧ g.currentState = GameState.PAUSED ∧
        step pol w g inp = leavePause g)) ∧
    ((step pol w g inp).currentState = GameState.PAUSED →
      g.currentState ≠ GameState.PAUSED →
      inp = .event (.activated .pause) ∧ g.currentState = GameState.PLAYING ∧
        g.isGameActive = true ∧ step pol w g inp = enterPause g) ∧
    (g.currentState = GameState.PAUSED →
      (step pol w g inp).currentState = GameState.PAUSED →
      ∃ (c : Nat) (wo : Bool), step pol w g inp = { g with gameClock := c, windowOpen := wo }) ∧
    (g.currentState = GameState.PLAYING → g.windowOpen = true →
      ∀ mid : List (World × Input), AllPaused pol (enterPause g) mid →
        (play pol (enterPause g) mid).windowOpen = true →
        step pol w (play pol (enterPause g) mid) (.event (.activated .resume)) =
          { g with gameClock := 0 }) := by
  have hi := reachable_sessionInv pol g h
  refine ⟨?_, ?_, ?_, ?_⟩
  · intro hs1 hs
    rcases step_modes pol w g inp hi with e | e | ⟨_, e⟩ | ⟨e1, e2, e3, _, e⟩ | ⟨e1, e2, e⟩ |
        ⟨_, _, e⟩ | ⟨_, _, _, _, e⟩ | ⟨_, _, e⟩
    · exact absurd (e ▸ hs1) hs
    · rw [hs1] at e
      rcases e with e | e | e | e | e <;> exact GameState.noConfusion e
    · rw [e] at hs1; exact GameState.noConfusion hs1
    · left
      have hp := reachable_setupFresh pol g h e2
      refine ⟨e1, e2, hp, e, ?_⟩
      rw [e]
      refine ⟨rfl, rfl, rfl, ?_, ?_⟩
      · intro c hc
        have hc1 : c ∈ (resetGame w g).cards := hc
        obtain ⟨k, hk, hkc⟩ := List.getElem_of_mem hc1
        exact (resetGame_cards_mem w g k c (by rw [List.getElem?_eq_getElem hk, hkc])).1
      · show (resetGame w g).player = _
        rw [resetGame_player, hp]
        rfl
    · exact Or.inr ⟨e1, e2, e⟩
    · rw [e] at hs1; exact GameState.noConfusion hs1
    · rw [e] at hs1; exact GameState.noConfusion hs1
    · rw [e] at hs1; exact GameState.noConfusion hs1
  · intro hs1 hs
    rcases step_modes pol w g inp hi with e | e | ⟨_, e⟩ | ⟨_, _, _, _, e⟩ | ⟨_, _, e⟩ |
        ⟨e1, e2, e⟩ | ⟨_, _, _, _, e⟩ | ⟨_, _, e⟩
    · exact absurd (e ▸ hs1) hs
    · rw [hs1] at e
      rcases e with e | e | e | e | e <;> exact GameState.noConfusion e
    · rw [e] at hs1; exact GameState.noConfusion hs1
    · rw [e] at hs1; exact GameState.noConfusion hs1
    · rw [e] at hs1; exact GameState.noConfusion hs1
    · exact ⟨e1, e2, hi.2.running e2, e⟩
    · rw [e] at hs1; exact GameState.noConfusion hs1
    · rw [e] at hs1; exact GameState.noConfusion hs1
  · intro hs hs1
    exact step_paused_frame pol w g inp hs hs1
  · intro hs hw mid hmid hopen
    obtain ⟨c, wo, e⟩ := paused_play pol mid (enterPause g) rfl hmid
    rw [e] at hopen ⊢
    have hwo : wo = true := hopen
    subst hwo
    have ha : g.isGameActive = true := hi.2.running hs
    have e2 : step pol w { enterPause g with gameClock := c, windowOpen := true }
        (.event (.activated .resume)) =
        leavePause { enterPause g with gameClock := c, windowOpen := true } := by
      simp [step, handleEvent, activate, resumeGame]
    rw [e2]
    cases g
    simp only [leavePause, enterPause] at *
    subst hs hw ha
    rfl

set_option maxRecDepth 100000 in
/-- Witness for C27: the Start action in the setup menu of player "A" enters `PLAYING` with a
reset session; the freshly started example session, paused, left for five seconds with a
press on a card, and resumed, is the session before the pause with the clock restarted. -/
theorem playing_fresh_or_resumed_witness :
    Reachable examplePolicy setupState ∧
      (step examplePolicy exampleWorld setupState
        (.event (.activated .startGame))).currentState = GameState.PLAYING ∧
      (step examplePolicy exampleWorld setupState (.event (.activated .startGame))).moves = 0 ∧
      Reachable examplePolicy freshEasy ∧
      AllPaused examplePolicy (enterPause freshEasy) pausedSteps ∧
      step examplePolicy exampleWorld (play examplePolicy (enterPause freshEasy) pausedSteps)
        (.event (.activated .resume)) = { freshEasy with gameClock := 0 } :=
  have hr : Reachable examplePolicy setupState := reachable_run _ _ _ _ (Reachable.init _ _)
  have hr1 : Reachable examplePolicy freshEasy := reachable_run _ _ _ _ (Reachable.init _ _)
  have hall : AllPaused examplePolicy (enterPause freshEasy) pausedSteps :=
    ⟨by decide, by decide, trivial⟩
  have hstart := (playing_fresh_or_resumed examplePolicy setupState hr exampleWorld
    (.event (.activated .startGame))).1 (by decide) (by decide)
  ⟨hr, by decide, hstart.elim (fun a => a.2.2.2.2.1) (fun a => absurd a.2.1 (by decide)), hr1,
    hall,
    (playing_fresh_or_resumed examplePolicy freshEasy hr1 exampleWorld (.tick 0)).2.2.2
      (by decide) (by decide) pausedSteps hall (by decide)⟩

/-! ## Claims on the game-over modes and on the saved result -/

/-- C28: the game-over modes are entered only through the win and lose signals. In every
reachable state mode `GAME_OVER_WIN` implies `hasWon`, `matchedPairs = totalPairs` and an
inactive session, and mode `GAME_OVER_LOSE` implies an inactive session; `GAME_OVER_LOSE`
is entered only by `surrenderGame` on an active session in play, which plays the lose sound,
and `GAME_OVER_WIN` only by a frame of an active session in play whose match plays the win
sound. -/
theorem game_over_by_signals (pol : ScorePolicy) (g : Game) (h : Reachable pol g) :
    (g.currentState = GameState.GAME_OVER_WIN →
      g.hasWon = true ∧ g.matchedPairs = g.totalPairs ∧ g.isGameActive = false) ∧
    (g.currentState = GameState.GAME_OVER_LOSE → g.isGameActive = false) ∧
    (∀ (w : World) (inp : Input),
      (step pol w g inp).currentState = GameState.GAME_OVER_LOSE →
      g.currentState ≠ GameState.GAME_OVER_LOSE →
      inp = .event (.activated .surrender) ∧ g.currentState = GameState.PLAYING ∧
        g.isGameActive = true ∧ step pol w g inp = surrenderGame pol w g ∧
        ∃ saves : List Signal,
          (step pol w g inp).signals = g.signals ++ ([Signal.gameLose] ++ saves)) ∧
    (∀ (w : World) (inp : Input),
      (step pol w g inp).currentState = GameState.GAME_OVER_WIN →
      g.currentState ≠ GameState.GAME_OVER_WIN →
      (∃ dt : Nat, inp = .tick dt) ∧ g.currentState = GameState.PLAYING ∧
        g.isGameActive = true ∧
        ∃ saves : List Signal,
          (step pol w g inp).signals =
            g.signals ++ ([Signal.cardMatch] ++ saves ++ [Signal.gameWin])) := by
  have hi := reachable_sessionInv pol g h
  refine ⟨hi.2.won, hi.2.lost, ?_, ?_⟩
  · intro w inp hs1 hs
    rcases step_modes pol w g inp hi with e | e | ⟨_, e⟩ | ⟨_, _, _, _, e⟩ | ⟨_, _, e⟩ |
        ⟨_, _, e⟩ | ⟨e1, e2, e3, e4, _⟩ | ⟨_, _, e⟩
    · exact absurd (e ▸ hs1) hs
    · rw [hs1] at e
      rcases e with e | e | e | e | e <;> exact GameState.noConfusion e
    · rw [e] at hs1; exact GameState.noConfusion hs1
    · rw [e] at hs1; exact GameState.noConfusion hs1
    · rw [e] at hs1; exact GameState.noConfusion hs1
    · rw [e] at hs1; exact GameState.noConfusion hs1
    · refine ⟨e1, e2, e3, e4, ?_⟩
      obtain ⟨new, hsig, heff⟩ := step_effect pol w g inp
      rcases heff with ⟨_, _, _, _, q⟩ | ⟨_, q, _⟩ | ⟨_, _, _, saves, hn, _⟩
      · exact absurd hs1 (q e2).2
      · rw [q] at hs1; exact GameState.noConfusion hs1
      · exact ⟨saves, by rw [hsig, hn]⟩
    · rw [e] at hs1; exact GameState.noConfusion hs1
  · intro w inp hs1 hs
    rcases step_modes pol w g inp hi with e | e | ⟨_, e⟩ | ⟨_, _, _, _, e⟩ | ⟨_, _, e⟩ |
        ⟨_, _, e⟩ | ⟨_, _, _, _, e⟩ | ⟨e1, e2, _⟩
    · exact absurd (e ▸ hs1) hs
    · rw [hs1] at e
      rcases e with e | e | e | e | e <;> exact GameState.noConfusion e
    · rw [e] at hs1; exact GameState.noConfusion hs1
    · rw [e] at hs1; exact GameState.noConfusion hs1
    · rw [e] at hs1; exact GameState.noConfusion hs1
    · rw [e] at hs1; exact GameState.noConfusion hs1
    · rw [e] at hs1; exact GameState.noConfusion hs1
    · refine ⟨e2, e1, hi.2.running e1, ?_⟩
      obtain ⟨new, hsig, heff⟩ := step_effect pol w g inp
      rcases heff with ⟨_, _, _, _, q⟩ | ⟨_, _, _, _, _, saves, hn, _⟩ | ⟨_, _, q, _⟩
      · exact absurd hs1 (q e1).1
      · exact ⟨saves, by rw [hsig, hn]⟩
      · rw [q] at hs1; exact GameState.noConfusion hs1

set_option maxRecDepth 100000 in
/-- Witness for C28: the surrender in the example session with one pair found enters
`GAME_OVER_LOSE`, and the frame that ends the last move of the example game enters
`GAME_OVER_WIN`. -/
theorem game_over_by_signals_witness :
    Reachable examplePolicy onePairFound ∧
      (step examplePolicy exampleWorld onePairFound
        (.event (.activated .surrender))).currentState = GameState.GAME_OVER_LOSE ∧
      onePairFound.isGameActive = true ∧
      Reachable examplePolicy (step examplePolicy exampleWorld lastMoveWithDatabase
        (.tick 300000)) ∧
      (step examplePolicy exampleWorld lastMoveWithDatabase
        (.tick 300000)).currentState = GameState.GAME_OVER_WIN ∧
      (step examplePolicy exampleWorld lastMoveWithDatabase (.tick 300000)).hasWon = true :=
  have hr : Reachable examplePolicy onePairFound :=
    reachable_run _ _ _ _ (reachable_run _ _ _ _ (Reachable.init _ _))
  have hr1 : Reachable examplePolicy
      (step examplePolicy exampleWorld lastMoveWithDatabase (.tick 300000)) :=
    Reachable.step _ _ (reachable_run _ _ _ _ (reachable_run _ _ _ _ (Reachable.init _ _)))
  ⟨hr, by decide,
    ((game_over_by_signals examplePolicy onePairFound hr).2.2.1 exampleWorld
      (.event (.activated .surrender)) (by decide) (by decide)).2.2.1,
    hr1, by decide,
    ((game_over_by_signals examplePolicy _ hr1).1 (by decide)).1⟩

/-- C29: in every reachable state `matchedPairs ≤ moves`; and when a step plays the win
sound, every record it hands to `saveGame` has `pairs = totalPairs` and
`moves ≥ totalPairs`. -/
theorem pairs_at_most_moves (pol : ScorePolicy) (g : Game) (h : Reachable pol g) :
    g.matchedPairs ≤ g.moves ∧
      ∀ (w : World) (inp : Input) (new : List Signal),
        (step pol w g inp).signals = g.signals ++ new → Signal.gameWin ∈ new →
        ∀ r : GameRecord, Signal.saveGame r ∈ new →
          r.pairs = g.totalPairs ∧ g.totalPairs ≤ r.moves ∧
          (step pol w g inp).totalPairs = g.totalPairs := by
  have hi := reachable_sessionInv pol g h
  refine ⟨hi.2.pairs_moves, ?_⟩
  intro w inp new hsig hwin r hr
  obtain ⟨new1, hsig1, heff⟩ := step_effect pol w g inp
  have hnew : new1 = new := List.append_cancel_left (hsig1.symm.trans hsig)
  subst hnew
  rcases heff with ⟨q, _⟩ | ⟨hs, hs1, hlast, h1, h2, saves, hn, hsave⟩ |
      ⟨_, _, _, saves, hn, hsave⟩
  · exact absurd hwin (List.count_eq_zero.mp q)
  · obtain ⟨_, _, hlt, hshape⟩ := hi.2.inplay (Or.inl hs)
    have hlt : g.matchedPairs < g.totalPairs := hlt
    have hmoves : g.matchedPairs < g.moves := by
      rcases hshape with ⟨_, _, a3, _⟩ | ⟨_, b2, _⟩ | ⟨_, _, _, c4⟩
      · exact absurd a3 h2
      · exact absurd b2 h2
      · exact c4
    have htp : (step pol w g inp).totalPairs = g.totalPairs := by
      have hdt : ∃ dt : Nat, inp = .tick dt := by
        rcases step_modes pol w g inp hi with e | e | ⟨e, _⟩ | ⟨_, e, _⟩ | ⟨_, e, _⟩ |
            ⟨_, _, e⟩ | ⟨_, _, _, _, e⟩ | ⟨_, e, _⟩
        · rw [hs1, hs] at e; exact GameState.noConfusion e
        · rw [hs1] at e
          rcases e with e | e | e | e | e <;> exact GameState.noConfusion e
        · rw [hs] at e; exact GameState.noConfusion e
        · rw [hs] at e; exact GameState.noConfusion e
        · rw [hs] at e; exact GameState.noConfusion e
        · rw [e] at hs1; exact GameState.noConfusion hs1
        · rw [e] at hs1; exact GameState.noConfusion hs1
        · exact e
      obtain ⟨dt, rfl⟩ := hdt
      have hl : (step pol w g (.tick dt)).layout = g.layout := by
        cases hw : g.windowOpen
        · rw [step_closed pol w g _ hw]
        · simp only [step, hw, Bool.not_true, Bool.false_eq_true, if_false]
          rw [update_layout]; rfl
      exact congrArg (fun l => l.2.2) hl
    rcases hsave with ⟨e1, _⟩ | ⟨r1, e1, e2, e3, _⟩
    · subst e1
      rw [hn] at hr
      simp at hr
    · subst e1
      rw [hn] at hr
      simp at hr
      subst hr
      refine ⟨by omega, by omega, htp⟩
  · rcases hsave with ⟨e1, _⟩ | ⟨r1, e1, _⟩
    · subst e1; rw [hn] at hwin; simp at hwin
    · subst e1; rw [hn] at hwin; simp at hwin

set_option maxRecDepth 100000 in
/-- Witness for C29: the frame that ends the last move of the example game plays the win
sound and saves a record with 6 pairs and 6 moves on a board of 6 pairs. -/
theorem pairs_at_most_moves_witness :
    Reachable examplePolicy lastMoveWithDatabase ∧
      (step examplePolicy exampleWorld lastMoveWithDatabase (.tick 300000)).signals =
        lastMoveWithDatabase.signals ++
          [Signal.cardMatch, Signal.saveGame winRecord, Signal.gameWin] ∧
      winRecord.pairs = lastMoveWithDatabase.totalPairs ∧
      lastMoveWithDatabase.totalPairs ≤ winRecord.moves :=
  have hr : Reachable examplePolicy lastMoveWithDatabase :=
    reachable_run _ _ _ _ (reachable_run _ _ _ _ (Reachable.init _ _))
  have hrec := (pairs_at_most_moves examplePolicy lastMoveWithDatabase hr).2 exampleWorld
    (.tick 300000) [Signal.cardMatch, Signal.saveGame winRecord, Signal.gameWin]
    (by decide) (by decide) winRecord (by decide)
  ⟨hr, by decide, hrec.1, hrec.2.1⟩

/-! ## Claim on the symbols of the board -/

set_option maxRecDepth 100000 in
/-- C30 fails on the code: with six images in the theme directory of which the first cannot
be loaded, the Easy deck has its pair of that image on the board positions 1 and 2; the two
sprites get the fallback symbols "IMG2" and "IMG3" by position, each of which is on no other
sprite, so the two cards match no card and the board has 12 sprites that cannot be split
into 6 matching pairs. -/
theorem fallback_symbols_unpaired :
    brokenBoard.totalPairs = 6 ∧ brokenBoard.cards.length = 12 ∧
      (brokenBoard.gameCards.map (fun c => c.symbol)).count "assets/images/animals/a.png" = 2 ∧
      (brokenBoard.gameCards[1]?).map (fun c => c.symbol) =
        (brokenBoard.gameCards[2]?).map (fun c => c.symbol) ∧
      (boardSymbols brokenBoard)[1]? = some "IMG2" ∧
      (boardSymbols brokenBoard)[2]? = some "IMG3" ∧
      (boardSymbols brokenBoard).count "IMG2" = 1 ∧
      (boardSymbols brokenBoard).count "IMG3" = 1 ∧
      (∀ j : Nat, j < brokenBoard.cards.length → j ≠ 1 → symbolsMatch brokenBoard 1 j = false) ∧
      (∀ j : Nat, j < brokenBoard.cards.length → j ≠ 2 → symbolsMatch brokenBoard 2 j = false) := by
  decide

end MemoryGame
